import Mathlib

/-!
# El-Pico pizza cooker firmware (v4.4): control core

A shallow embedding of `Firmware/v4/main.cpp`.

Modelling conventions
* `float` values are exact rationals (`ℚ`); the constants `0.8f`, `0.2f`, ... are the
  decimal fractions they denote.  A probe reading is `Option ℚ`, `none` being NaN.
* `uint32_t` timestamps are naturals below `2^32`; subtraction wraps (`sub32`).
  `uint8_t` values are naturals; conversions into `uint8_t` keep the low byte (`toU8`).
* `int32_t` values are integers, `/` is the truncating division `Int.tdiv`.
* Pins are booleans, `true` = HIGH.  The state records the level last written.
* Global and function-static variables are the fields of `Sys`.
* Everything the firmware reads from outside during one pass of `loop` (clock, pins,
  probes, the auto-tune library) is a field of `Env`.
* The OLED renderer and the serial telemetry are left out: they read the control state and
  write only their own bookkeeping (`prevOven`, the message pointer, their timers).
* Integer intermediates of `calculatePower` stay far inside `int32_t` for PID outputs in
  `0..255` and non-negative limits, so they are plain integers.
-/

namespace ElPico

/-! ## Machine arithmetic -/

/-- Two to the power 32, the modulus of `uint32_t`. -/
def U32 : Nat := 4294967296

/-- Subtraction of `uint32_t` values (wraps around). -/
def sub32 (a b : Nat) : Nat := (a % U32 + (U32 - b % U32)) % U32

/-- Addition of `uint32_t` values (wraps around). -/
def add32 (a b : Nat) : Nat := (a + b) % U32

/-- Conversion of an integer to `uint8_t`: the low byte. -/
def toU8 (x : Int) : Nat := (x % 256).toNat

/-- Conversion of a float to an integer type: truncation toward zero. -/
def ftrunc (q : ℚ) : Int := Int.tdiv q.num q.den

/-- The helper `f_abs` of the firmware. -/
def f_abs (v : ℚ) : ℚ := if v < 0 then -v else v

/-- The Arduino macro `min(a,b)`, that is `((a)<(b)?(a):(b))`. -/
def fmin (a b : ℚ) : ℚ := if a < b then a else b

/-- The Arduino macro `max(a,b)`, that is `((a)>(b)?(a):(b))`. -/
def fmax (a b : ℚ) : ℚ := if a > b then a else b

/-! ## Configuration -/

namespace Config

def EEPROM_MAGIC : Nat := 0x50495A36

namespace Hard
def RATED_UP_W : ℚ := 850
def RATED_LO_W : ℚ := 570
def STONE_THICK_MM : ℚ := 4
def PLATE_MAX_C : ℚ := 650
def HEATER_MAX_C : ℚ := 820
def COOL_COMPLETE_C : ℚ := 100
def RUNAWAY_TIMEOUT_MS : Nat := 30000
def REST_TIMEOUT_MS : Nat := 30 * 60 * 1000
def EEPROM_IDLE_TIMEOUT_MS : Nat := 30000
def BOOST_MS : Nat := 30000
def BAKE_DONE_MSG_MS : Nat := 3000
def TUNE_TARGET_C : ℚ := 350
end Hard

/-- One entry of the recipe table. -/
structure Recipe where
  name : String
  upC : ℚ
  loC : ℚ
  readyMsg : String
  bakeSec : Nat
deriving DecidableEq

def recipes : List Recipe :=
  [ ⟨"Napoli", 500, 430, "Pizza Time", 90⟩,
    ⟨"Romana", 330, 310, "Crispy Romana", 180⟩ ]

def RECIPE_CNT : Nat := 2

/-- One entry of the power-limit table. -/
structure Limit where
  label : String
  watts : ℚ
deriving DecidableEq

def limits : List Limit :=
  [ ⟨"1.4kW", 1420⟩, ⟨"1.0kW", 1000⟩, ⟨"0.7kW", 700⟩ ]

def LIMIT_CNT : Nat := 3

end Config

namespace AskConfirmation
def NONE : Nat := 0
def CANCEL_TUNE : Nat := 1
def START_TUNE : Nat := 2
def FACTORY_RESET : Nat := 3
end AskConfirmation

/-! ## The heater control class -/

/-- What one call of `PID_ATune::Runtime()` does, as seen by the firmware: its return
value, the value it leaves in the output variable, and the tunings the getters report. -/
structure ATuneStep where
  ret : Int
  out : ℚ
  kp : ℚ
  ki : ℚ
  kd : ℚ
deriving DecidableEq

/-- The class `IntelligentHeater`.  `ssr` is the level last written to the SSR pin and
`_aTune` tells whether the auto-tune session pointer is non-null. -/
structure IntelligentHeater where
  plateC : ℚ
  heaterC : ℚ
  soak : ℚ
  trend : ℚ
  pwm : Nat
  error : Nat
  ssr : Bool
  _aTune : Bool
  _in : ℚ
  _out : ℚ
  _set : ℚ
  _runawayMs : Nat
  _winStart : Nat
  _first : Bool
  _tuning : Bool
  _overheatCnt : Nat
  _lastOut : Nat
  _onTimeMs : Nat
  _kp : ℚ
  _ki : ℚ
  _kd : ℚ
  _iTerm : ℚ
  _lastInput : ℚ
deriving DecidableEq

namespace IntelligentHeater

/-- The constructor: member initialisers, SSR pin LOW, window start = `millis()`. -/
def new (ms : Nat) : IntelligentHeater :=
  { plateC := 0, heaterC := 0, soak := 0, trend := 0, pwm := 0, error := 0,
    ssr := false, _aTune := false, _in := 0, _out := 0, _set := 0,
    _runawayMs := 0, _winStart := ms, _first := true, _tuning := false,
    _overheatCnt := 0, _lastOut := 256, _onTimeMs := 0,
    _kp := 7/2, _ki := 1/20, _kd := 1, _iTerm := 0, _lastInput := 0 }

def pidOut (z : IntelligentHeater) : ℚ := z._out

def setTunings (z : IntelligentHeater) (kp ki kd : ℚ) : IntelligentHeater :=
  { z with _kp := kp, _ki := ki, _kd := kd }

def getKp (z : IntelligentHeater) : ℚ := z._kp
def getKi (z : IntelligentHeater) : ℚ := z._ki
def getKd (z : IntelligentHeater) : ℚ := z._kd

def startTune (z : IntelligentHeater) : IntelligentHeater :=
  { z with _aTune := true, _tuning := true }

def stopTune (z : IntelligentHeater) : IntelligentHeater :=
  { z with _tuning := false, _aTune := false }

def isTuning (z : IntelligentHeater) : Bool := z._tuning

/-- The method `reset()`; `ms` is the value of `millis()`. -/
def reset (z : IntelligentHeater) (ms : Nat) : IntelligentHeater :=
  { z with
    error := 0, pwm := 0, _out := 0, soak := 0, trend := 0, _overheatCnt := 0,
    _first := true, ssr := false,
    plateC := 0, heaterC := 0,
    _runawayMs := ms, _winStart := ms,
    _iTerm := 0, _lastInput := 0 }

/-- The rejection test at the head of `tick`, for one probe with ceiling `ceil`. -/
def probeBad (r : Option ℚ) (ceil : ℚ) : Bool :=
  match r with
  | none => true
  | some v => decide (v < 0) || decide (v > ceil)

/-- The sensor-fault exit of `tick`. -/
def tickReject (z : IntelligentHeater) : IntelligentHeater :=
  { z with error := z.error ||| 1, pwm := 0, _out := 0, ssr := false }

/-- First-sample tracking and the two filters of `tick`. -/
def tickFilter (z : IntelligentHeater) (rp rh : ℚ) (ms : Nat) : IntelligentHeater :=
  let z1 := { z with error := z.error &&& 254, heaterC := rh }
  let z2 := if z1._first then
      { z1 with plateC := rp, _first := false, _runawayMs := ms, _lastInput := rp }
    else z1
  let prev := z2.plateC
  let plateC := (4/5 : ℚ) * z2.plateC + (1/5 : ℚ) * rp
  { z2 with plateC := plateC, trend := (9/10 : ℚ) * z2.trend + (1/10 : ℚ) * (plateC - prev) }

/-- The soak estimator of `tick`. -/
def tickSoak (z : IntelligentHeater) (target : ℚ) : IntelligentHeater :=
  let step : ℚ := 1 / Config.Hard.STONE_THICK_MM
  let soak := if target > 50 ∧ f_abs (target - z.plateC) < 5 then
      fmin 100 (z.soak + step)
    else
      fmax 0 (z.soak - step * (1/2 : ℚ))
  { z with soak := soak, _in := z.plateC, _set := target }

/-- The PID or auto-tune step of `tick`, up to the assignment of `pwm`. -/
def tickPid (z : IntelligentHeater) (tune : ATuneStep) : IntelligentHeater :=
  let z1 :=
    if z._tuning then
      if z._aTune then
        -- `Runtime()` is called and may write the output variable
        let zr := { z with _out := tune.out }
        if tune.ret ≠ 0 then (zr.setTunings tune.kp tune.ki tune.kd).stopTune else zr
      else z
    else
      let error := z._set - z._in
      let i0 := z._iTerm + z._ki * error
      let iTerm := if i0 > 255 then 255 else if i0 < 0 then 0 else i0
      let dInput := z._in - z._lastInput
      let o0 := z._kp * error + iTerm - z._kd * dInput
      let output := if o0 > 255 then 255 else if o0 < 0 then 0 else o0
      { z with _iTerm := iTerm, _out := output, _lastInput := z._in }
  { z1 with pwm := toU8 (ftrunc z1._out) }

/-- The runaway detector of `tick`. -/
def tickRunaway (z : IntelligentHeater) (ms : Nat) : IntelligentHeater :=
  if z.pwm = 0 ∧ z.trend > 3/2 then
    if sub32 ms z._runawayMs > Config.Hard.RUNAWAY_TIMEOUT_MS then
      { z with error := z.error ||| 2 }
    else z
  else { z with _runawayMs := ms }

/-- The wear accumulator of `tick`: new health and the `damaged` flag. -/
def tickHealth (z : IntelligentHeater) (health : ℚ) : ℚ × Bool :=
  let limit := Config.Hard.HEATER_MAX_C
  if z.heaterC > limit + 40 then (fmax 0 (health - 1/100), true)
  else if z.heaterC > limit + 20 then (fmax 0 (health - 2/1000), true)
  else (health, false)

/-- The over-temperature test at the end of `tick`. -/
def tickOverheat (z : IntelligentHeater) : IntelligentHeater :=
  if z.plateC > Config.Hard.PLATE_MAX_C then { z with error := z.error ||| 4 } else z

/-- The method `tick(target, health)`.  `rp`, `rh` are the two probe readings, `tune` is
what the auto-tune library does if it is called, `ms` is `millis()`.  The result is the
new zone, the new value of `health` and the returned flag. -/
def tick (z : IntelligentHeater) (rp rh : Option ℚ) (tune : ATuneStep) (ms : Nat)
    (target health : ℚ) : IntelligentHeater × ℚ × Bool :=
  if probeBad rp Config.Hard.PLATE_MAX_C || probeBad rh (Config.Hard.HEATER_MAX_C + 100) then
    (z.tickReject, health, false)
  else
    let z1 := z.tickFilter (rp.getD 0) (rh.getD 0) ms
    let z2 := z1.tickSoak target
    let z3 := z2.tickPid tune
    let z4 := z3.tickRunaway ms
    let h := z4.tickHealth health
    (z4.tickOverheat, h.1, h.2)

/-- The method `drive(out)`; `ms` is `millis()`. -/
def drive (z : IntelligentHeater) (out : Nat) (ms : Nat) : IntelligentHeater :=
  let z1 := if out ≠ z._lastOut then
      { z with _onTimeMs := out * 1000 / 255, _lastOut := out }
    else z
  let z2 := if sub32 ms z1._winStart ≥ 1000 then { z1 with _winStart := ms } else z1
  { z2 with ssr := decide (sub32 ms z2._winStart < z2._onTimeMs) }

end IntelligentHeater

/-! ## Globals -/

inductive OvenState where
  | IDLE | PREHEAT | READY | BAKING | BAKE_DONE | REST | COOLING | SHUTDOWN | ERROR | TUNING
deriving DecidableEq, Repr

/-- The persisted block `Settings`. -/
structure Settings where
  magic : Nat
  recipeIdx : Nat
  limitIdx : Nat
  upHealth : ℚ
  loHealth : ℚ
  upKp : ℚ
  upKi : ℚ
  upKd : ℚ
  loKp : ℚ
  loKi : ℚ
  loKd : ℚ
deriving DecidableEq

/-- The default block written on first boot and on factory reset. -/
def defaultSettings : Settings :=
  { magic := Config.EEPROM_MAGIC, recipeIdx := 0, limitIdx := 0,
    upHealth := 100, loHealth := 100,
    upKp := 7/2, upKi := 1/20, upKd := 1,
    loKp := 7/2, loKi := 1/20, loKd := 1 }

/-- The global variables, the function-static variables, the safety-relay pin and the
settings block held in EEPROM. -/
structure Sys where
  up : IntelligentHeater
  lo : IntelligentHeater
  oven : OvenState
  prevOven : OvenState
  settings : Settings
  lastSaveSettings : Settings
  eeprom : Settings
  baking : Bool
  askConfirmation : Nat
  confirmationYes : Bool
  tuneStage : Nat
  curBakeSec : Nat
  bakeStartMs : Nat
  bakeDoneMsgMs : Nat
  boostStartMs : Nat
  restStartMs : Nat
  lastActMs : Nat
  lastSavedUpHealth : ℚ
  lastSavedLoHealth : ℚ
  currentRecipe : Config.Recipe
  targetUpPWM : Nat
  targetLoPWM : Nat
  temporaryMsg : Option String
  temporaryMsgEndMs : Nat
  relay : Bool
  /-- static `dirty` of `dirtySave` -/
  dirty : Bool
  /-- static `lastMs` of `dirtySave` -/
  dirtyLastMs : Nat
  /-- statics of `handleInput` -/
  lastClk : Bool
  lastEncMs : Nat
  lastSw : Bool
  pressStartMs : Nat
  longPressHandled : Bool
  /-- static `lastCtrlMs` of `runControlTick` -/
  lastCtrlMs : Nat
  /-- static `coolStableStart` of `runControlTick` -/
  coolStableStart : Nat
deriving DecidableEq

/-- Everything read from outside during one pass of `loop`. -/
structure Env where
  /-- `millis()` as sampled at the top of `loop` -/
  now : Nat
  /-- `millis()` as read inside `handleInput` and `runControlTick` (zone methods,
  `startBake`, `dirtySave(true)`) -/
  ms : Nat
  /-- `millis()` as read in the two `drive` calls -/
  msDrive : Nat
  /-- `millis()` as read in the closing `dirtySave()` -/
  msSave : Nat
  encClk : Bool
  encDt : Bool
  encSw : Bool
  upPlate : Option ℚ
  upHeater : Option ℚ
  loPlate : Option ℚ
  loHeater : Option ℚ
  upTune : ATuneStep
  loTune : ATuneStep
  /-- the `int32_t` obtained when `limitIdx` points past the power-limit table -/
  strayLimW : Int

/-- The function `dirtySave(set)`; `ms` is `millis()`. -/
def dirtySave (s : Sys) (set : Bool) (ms : Nat) : Sys :=
  if set then { s with dirty := true, dirtyLastMs := ms }
  else
    let timeout := sub32 ms s.dirtyLastMs > Config.Hard.EEPROM_IDLE_TIMEOUT_MS
    let urgent := s.oven = OvenState.SHUTDOWN ∨ s.oven = OvenState.ERROR
    if s.dirty = true ∧ (timeout ∨ urgent) then
      let s1 := { s with dirty := false }
      if s1.settings ≠ s1.lastSaveSettings then
        { s1 with eeprom := s1.settings, lastSaveSettings := s1.settings }
      else s1
    else s

/-- The function `startBake(sec)`; `ms` is `millis()`. -/
def startBake (s : Sys) (sec : Nat) (ms : Nat) : Sys :=
  { s with baking := true, curBakeSec := sec,
           bakeStartMs := ms, boostStartMs := ms, lastActMs := ms,
           oven := OvenState.BAKING }

/-- The recipe table entry copied by `memcpy_P`; `stray` is what lies past the table.
In `handleInput` the index is 0 or 1, so the fallback passed there is never used. -/
def recipeAt (stray : Config.Recipe) (idx : Nat) : Config.Recipe :=
  Config.recipes.getD idx stray

/-! ## Input handling -/

/-- The encoder half of `handleInput`. -/
def handleRotate (s : Sys) (e : Env) : Sys :=
  let now := e.now
  let s1 :=
    if s.lastClk = true ∧ e.encClk = false ∧ sub32 now s.lastEncMs > 50 then
      let s := { s with lastEncMs := now, lastActMs := now }
      let dir : Int := if e.encDt ≠ false then 1 else -1
      if s.askConfirmation ≠ AskConfirmation.NONE then
        { s with confirmationYes := !s.confirmationYes }
      else if s.oven ≠ OvenState.ERROR ∧ s.oven ≠ OvenState.TUNING then
        let idx := toU8 (Int.tmod ((s.settings.recipeIdx : Int) + dir + Config.RECIPE_CNT)
                          Config.RECIPE_CNT)
        let s := { s with settings := { s.settings with recipeIdx := idx } }
        let s := { s with currentRecipe := recipeAt s.currentRecipe idx }
        dirtySave s true e.ms
      else s
    else s
  { s1 with lastClk := e.encClk }

/-- The action dispatched by a short press on a prompt whose selection is "yes". -/
def confirmAction (s : Sys) (e : Env) : Sys :=
  let now := e.now
  if s.askConfirmation = AskConfirmation.CANCEL_TUNE then
    let s := { s with up := (s.up.stopTune).reset e.ms, lo := (s.lo.stopTune).reset e.ms }
    let s := { s with oven := OvenState.SHUTDOWN, tuneStage := 0,
                      temporaryMsg := some "Canceled",
                      temporaryMsgEndMs := add32 now 2000 }
    dirtySave s true e.ms
  else if s.askConfirmation = AskConfirmation.START_TUNE then
    { s with up := s.up.reset e.ms, lo := s.lo.reset e.ms,
             oven := OvenState.TUNING, tuneStage := 0,
             temporaryMsg := some "Tuning Start",
             temporaryMsgEndMs := add32 now 2000 }
  else if s.askConfirmation = AskConfirmation.FACTORY_RESET then
    let s := { s with settings := defaultSettings, eeprom := defaultSettings,
                      lastSaveSettings := defaultSettings }
    let s := { s with
      up := s.up.setTunings s.settings.upKp s.settings.upKi s.settings.upKd,
      lo := s.lo.setTunings s.settings.loKp s.settings.loKi s.settings.loKd,
      currentRecipe := recipeAt s.currentRecipe s.settings.recipeIdx }
    { s with up := s.up.reset e.ms, lo := s.lo.reset e.ms,
             oven := OvenState.SHUTDOWN,
             temporaryMsg := some "Factory Reset",
             temporaryMsgEndMs := add32 now 2000 }
  else s

/-- The short-press action of `handleInput`. -/
def shortPress (s : Sys) (e : Env) : Sys :=
  let s := { s with lastActMs := e.now }
  if s.askConfirmation ≠ AskConfirmation.NONE then
    let s1 := if s.confirmationYes then confirmAction s e else s
    { s1 with askConfirmation := AskConfirmation.NONE }
  else if s.oven ≠ OvenState.ERROR ∧ s.oven ≠ OvenState.TUNING then
    let s := { s with settings :=
      { s.settings with limitIdx := toU8 (((s.settings.limitIdx + 1) % Config.LIMIT_CNT : Nat)) } }
    dirtySave s true e.ms
  else s

/-- The long-press action of `handleInput`. -/
def longPress (s : Sys) (e : Env) : Sys :=
  let s := { s with lastActMs := e.now }
  let s1 :=
    if s.oven = OvenState.TUNING then
      { s with askConfirmation := AskConfirmation.CANCEL_TUNE, confirmationYes := false,
               longPressHandled := true }
    else if s.oven = OvenState.ERROR then
      { s with oven := OvenState.IDLE, relay := true,
               temporaryMsg := some "System Reset",
               temporaryMsgEndMs := add32 e.now 1000 }
    else if s.oven = OvenState.IDLE then
      { s with askConfirmation := AskConfirmation.FACTORY_RESET, confirmationYes := false }
    else s
  { s1 with longPressHandled := true }

/-- The push-switch half of `handleInput`. -/
def handlePress (s : Sys) (e : Env) : Sys :=
  let now := e.now
  let sw := e.encSw
  let s1 :=
    if sw = false ∧ s.lastSw = true then
      { s with pressStartMs := now, longPressHandled := false }
    else if sw = true ∧ s.lastSw = false then
      if sub32 now s.pressStartMs > 50 ∧ s.longPressHandled = false then shortPress s e else s
    else if sw = false ∧ s.longPressHandled = false then
      if sub32 now s.pressStartMs > 2000 then longPress s e else s
    else s
  { s1 with lastSw := sw }

/-- The function `handleInput(now)`. -/
def handleInput (s : Sys) (e : Env) : Sys :=
  handlePress (handleRotate s e) e

/-! ## Power allocation -/

/-- The `int32_t` value of `lim.watts` for the selected power limit. -/
def limitW (stray : Int) (idx : Nat) : Int :=
  match Config.limits.get? idx with
  | some l => ftrunc l.watts
  | none => stray

/-- The boost branch of `calculatePower`: `(targetUpPWM, targetLoPWM)` from the two
converted PID outputs and the limit. -/
def allocBoost (upOut loOut limW : Int) : Nat × Nat :=
  let ratedUp : Int := ftrunc Config.Hard.RATED_UP_W
  let ratedLo : Int := ftrunc Config.Hard.RATED_LO_W
  let upReqW := Int.tdiv (upOut * ratedUp) 255
  let loReqW := Int.tdiv (loOut * ratedLo) 255
  let loActiveW := if limW < loReqW then limW else loReqW
  let upMaxW := if limW - loActiveW > 0 then limW - loActiveW else 0
  let upAllocW := if upReqW < upMaxW then upReqW else upMaxW
  (toU8 (Int.tdiv (upAllocW * 255) ratedUp), toU8 (Int.tdiv (loActiveW * 255) ratedLo))

/-- The normal branch of `calculatePower`. -/
def allocNormal (upOut loOut limW : Int) : Nat × Nat :=
  let ratedUp : Int := ftrunc Config.Hard.RATED_UP_W
  let ratedLo : Int := ftrunc Config.Hard.RATED_LO_W
  let loReqW := Int.tdiv (loOut * ratedLo) 255
  let loW := if loReqW < limW then loReqW else limW
  let remW := if limW - loW > 0 then limW - loW else 0
  let upReqW := Int.tdiv (upOut * ratedUp) 255
  let upW := if upReqW < remW then upReqW else remW
  (toU8 (Int.tdiv (upW * 255) ratedUp), toU8 (Int.tdiv (loW * 255) ratedLo))

/-- The body of `calculatePower` after the limit has been read: `limW` is the limit,
`boost` the value of `baking && now - boostStartMs < BOOST_MS`. -/
def allocate (upOut loOut limW : Int) (boost : Bool) : Nat × Nat :=
  if boost then allocBoost upOut loOut limW else allocNormal upOut loOut limW

/-- The function `calculatePower(now)`. -/
def calculatePower (s : Sys) (now : Nat) (strayLimW : Int) : Sys :=
  if s.oven = OvenState.TUNING then
    { s with targetUpPWM := toU8 (ftrunc s.up.pidOut),
             targetLoPWM := toU8 (ftrunc s.lo.pidOut) }
  else
    let limW := limitW strayLimW s.settings.limitIdx
    let boost : Bool :=
      s.baking && decide (sub32 now s.boostStartMs < Config.Hard.BOOST_MS)
    let t := allocate (ftrunc s.up.pidOut) (ftrunc s.lo.pidOut) limW boost
    let s1 := { s with targetUpPWM := t.1, targetLoPWM := t.2 }
    if s1.up.error ≠ 0 ∨ s1.lo.error ≠ 0 ∨ s1.oven = OvenState.ERROR then
      { s1 with targetUpPWM := 0, targetLoPWM := 0 }
    else s1

/-! ## The control tick -/

/-- Tuning state, stage bookkeeping (the `if / else if` chain on `tuneStage`). -/
def tuneAdvance (s : Sys) (e : Env) : Sys :=
  if s.tuneStage = 0 then
    { s with up := s.up.startTune, tuneStage := 1 }
  else if s.tuneStage = 1 ∧ s.up.isTuning = false then
    let s := { s with settings :=
      { s.settings with upKp := s.up.getKp, upKi := s.up.getKi, upKd := s.up.getKd } }
    { dirtySave s true e.ms with tuneStage := 2 }
  else if s.tuneStage = 2 then
    { s with lo := s.lo.startTune, tuneStage := 3 }
  else if s.tuneStage = 3 ∧ s.lo.isTuning = false then
    let s := { s with settings :=
      { s.settings with loKp := s.lo.getKp, loKi := s.lo.getKi, loKd := s.lo.getKd } }
    { dirtySave s true e.ms with oven := OvenState.SHUTDOWN, tuneStage := 0 }
  else s

/-- One call `up.tick(target, settings.upHealth)`. -/
def tickUp (s : Sys) (e : Env) (target : ℚ) : Sys × Bool :=
  let r := s.up.tick e.upPlate e.upHeater e.upTune e.ms target s.settings.upHealth
  ({ s with up := r.1, settings := { s.settings with upHealth := r.2.1 } }, r.2.2)

/-- One call `lo.tick(target, settings.loHealth)`. -/
def tickLo (s : Sys) (e : Env) (target : ℚ) : Sys × Bool :=
  let r := s.lo.tick e.loPlate e.loHeater e.loTune e.ms target s.settings.loHealth
  ({ s with lo := r.1, settings := { s.settings with loHealth := r.2.1 } }, r.2.2)

/-- Tuning state, the zone ticks of stages 1 and 3. -/
def tuneTicks (s : Sys) (e : Env) : Sys :=
  let s1 := if s.tuneStage = 1 then
      (tickLo (tickUp s e Config.Hard.TUNE_TARGET_C).1 e 0).1
    else s
  if s1.tuneStage = 3 then
    (tickUp (tickLo s1 e Config.Hard.TUNE_TARGET_C).1 e 0).1
  else s1

/-- Tuning state, the safety check that ends the branch. -/
def tuneSafety (s : Sys) (e : Env) : Sys :=
  if s.up.error ≠ 0 ∨ s.lo.error ≠ 0 then
    let s := { s with oven := OvenState.ERROR }
    let s := { s with up := (s.up.stopTune).reset e.ms, lo := (s.lo.stopTune).reset e.ms,
                      relay := false }
    dirtySave s true e.ms
  else s

/-- The automatic step Idle → Preheat. -/
def idleToPreheat (s : Sys) (e : Env) : Sys :=
  if s.oven = OvenState.IDLE ∧ s.askConfirmation = AskConfirmation.NONE then
    { s with oven := OvenState.PREHEAT, up := s.up.reset e.ms, lo := s.lo.reset e.ms }
  else s

/-- The predicate `isHeating` of `runControlTick`. -/
def isHeating (s : Sys) : Bool :=
  decide (s.oven ≠ OvenState.REST ∧ s.oven ≠ OvenState.COOLING ∧
          s.oven ≠ OvenState.SHUTDOWN ∧ s.oven ≠ OvenState.ERROR ∧
          s.askConfirmation = AskConfirmation.NONE)

/-- The two zone ticks of the normal path followed by the health bookkeeping. -/
def heatTicks (s : Sys) (e : Env) : Sys :=
  let r := s.currentRecipe
  let heating := isHeating s
  let a := tickUp s e (if heating then r.upC else 0)
  let b := tickLo a.1 e (if heating then r.loC else 0)
  let s := b.1
  if a.2 || b.2 then
    if f_abs (s.settings.upHealth - s.lastSavedUpHealth) ≥ 1 ∨
       f_abs (s.settings.loHealth - s.lastSavedLoHealth) ≥ 1 then
      { dirtySave s true e.ms with
        lastSavedUpHealth := s.settings.upHealth, lastSavedLoHealth := s.settings.loHealth }
    else s
  else s

/-- The local `ready` of `runControlTick`. -/
def ready (s : Sys) : Bool :=
  let r := s.currentRecipe
  decide (f_abs (s.up.plateC - r.upC) < 5 ∧ f_abs (s.lo.plateC - r.loC) < 5 ∧
          fmin s.up.soak s.lo.soak > 95)

/-- Ready / bake-start / rest-timeout block. -/
def bakeJudge (s : Sys) (e : Env) : Sys :=
  let rdy := ready s
  if s.baking = false ∧ (s.oven = OvenState.PREHEAT ∨ s.oven = OvenState.READY) then
    let s := { s with oven := if rdy then OvenState.READY else OvenState.PREHEAT }
    let s := if rdy = true ∧ s.lo.trend < -2 then startBake s s.currentRecipe.bakeSec e.ms else s
    if sub32 e.now s.lastActMs > Config.Hard.REST_TIMEOUT_MS then
      { s with oven := OvenState.REST, restStartMs := e.now }
    else s
  else s

/-- Bake end and the bake-done message timer. -/
def bakeDone (s : Sys) (e : Env) : Sys :=
  let s := if s.baking = true ∧ sub32 e.now s.bakeStartMs ≥ (s.curBakeSec * 1000) % U32 then
      { s with baking := false, oven := OvenState.BAKE_DONE, bakeDoneMsgMs := e.now }
    else s
  if s.oven = OvenState.BAKE_DONE ∧
     sub32 e.now s.bakeDoneMsgMs > Config.Hard.BAKE_DONE_MSG_MS then
    { s with oven := OvenState.PREHEAT }
  else s

/-- The local `cooledConfirmed`, read after `coolStableStart` has been updated. -/
def cooledConfirmed (s : Sys) (e : Env) : Bool :=
  decide (s.coolStableStart ≠ 0 ∧ sub32 e.now s.coolStableStart > 2000)

/-- Cooling management: the debounce and the Rest → Cooling → Shutdown steps. -/
def coolManage (s : Sys) (e : Env) : Sys :=
  let now := e.now
  let cooledNow := s.up.plateC < Config.Hard.COOL_COMPLETE_C ∧
                   s.lo.plateC < Config.Hard.COOL_COMPLETE_C
  let s := if ¬ cooledNow then { s with coolStableStart := 0 }
           else if s.coolStableStart = 0 then { s with coolStableStart := now } else s
  let confirmed := cooledConfirmed s e
  if s.oven = OvenState.REST ∧
     (sub32 now s.restStartMs > Config.Hard.REST_TIMEOUT_MS ∨ confirmed = true) then
    { s with oven := OvenState.COOLING, bakeDoneMsgMs := now }
  else if s.oven = OvenState.COOLING then
    if confirmed then
      if sub32 now s.bakeDoneMsgMs > 3000 then
        let s := { s with oven := OvenState.SHUTDOWN,
                          up := s.up.reset e.ms, lo := s.lo.reset e.ms,
                          coolStableStart := 0 }
        dirtySave s true e.ms
      else s
    else { s with bakeDoneMsgMs := now }
  else s

/-- The emergency stop that ends the normal path, or else `calculatePower(now)`. -/
def emergencyOrPower (s : Sys) (e : Env) : Sys :=
  if s.up.error ≠ 0 ∨ s.lo.error ≠ 0 then
    let s := { s with oven := OvenState.ERROR,
                      up := s.up.reset e.ms, lo := s.lo.reset e.ms,
                      targetUpPWM := 0, targetLoPWM := 0, relay := false }
    dirtySave s true e.ms
  else calculatePower s e.now e.strayLimW

/-- The function `runControlTick(now)`. -/
def runControlTick (s : Sys) (e : Env) : Sys :=
  if sub32 e.now s.lastCtrlMs ≥ 1000 then
    let s := { s with lastCtrlMs := e.now }
    if s.oven = OvenState.TUNING then
      tuneSafety (tuneTicks (tuneAdvance s e) e) e
    else
      emergencyOrPower (coolManage (bakeDone (bakeJudge (heatTicks (idleToPreheat s e) e) e) e) e) e
  else s

/-! ## Main loop and boot -/

/-- The output-driving part of `loop`. -/
def driveOutputs (s : Sys) (e : Env) : Sys :=
  if s.oven = OvenState.ERROR then
    { s with up := s.up.drive 0 e.msDrive, lo := s.lo.drive 0 e.msDrive }
  else
    let s := if s.oven = OvenState.TUNING ∧ s.tuneStage = 1 then { s with targetLoPWM := 0 } else s
    let s := if s.oven = OvenState.TUNING ∧ s.tuneStage = 3 then { s with targetUpPWM := 0 } else s
    { s with up := s.up.drive s.targetUpPWM e.msDrive, lo := s.lo.drive s.targetLoPWM e.msDrive }

/-- One pass of `loop()`. -/
def loop (s : Sys) (e : Env) : Sys :=
  dirtySave (driveOutputs (runControlTick (handleInput s e) e) e) false e.msSave

/-- The state at the end of `setup()`.  `stored` is the block found in EEPROM, `swHeld`
tells whether the switch is held at power-on, `msCtor` and `ms` are `millis()` at the
construction of the zones and at the end of `setup`, `stray` is what lies past the recipe
table. -/
def setup (stored : Settings) (swHeld : Bool) (msCtor ms : Nat) (stray : Config.Recipe) : Sys :=
  let settings := if stored.magic ≠ Config.EEPROM_MAGIC then defaultSettings else stored
  { up := (IntelligentHeater.new msCtor).setTunings settings.upKp settings.upKi settings.upKd,
    lo := (IntelligentHeater.new msCtor).setTunings settings.loKp settings.loKi settings.loKd,
    oven := OvenState.IDLE, prevOven := OvenState.IDLE,
    settings := settings, lastSaveSettings := settings, eeprom := settings,
    baking := false,
    askConfirmation := if swHeld then AskConfirmation.START_TUNE else AskConfirmation.NONE,
    confirmationYes := false,
    tuneStage := 0, curBakeSec := 0,
    bakeStartMs := 0, bakeDoneMsgMs := 0, boostStartMs := 0, restStartMs := 0,
    lastActMs := ms,
    lastSavedUpHealth := settings.upHealth, lastSavedLoHealth := settings.loHealth,
    currentRecipe := recipeAt stray settings.recipeIdx,
    targetUpPWM := 0, targetLoPWM := 0,
    temporaryMsg := none, temporaryMsgEndMs := 0,
    relay := true,
    dirty := false, dirtyLastMs := 0,
    lastClk := true, lastEncMs := 0, lastSw := true, pressStartMs := 0,
    longPressHandled := false,
    lastCtrlMs := 0, coolStableStart := 0 }

/-- The states the firmware can be in at the top of `loop`: the state after `setup`, and
every state obtained from such a state by one pass of `loop`. -/
inductive Reachable : Sys → Prop where
  | boot (stored : Settings) (swHeld : Bool) (msCtor ms : Nat) (stray : Config.Recipe) :
      Reachable (setup stored swHeld msCtor ms stray)
  | step (s : Sys) (e : Env) : Reachable s → Reachable (loop s e)

/-! ## Reference definitions and sample states -/

/-- Reference definition of the allocation, written from the words of the specification
(section 4.2, steps 1, 2 and 4, normal mode): requested watts, lower zone first, the
remainder to the upper zone, conversion back to duties.  `/` is integer division.  The
result is `(up_duty, lo_duty)`. -/
def specAllocate (up_raw lo_raw limit_w : Int) : Int × Int :=
  let up_req_w := up_raw * 850 / 255
  let lo_req_w := lo_raw * 570 / 255
  let lo_w := min lo_req_w limit_w
  let rem := max 0 (limit_w - lo_w)
  let up_w := min up_req_w rem
  (up_w * 255 / 850, lo_w * 255 / 570)

/-- The state after `setup()` on a blank EEPROM, switch released, clock at 0. -/
def bootState : Sys :=
  setup { defaultSettings with magic := 0 } false 0 0 ⟨"", 0, 0, "", 0⟩

/-- A sample state for the allocator: both PID outputs at 255, limit "1.0kW". -/
def contendState : Sys :=
  { bootState with
    oven := OvenState.PREHEAT,
    up := { bootState.up with _out := 255 },
    lo := { bootState.lo with _out := 255 },
    settings := { bootState.settings with limitIdx := 1 } }

/-- The zone's cached duty and on-time agree at duty 0: a cached duty of 0 comes with an
on-time of 0 ms. -/
def CacheOK (z : IntelligentHeater) : Prop := z._lastOut = 0 → z._onTimeMs = 0

/-- The safety part of the loop invariant: in Error the relay pin is LOW, and both zones
have a consistent duty cache. -/
def SafeInv (s : Sys) : Prop :=
  (s.oven = OvenState.ERROR → s.relay = false) ∧ CacheOK s.up ∧ CacheOK s.lo

/-- The invariant of `loop`: no fault bit is set in either zone, and `SafeInv`. -/
def LoopInv (s : Sys) : Prop :=
  s.up.error = 0 ∧ s.lo.error = 0 ∧ SafeInv s

/-- The relation between the states before and after a step that neither writes the
relay pin, nor enters Error, nor touches the duty caches of the zones. -/
def Quiet (s t : Sys) : Prop :=
  t.relay = s.relay ∧ (t.oven = OvenState.ERROR → s.oven = OvenState.ERROR) ∧
  t.up._lastOut = s.up._lastOut ∧ t.up._onTimeMs = s.up._onTimeMs ∧
  t.lo._lastOut = s.lo._lastOut ∧ t.lo._onTimeMs = s.lo._onTimeMs

/-- An environment in which nothing happens: knobs untouched, all probes at 20 °C, every
clock read giving `now`. -/
def quietEnv (now : Nat) : Env :=
  { now := now, ms := now, msDrive := now, msSave := now,
    encClk := true, encDt := true, encSw := true,
    upPlate := some 20, upHeater := some 20, loPlate := some 20, loHeater := some 20,
    upTune := ⟨0, 0, 0, 0, 0⟩, loTune := ⟨0, 0, 0, 0, 0⟩, strayLimW := 0 }

/-- The quiet environment with a broken upper plate probe (NaN). -/
def faultEnv (now : Nat) : Env := { quietEnv now with upPlate := none }

/-- The quiet environment with the push switch held down. -/
def pressEnv (now : Nat) : Env := { quietEnv now with encSw := false }

/-- The quiet environment with a broken lower plate probe (NaN). -/
def loFaultEnv (now : Nat) : Env := { quietEnv now with loPlate := none }

/-- The quiet environment with the encoder clock line pulled LOW (one detent). -/
def rotateEnv (now : Nat) : Env := { quietEnv now with encClk := false }

/-- The quiet environment in which the auto-tune library, if called for the upper zone,
keeps running and writes 255 into the output variable. -/
def tuneEnv (now : Nat) : Env := { quietEnv now with upTune := ⟨0, 255, 0, 0, 0⟩ }

/-- The state after `setup()` with the switch held at power-on (StartTune prompt open). -/
def bootHeld : Sys :=
  setup { defaultSettings with magic := 0 } true 0 0 ⟨"", 0, 0, "", 0⟩

/-- From `bootHeld`: one detent selects "yes", then the switch is pressed at 200 ms and
released at 300 ms, which confirms the StartTune prompt. -/
def tuneEntered : Sys :=
  loop (loop (loop bootHeld (rotateEnv 100)) (pressEnv 200)) (quietEnv 300)

/-- From `bootHeld`: the first control tick finds the upper plate probe broken. -/
def heldFaulted : Sys := loop bootHeld (faultEnv 1000)

/-- From `heldFaulted`: one detent selects "yes", then the switch is pressed at 1200 ms
and released at 1300 ms (a short press). -/
def heldConfirmed : Sys :=
  loop (loop (loop heldFaulted (rotateEnv 1100)) (pressEnv 1200)) (quietEnv 1300)

/-- A Baking state: a 90 s bake started at time 0. -/
def bakingState : Sys :=
  { bootState with oven := OvenState.BAKING, baking := true, curBakeSec := 90,
                   bakeStartMs := 0, boostStartMs := 0 }

/-- A Cooling state: both filtered plate temperatures at 50 °C, cool since 1000 ms, last
control tick at 4000 ms. -/
def coolingState : Sys :=
  { bootState with
    oven := OvenState.COOLING,
    up := { bootState.up with plateC := 50, _first := false, _lastInput := 50 },
    lo := { bootState.lo with plateC := 50, _first := false, _lastInput := 50 },
    coolStableStart := 1000, bakeDoneMsgMs := 1000, lastCtrlMs := 4000 }

/-- A Tuning state (stage 1, upper zone tuning) whose upper target duty is still 200. -/
def tuningStale : Sys :=
  { bootState with
    oven := OvenState.TUNING, tuneStage := 1,
    up := bootState.up.startTune,
    targetUpPWM := 200, lastCtrlMs := 4000 }

/-- Rejection of one probe reading in the words of the specification: the probe returns
NaN, a negative value, or a value above its physical ceiling. -/
def specProbeRejected : Option ℚ → ℚ → Prop
  | none, _ => True
  | some v, ceiling => v < 0 ∨ v > ceiling

/-- Rejection of a pair of readings in the words of the specification: the plate probe
is rejected against 650 °C or the heater probe against 920 °C. -/
def specRejected (rp rh : Option ℚ) : Prop :=
  specProbeRejected rp 650 ∨ specProbeRejected rh 920

/-- A fresh zone in which the runaway bit is latched. -/
def latchedZone : IntelligentHeater := { IntelligentHeater.new 0 with error := 2 }

/-- The members of the packed record `Settings` with their widths in bytes on the target
(`uint32_t` 4, `uint8_t` 1, `float` 4), in declaration order. -/
def Settings.fieldWidths : List (String × Nat) :=
  [ ("magic", 4), ("recipeIdx", 1), ("limitIdx", 1), ("upHealth", 4), ("loHealth", 4),
    ("upKp", 4), ("upKi", 4), ("upKd", 4), ("loKp", 4), ("loKi", 4), ("loKd", 4) ]

/-- The size of the packed record `Settings`: no padding, the sum of the member widths. -/
def Settings.packedSize : Nat := (Settings.fieldWidths.map Prod.snd).sum

/-- The commit condition in the words of the specification: dirty, and the oven state is
Shutdown or Error or more than 30 s have passed since the last dirty mark, and the settings
block differs from the shadow copy. -/
def specCommit (s : Sys) (now : Nat) : Bool :=
  s.dirty &&
  (decide (s.oven = OvenState.SHUTDOWN) || decide (s.oven = OvenState.ERROR) ||
    decide (sub32 now s.dirtyLastMs > 30000)) &&
  decide (s.settings ≠ s.lastSaveSettings)

/-- A zone that has been cooking for a while: 100 °C on the plate, rising at 10 °C/s. -/
def hotZone : IntelligentHeater :=
  { IntelligentHeater.new 0 with _first := false, plateC := 100, trend := 10,
                                 _lastInput := 100 }

/-- A state whose settings were changed 31 s ago and not yet committed. -/
def dirtyState : Sys :=
  { bootState with settings := { bootState.settings with limitIdx := 2 },
                   dirty := true, dirtyLastMs := 1000 }

/-- The inputs of one call of `tick` whose two readings are numbers. -/
structure TickIn where
  plate : ℚ
  heater : ℚ
  tune : ATuneStep
  ms : Nat
  target : ℚ

/-- The readings of a call are accepted: plate in `[0, 650]`, heater in `[0, 920]`. -/
def TickIn.accepted (i : TickIn) : Prop :=
  0 ≤ i.plate ∧ i.plate ≤ 650 ∧ 0 ≤ i.heater ∧ i.heater ≤ 920

/-- One call of `tick` on a zone together with its wear value. -/
def tickWith (zh : IntelligentHeater × ℚ) (i : TickIn) : IntelligentHeater × ℚ :=
  ((zh.1.tick (some i.plate) (some i.heater) i.tune i.ms i.target zh.2).1,
   (zh.1.tick (some i.plate) (some i.heater) i.tune i.ms i.target zh.2).2.1)

/-- Consecutive calls of `tick`, nothing else touching the zone in between. -/
def tickRun (zh : IntelligentHeater × ℚ) : List TickIn → IntelligentHeater × ℚ
  | [] => zh
  | i :: rest => tickRun (tickWith zh i) rest

/-- A run of consecutive accepted ticks after each of which `pwm = 0` and `trend > 1.5`
hold. -/
def HotRun (zh : IntelligentHeater × ℚ) : List TickIn → Prop
  | [] => True
  | i :: rest =>
      i.accepted ∧ (tickWith zh i).1.pwm = 0 ∧ (tickWith zh i).1.trend > 3/2 ∧
      HotRun (tickWith zh i) rest

/-- A call of `tick` at 31 s: both probes at 120 °C, target 0. -/
def hotTick : TickIn := ⟨120, 120, ⟨0, 0, 0, 0, 0⟩, 31000, 0⟩

/-- The quiet environment with the plate probes at the Napoli targets (500 and 430 °C). -/
def soakEnv (now : Nat) : Env :=
  { quietEnv now with upPlate := some 500, loPlate := some 430 }

/-- The quiet environment with the upper plate at 500 °C and the lower plate probe
reading 650 °C. -/
def surgeEnv (now : Nat) : Env :=
  { quietEnv now with upPlate := some 500, loPlate := some 650 }

/-- The quiet environment with the upper plate at 500 °C and the lower plate probe
reading 0 °C. -/
def doughEnv (now : Nat) : Env :=
  { quietEnv now with upPlate := some 500, loPlate := some 0 }

/-- A zone after `n` control ticks spent exactly on target `plate`, one tick per second
from boot. -/
def soakZone (z : IntelligentHeater) (plate : ℚ) (n : Nat) : IntelligentHeater :=
  { z with plateC := plate, heaterC := 20, soak := (n : ℚ) / 4, _in := plate, _set := plate,
           _runawayMs := 1000 * n, _winStart := 1000 * n, _first := false,
           _lastOut := 0, _lastInput := plate }

/-- The state after `n` passes of `loop` from `bootState`, one per second, with the plates
exactly on target (valid while the soak is at most 95, that is for `1 ≤ n ≤ 380`). -/
def soakState (n : Nat) : Sys :=
  { bootState with
    oven := OvenState.PREHEAT,
    up := soakZone bootState.up 500 n,
    lo := soakZone bootState.lo 430 n,
    lastCtrlMs := 1000 * n }

/-- Four more seconds on target: both soaks at 96, oven Ready. -/
def soaked : Sys :=
  loop (loop (loop (loop (soakState 380) (soakEnv 381000)) (soakEnv 382000))
    (soakEnv 383000)) (soakEnv 384000)

/-- Then the lower plate probe reads 650 °C for three ticks and 0 °C at the fourth: the
filtered lower plate comes back to 429.888 °C with a trend below -2 °C/s. -/
def bakeStarted : Sys :=
  loop (loop (loop (loop soaked (surgeEnv 385000)) (surgeEnv 386000)) (surgeEnv 387000))
    (doughEnv 388000)

/-- One second into the bake the upper plate probe fails. -/
def bakeFaulted : Sys := loop bakeStarted (faultEnv 389000)

/-- The state of the normal path of `runControlTick` when the cooling block is reached:
Idle → Preheat, the zone ticks, the bake block and the bake-done block have run. -/
def beforeCool (s : Sys) (e : Env) : Sys :=
  bakeDone (bakeJudge (heatTicks (idleToPreheat { s with lastCtrlMs := e.now } e) e) e) e

/-- The filtered plate temperatures of a control tick, taken once the zones have ticked
(upper, lower). -/
def platesAtTick (s : Sys) (e : Env) : ℚ × ℚ :=
  if s.oven = OvenState.TUNING then
    ((tuneTicks (tuneAdvance { s with lastCtrlMs := e.now } e) e).up.plateC,
     (tuneTicks (tuneAdvance { s with lastCtrlMs := e.now } e) e).lo.plateC)
  else ((beforeCool s e).up.plateC, (beforeCool s e).lo.plateC)

/-- Both filtered plate temperatures of a control tick are below 100 °C. -/
def platesCool (s : Sys) (e : Env) : Bool :=
  decide ((platesAtTick s e).1 < 100 ∧ (platesAtTick s e).2 < 100)

/-- The cool-stable timestamp of a control tick on the normal path once it has been
updated: 0 if a plate is not cool, else `now` if it was unset, else unchanged. -/
def coolStamp (s : Sys) (e : Env) : Nat :=
  if platesCool s e = false then 0
  else if s.coolStableStart = 0 then e.now else s.coolStableStart

/-- Cool-confirmed at a control tick on the normal path: the timestamp is set and more
than 2 s old. -/
def confirmedAtTick (s : Sys) (e : Env) : Bool :=
  decide (coolStamp s e ≠ 0 ∧ sub32 e.now (coolStamp s e) > 2000)

/-- A record of the past kept beside the state.  It is not part of the firmware; it names
the three facts about earlier control ticks that the cool-down debounce speaks of. -/
structure CoolHist where
  /-- since the control tick that set `coolStableStart`, some control tick has seen a
  filtered plate temperature at or above 100 °C -/
  hotSeen : Bool
  /-- the same, counting only control ticks outside the Tuning state -/
  hotSeenNormal : Bool
  /-- the time of the later of: the control tick that entered Cooling, the last control
  tick in Cooling at which cool-confirmed was false -/
  coolMark : Nat
deriving DecidableEq

/-- The record after a call of `runControlTick` from state `s`. -/
def histTick (h : CoolHist) (s : Sys) (e : Env) : CoolHist :=
  if sub32 e.now s.lastCtrlMs ≥ 1000 then
    let cool := platesCool s e
    let normal : Bool := decide (s.oven ≠ OvenState.TUNING)
    let stampSet : Bool := normal && cool && decide (s.coolStableStart = 0)
    { hotSeen := if stampSet then false else (h.hotSeen || !cool),
      hotSeenNormal := if stampSet then false else (h.hotSeenNormal || (normal && !cool)),
      coolMark :=
        if s.oven ≠ OvenState.COOLING ∧ (runControlTick s e).oven = OvenState.COOLING then
          e.now
        else if s.oven = OvenState.COOLING ∧ (runControlTick s e).oven = OvenState.COOLING ∧
            confirmedAtTick s e = false then
          e.now
        else h.coolMark }
  else h

/-- One pass of `loop` on a state with its record. -/
def loopH (p : Sys × CoolHist) (e : Env) : Sys × CoolHist :=
  (loop p.1 e, histTick p.2 (handleInput p.1 e) e)

/-- The states with their records that passes of `loop` reach from the state after
`setup`. -/
inductive HReachable : Sys × CoolHist → Prop where
  | boot (stored : Settings) (swHeld : Bool) (msCtor ms : Nat) (stray : Config.Recipe) :
      HReachable (setup stored swHeld msCtor ms stray, ⟨false, false, 0⟩)
  | step (p : Sys × CoolHist) (e : Env) : HReachable p → HReachable (loopH p e)

/-- The quiet environment with the upper plate probe at 350 °C. -/
def warmEnv (now : Nat) : Env := { quietEnv now with upPlate := some 350 }

/-- From boot with the switch held: a first control tick with cool plates (the cool-stable
timestamp becomes 1000), the StartTune prompt confirmed, a Tuning tick with the upper
plate at 350 °C, a probe fault, a long press back to Idle, then a control tick every
second with all probes at 20 °C until 19 s. -/
def coldStart : Sys × CoolHist :=
  [ quietEnv 1000, rotateEnv 1100, pressEnv 1200, quietEnv 1300, warmEnv 2000,
    faultEnv 3000, pressEnv 3100, pressEnv 5200, quietEnv 5300,
    quietEnv 7000, quietEnv 8000, quietEnv 9000, quietEnv 10000, quietEnv 11000,
    quietEnv 12000, quietEnv 13000, quietEnv 14000, quietEnv 15000, quietEnv 16000,
    quietEnv 17000, quietEnv 18000, quietEnv 19000 ].foldl loopH
      (bootHeld, ⟨false, false, 0⟩)

/-- A zone heating at full duty toward `set` with both probes stuck at 20 °C, `n` seconds
after boot. -/
def coldZone (set : ℚ) (n : Nat) : IntelligentHeater :=
  { plateC := 20, heaterC := 20, soak := 0, trend := 0, pwm := 255, error := 0,
    ssr := true, _aTune := false, _in := 20, _out := 255, _set := set,
    _runawayMs := 1000 * n, _winStart := 1000 * n, _first := false, _tuning := false,
    _overheatCnt := 0, _lastOut := 255, _onTimeMs := 1000,
    _kp := 7/2, _ki := 1/20, _kd := 1, _iTerm := 255, _lastInput := 20 }

/-- The state `n` seconds after boot on the trace of `coldStart` continued with a pass of
`loop` every five seconds and all probes at 20 °C (valid for `n = 19, 24, ..., 1804`,
while the rest timeout of 30 minutes after the long press of 5200 ms has not expired). -/
def coldState (n : Nat) : Sys :=
  { bootHeld with
    up := coldZone 500 n, lo := coldZone 430 n,
    oven := OvenState.PREHEAT,
    askConfirmation := AskConfirmation.NONE, confirmationYes := true, tuneStage := 1,
    lastActMs := 5200, targetUpPWM := 255, targetLoPWM := 255,
    temporaryMsg := some "System Reset", temporaryMsgEndMs := 6200,
    dirtyLastMs := 3000, lastEncMs := 1100, pressStartMs := 3100, longPressHandled := true,
    lastCtrlMs := 1000 * n, coolStableStart := 1000 }

/-- The record that goes with `coldState`: a hot plate was seen, but not outside Tuning. -/
def coldHist : CoolHist := ⟨true, false, 0⟩

/-- The trace continued past the rest timeout: Rest and at once Cooling at 1809 s, then
three more ticks in Cooling, one per second. -/
def coolTrace : Sys × CoolHist :=
  [ quietEnv 1809000, quietEnv 1810000, quietEnv 1811000, quietEnv 1812000 ].foldl loopH
    (coldState 1804, coldHist)

/-- The relation between the states before and after a step that leaves the cool-stable
and bake-done timestamps alone and does not enter Cooling. -/
def Calm (s t : Sys) : Prop :=
  t.coolStableStart = s.coolStableStart ∧ t.bakeDoneMsgMs = s.bakeDoneMsgMs ∧
  (t.oven = OvenState.COOLING → s.oven = OvenState.COOLING)

/-- A calm step that also does not leave Cooling. -/
def Keep (s t : Sys) : Prop :=
  Calm s t ∧ (s.oven = OvenState.COOLING → t.oven = OvenState.COOLING)

/-- What the record has to do with the state: a set cool-stable timestamp means no hot
plate was seen outside Tuning since it was set, and in Cooling the bake-done timestamp is
the Cooling mark. -/
def HistInv (s : Sys) (h : CoolHist) : Prop :=
  (s.coolStableStart ≠ 0 → h.hotSeenNormal = false) ∧
  (s.oven = OvenState.COOLING → s.bakeDoneMsgMs = h.coolMark)

/-- A zone whose filtered plate temperature stands at 700 °C, no fault bit set. -/
def overheatedZone : IntelligentHeater :=
  { IntelligentHeater.new 0 with _first := false, plateC := 700, _lastInput := 700 }

/-- From boot: the first control tick finds the upper plate probe broken; the oven is in
Error and no prompt is open. -/
def bootFaulted : Sys := loop bootState (faultEnv 1000)

/-- The inputs of one call of `tick`, the readings being of any kind (`none` = NaN). -/
structure TickCall where
  plate : Option ℚ
  heater : Option ℚ
  tune : ATuneStep
  ms : Nat
  target : ℚ

/-- One call of `tick` on a zone together with its wear value, whatever the readings. -/
def tickCall (zh : IntelligentHeater × ℚ) (c : TickCall) : IntelligentHeater × ℚ :=
  ((zh.1.tick c.plate c.heater c.tune c.ms c.target zh.2).1,
   (zh.1.tick c.plate c.heater c.tune c.ms c.target zh.2).2.1)

/-- Consecutive calls of `tick`, accepted or rejected. -/
def tickCalls (zh : IntelligentHeater × ℚ) : List TickCall → IntelligentHeater × ℚ
  | [] => zh
  | c :: rest => tickCalls (tickCall zh c) rest

/-- The call is accepted, its target is above 50 and within 5 of the filtered plate
temperature of that tick. -/
def inBand (zh : IntelligentHeater × ℚ) (c : TickCall) : Bool :=
  !(IntelligentHeater.probeBad c.plate Config.Hard.PLATE_MAX_C
      || IntelligentHeater.probeBad c.heater (Config.Hard.HEATER_MAX_C + 100)) &&
  decide (c.target > 50) &&
  decide (f_abs (c.target - (tickCall zh c).1.plateC) < 5)

/-- Every call of the run is in band. -/
def soakRun (zh : IntelligentHeater × ℚ) : List TickCall → Bool
  | [] => true
  | c :: rest => inBand zh c && soakRun (tickCall zh c) rest

/-- A call of `tick` with the plate probe at 500 °C and the target at 500 °C. -/
def onTarget : TickCall := ⟨some 500, some 20, ⟨0, 0, 0, 0, 0⟩, 0, 500⟩

/-- From `soaked` (Ready at 384 s): the lower plate probe reads 650 °C for three ticks; the
filtered lower plate leaves the band and the oven is back in Preheat. -/
def surged : Sys :=
  loop (loop (loop soaked (surgeEnv 385000)) (surgeEnv 386000)) (surgeEnv 387000)

/-- The Ready state `soaked` with the lower plate trend set to -3 °C/s (scenario S2 of the
specification injects this trend for one tick). -/
def soakedFalling : Sys := { soaked with lo := { soaked.lo with trend := -3 } }

/-- The relation between the states before and after a step in which each zone's soak, if
non-negative, stays non-negative and rises by at most `d`, and which brings the oven to
Ready or Baking only if it was there already or both soaks could pass 95 within `d`. -/
def SoakRel (d : ℚ) (s t : Sys) : Prop :=
  (0 ≤ s.up.soak → 0 ≤ t.up.soak ∧ t.up.soak ≤ s.up.soak + d) ∧
  (0 ≤ s.lo.soak → 0 ≤ t.lo.soak ∧ t.lo.soak ≤ s.lo.soak + d) ∧
  (t.oven = OvenState.READY ∨ t.oven = OvenState.BAKING →
    (s.oven = OvenState.READY ∨ s.oven = OvenState.BAKING) ∨
    ((0 ≤ s.up.soak → 95 < s.up.soak + d) ∧ (0 ≤ s.lo.soak → 95 < s.lo.soak + d)))

/-- The inputs of the first `n` passes of `loop` on the trace of `soakState`: one pass per
second with the plates on target. -/
def soakEnvs (n : Nat) : List Env := (List.range n).map (fun i => soakEnv (1000 * (i + 1)))

/-- The filtered plate temperature of the zone is in `[0, 650]` and the overheat bit
(bit 2) is clear. -/
def PlateOK (z : IntelligentHeater) : Prop :=
  0 ≤ z.plateC ∧ z.plateC ≤ 650 ∧ z.error.testBit 2 = false

/-- Both zones satisfy `PlateOK`. -/
def PlateInv (s : Sys) : Prop := PlateOK s.up ∧ PlateOK s.lo

/-- The environment `doughEnv` with the clock one millisecond further on when it is read
inside the control tick. -/
def doughLateEnv (now : Nat) : Env := { doughEnv now with ms := now + 1 }

/-! ## The power allocator -/

theorem ratedUp_eq : ftrunc Config.Hard.RATED_UP_W = 850 := by decide

theorem ratedLo_eq : ftrunc Config.Hard.RATED_LO_W = 570 := by decide

theorem allocBoost_eq_allocNormal (upOut loOut limW : Int) :
    allocBoost upOut loOut limW = allocNormal upOut loOut limW := by
  unfold allocBoost allocNormal
  simp only [ratedUp_eq, ratedLo_eq]
  generalize Int.tdiv (loOut * 570) 255 = loReqW
  generalize Int.tdiv (upOut * 850) 255 = upReqW
  rcases lt_trichotomy limW loReqW with h | h | h
  · have h2 : ¬ loReqW < limW := by omega
    simp only [h, h2, if_true, if_false]
  · subst h
    simp
  · have h2 : ¬ limW < loReqW := by omega
    simp only [h, h2, if_true, if_false]

/-- On requests in `0..255` and a non-negative limit the normal branch computes the
reference allocation. -/
theorem allocNormal_eq_spec (upOut loOut limW : Int)
    (hu : 0 ≤ upOut ∧ upOut ≤ 255) (hl : 0 ≤ loOut ∧ loOut ≤ 255) (hw : 0 ≤ limW) :
    ((allocNormal upOut loOut limW).1 : Int) = (specAllocate upOut loOut limW).1 ∧
    ((allocNormal upOut loOut limW).2 : Int) = (specAllocate upOut loOut limW).2 := by
  unfold allocNormal specAllocate
  simp only [ratedUp_eq, ratedLo_eq]
  have e1 : Int.tdiv (loOut * 570) 255 = loOut * 570 / 255 :=
    Int.tdiv_eq_ediv (by omega) (by omega)
  have e2 : Int.tdiv (upOut * 850) 255 = upOut * 850 / 255 :=
    Int.tdiv_eq_ediv (by omega) (by omega)
  rw [e1, e2]
  have hlo : 0 ≤ loOut * 570 / 255 ∧ loOut * 570 / 255 ≤ 570 := by omega
  have hup : 0 ≤ upOut * 850 / 255 ∧ upOut * 850 / 255 ≤ 850 := by omega
  generalize loOut * 570 / 255 = loReqW at hlo ⊢
  generalize upOut * 850 / 255 = upReqW at hup ⊢
  have hmin : min loReqW limW = if loReqW < limW then loReqW else limW := by
    split_ifs with h
    · exact min_eq_left (le_of_lt h)
    · exact min_eq_right (by omega)
  rw [hmin]
  generalize hloW : (if loReqW < limW then loReqW else limW) = loW
  have hloW2 : 0 ≤ loW ∧ loW ≤ 570 ∧ loW ≤ limW := by
    subst hloW
    split_ifs <;> omega
  have hmax : max 0 (limW - loW) = if limW - loW > 0 then limW - loW else 0 := by
    split_ifs with h
    · exact max_eq_right (by omega)
    · exact max_eq_left (by omega)
  rw [hmax]
  generalize hrem : (if limW - loW > 0 then limW - loW else 0) = remW
  have hrem2 : 0 ≤ remW := by
    subst hrem
    split_ifs <;> omega
  have hmin2 : min upReqW remW = if upReqW < remW then upReqW else remW := by
    split_ifs with h
    · exact min_eq_left (le_of_lt h)
    · exact min_eq_right (by omega)
  rw [hmin2]
  generalize hupW : (if upReqW < remW then upReqW else remW) = upW
  have hupW2 : 0 ≤ upW ∧ upW ≤ 850 := by
    subst hupW
    split_ifs <;> omega
  have e3 : Int.tdiv (upW * 255) 850 = upW * 255 / 850 :=
    Int.tdiv_eq_ediv (by omega) (by omega)
  have e4 : Int.tdiv (loW * 255) 570 = loW * 255 / 570 :=
    Int.tdiv_eq_ediv (by omega) (by omega)
  rw [e3, e4]
  unfold toU8
  constructor <;> omega

/-- The reference allocation stays within the budget. -/
theorem specAllocate_budget (upOut loOut limW : Int)
    (hu : 0 ≤ upOut ∧ upOut ≤ 255) (hl : 0 ≤ loOut ∧ loOut ≤ 255) :
    (specAllocate upOut loOut limW).1 * 850 + (specAllocate upOut loOut limW).2 * 570
      ≤ 255 * limW := by
  unfold specAllocate
  simp only
  have hlo : 0 ≤ loOut * 570 / 255 := by omega
  have hup : 0 ≤ upOut * 850 / 255 := by omega
  generalize loOut * 570 / 255 = loReqW at hlo ⊢
  generalize upOut * 850 / 255 = upReqW at hup ⊢
  rcases le_total loReqW limW with h | h
  · rw [min_eq_left h, max_eq_right (by omega)]
    rcases le_total upReqW (limW - loReqW) with h2 | h2
    · rw [min_eq_left h2]; omega
    · rw [min_eq_right h2]; omega
  · rw [min_eq_right h, max_eq_left (by omega)]
    rw [min_eq_right hup]
    omega

/-- The allocation of either branch stays within the budget. -/
theorem allocate_budget (upOut loOut limW : Int) (boost : Bool)
    (hu : 0 ≤ upOut ∧ upOut ≤ 255) (hl : 0 ≤ loOut ∧ loOut ≤ 255) (hw : 0 ≤ limW) :
    ((allocate upOut loOut limW boost).1 : Int) * 850
      + ((allocate upOut loOut limW boost).2 : Int) * 570 ≤ 255 * limW := by
  have h := allocNormal_eq_spec upOut loOut limW hu hl hw
  have hb := specAllocate_budget upOut loOut limW hu hl
  unfold allocate
  cases boost
  · simp only [Bool.false_eq_true, if_false]
    rw [h.1, h.2]; exact hb
  · simp only [if_true, allocBoost_eq_allocNormal]
    rw [h.1, h.2]; exact hb

/-- Outside Tuning `calculatePower` leaves either the pair `(0, 0)` or the allocation. -/
theorem calculatePower_targets (s : Sys) (now : Nat) (stray : Int)
    (ht : s.oven ≠ OvenState.TUNING) :
    ((calculatePower s now stray).targetUpPWM = 0 ∧
      (calculatePower s now stray).targetLoPWM = 0 ∧
      (s.up.error ≠ 0 ∨ s.lo.error ≠ 0 ∨ s.oven = OvenState.ERROR)) ∨
    (∃ boost : Bool,
      (calculatePower s now stray).targetUpPWM =
        (allocate (ftrunc s.up.pidOut) (ftrunc s.lo.pidOut)
          (limitW stray s.settings.limitIdx) boost).1 ∧
      (calculatePower s now stray).targetLoPWM =
        (allocate (ftrunc s.up.pidOut) (ftrunc s.lo.pidOut)
          (limitW stray s.settings.limitIdx) boost).2 ∧
      s.up.error = 0 ∧ s.lo.error = 0 ∧ s.oven ≠ OvenState.ERROR) := by
  unfold calculatePower
  simp only [ht, if_false]
  by_cases hf : s.up.error ≠ 0 ∨ s.lo.error ≠ 0 ∨ s.oven = OvenState.ERROR
  · left
    simp only [hf, if_true, and_self]
  · right
    refine ⟨s.baking && decide (sub32 now s.boostStartMs < Config.Hard.BOOST_MS), ?_⟩
    simp only [hf, if_false]
    push_neg at hf
    exact ⟨trivial, trivial, hf.1, hf.2.1, hf.2.2⟩

/-- C1. Power budget: in every state other than Tuning, with both converted PID outputs
in `0..255` and a non-negative limit (an entry of the power-limit table, or any integer
read past it), and whatever the boost condition, the duties left by `calculatePower`
satisfy `up_duty * 850 + lo_duty * 570 ≤ 255 * limit_w`, and therefore
`up_duty * 850 / 255 + lo_duty * 570 / 255 ≤ limit_w` with integer division. -/
theorem calculatePower_budget (s : Sys) (now : Nat) (stray : Int)
    (ht : s.oven ≠ OvenState.TUNING)
    (hu : 0 ≤ ftrunc s.up.pidOut ∧ ftrunc s.up.pidOut ≤ 255)
    (hl : 0 ≤ ftrunc s.lo.pidOut ∧ ftrunc s.lo.pidOut ≤ 255)
    (hw : 0 ≤ limitW stray s.settings.limitIdx) :
    ((calculatePower s now stray).targetUpPWM : Int) * 850
        + ((calculatePower s now stray).targetLoPWM : Int) * 570
      ≤ 255 * limitW stray s.settings.limitIdx ∧
    ((calculatePower s now stray).targetUpPWM : Int) * 850 / 255
        + ((calculatePower s now stray).targetLoPWM : Int) * 570 / 255
      ≤ limitW stray s.settings.limitIdx := by
  have key : ((calculatePower s now stray).targetUpPWM : Int) * 850
        + ((calculatePower s now stray).targetLoPWM : Int) * 570
      ≤ 255 * limitW stray s.settings.limitIdx := by
    rcases calculatePower_targets s now stray ht with ⟨h1, h2, _⟩ | ⟨boost, h1, h2, _⟩
    · rw [h1, h2]; simp only [Nat.cast_zero]; omega
    · rw [h1, h2]
      exact allocate_budget _ _ _ boost hu hl hw
  refine ⟨key, ?_⟩
  omega

/-- C1, sample: both outputs at 255 under the 1000 W limit. -/
theorem calculatePower_budget_witness :
    ((calculatePower contendState 0 0).targetUpPWM : Int) * 850
        + ((calculatePower contendState 0 0).targetLoPWM : Int) * 570
      ≤ 255 * 1000 ∧
    ((calculatePower contendState 0 0).targetUpPWM : Int) * 850 / 255
        + ((calculatePower contendState 0 0).targetLoPWM : Int) * 570 / 255
      ≤ 1000 :=
  calculatePower_budget contendState 0 0 (by decide) (by decide) (by decide) (by decide)

/-- C6. Lower-zone priority: with no fault, the oven neither in Error nor in Tuning, both
converted PID outputs in `0..255` and a non-negative limit, `calculatePower` leaves
`lo_duty = min(lo_raw*570/255, limit_w) * 255/570` and
`up_duty = min(up_raw*850/255, max(0, limit_w - min(lo_raw*570/255, limit_w))) * 255/850`
(the reference allocation, integer divisions); for 255, 255 and 1000 W these are
`up_duty = 129` and `lo_duty = 255`. -/
theorem calculatePower_eq_spec (s : Sys) (now : Nat) (stray : Int)
    (ht : s.oven ≠ OvenState.TUNING) (he : s.oven ≠ OvenState.ERROR)
    (hue : s.up.error = 0) (hle : s.lo.error = 0)
    (hu : 0 ≤ ftrunc s.up.pidOut ∧ ftrunc s.up.pidOut ≤ 255)
    (hl : 0 ≤ ftrunc s.lo.pidOut ∧ ftrunc s.lo.pidOut ≤ 255)
    (hw : 0 ≤ limitW stray s.settings.limitIdx) :
    ((calculatePower s now stray).targetUpPWM : Int) =
      (specAllocate (ftrunc s.up.pidOut) (ftrunc s.lo.pidOut)
        (limitW stray s.settings.limitIdx)).1 ∧
    ((calculatePower s now stray).targetLoPWM : Int) =
      (specAllocate (ftrunc s.up.pidOut) (ftrunc s.lo.pidOut)
        (limitW stray s.settings.limitIdx)).2 ∧
    specAllocate 255 255 1000 = (129, 255) := by
  have hspec := allocNormal_eq_spec _ _ _ hu hl hw
  refine ⟨?_, ?_, by decide⟩
  · rcases calculatePower_targets s now stray ht with ⟨_, _, h3⟩ | ⟨boost, h1, _, _⟩
    · rcases h3 with h | h | h
      · exact absurd hue h
      · exact absurd hle h
      · exact absurd h he
    · rw [h1, ← hspec.1]
      cases boost <;> simp [allocate, allocBoost_eq_allocNormal]
  · rcases calculatePower_targets s now stray ht with ⟨_, _, h3⟩ | ⟨boost, _, h2, _⟩
    · rcases h3 with h | h | h
      · exact absurd hue h
      · exact absurd hle h
      · exact absurd h he
    · rw [h2, ← hspec.2]
      cases boost <;> simp [allocate, allocBoost_eq_allocNormal]

/-- C6, sample: scenario S4, both outputs at 255 under the 1000 W limit give the duties
129 and 255. -/
theorem calculatePower_eq_spec_witness :
    ((calculatePower contendState 0 0).targetUpPWM : Int) = 129 ∧
    ((calculatePower contendState 0 0).targetLoPWM : Int) = 255 ∧
    specAllocate 255 255 1000 = (129, 255) :=
  calculatePower_eq_spec contendState 0 0 (by decide) (by decide) (by decide) (by decide)
    (by decide) (by decide) (by decide)

/-- C7. Boost mode is equivalent to normal mode: the boost branch and the normal branch
of `calculatePower` compute the same pair for all inputs, so the targets left by
`calculatePower` do not depend on `baking` or `boostStartMs`. -/
theorem boost_branch_eq_normal_branch :
    (∀ upOut loOut limW : Int, allocBoost upOut loOut limW = allocNormal upOut loOut limW) ∧
    (∀ (s : Sys) (now : Nat) (stray : Int) (b : Bool) (t : Nat),
      (calculatePower { s with baking := b, boostStartMs := t } now stray).targetUpPWM =
        (calculatePower { s with baking := false } now stray).targetUpPWM ∧
      (calculatePower { s with baking := b, boostStartMs := t } now stray).targetLoPWM =
        (calculatePower { s with baking := false } now stray).targetLoPWM) := by
  have hb := allocBoost_eq_allocNormal
  refine ⟨hb, ?_⟩
  intro s now stray b t
  unfold calculatePower
  by_cases ht : s.oven = OvenState.TUNING
  · simp [ht]
  · simp only [ht, if_false, allocate, hb]
    constructor <;> split_ifs <;> simp

/-- C8. Faults force the allocator's outputs to zero: outside Tuning, if either zone's
error bitset is non-zero or the oven state is Error, `calculatePower` leaves both target
duties at 0, whatever the PID outputs, the limit and the boost condition. -/
theorem calculatePower_fault_zero (s : Sys) (now : Nat) (stray : Int)
    (ht : s.oven ≠ OvenState.TUNING)
    (hf : s.up.error ≠ 0 ∨ s.lo.error ≠ 0 ∨ s.oven = OvenState.ERROR) :
    (calculatePower s now stray).targetUpPWM = 0 ∧
    (calculatePower s now stray).targetLoPWM = 0 := by
  unfold calculatePower
  simp only [ht, if_false, hf, if_true, and_self]

/-- C8, sample: both outputs at 255 and the overheat bit of the lower zone set. -/
theorem calculatePower_fault_zero_witness :
    (calculatePower { contendState with lo := { contendState.lo with error := 4 } }
        0 0).targetUpPWM = 0 ∧
    (calculatePower { contendState with lo := { contendState.lo with error := 4 } }
        0 0).targetLoPWM = 0 :=
  calculatePower_fault_zero _ 0 0 (by decide) (by decide)

/-! ## The zone controller -/

/-- Truncation of a value in `[0, 255]` is an integer in `0..255`. -/
theorem ftrunc_range (q : ℚ) (h0 : 0 ≤ q) (h1 : q ≤ 255) :
    0 ≤ ftrunc q ∧ ftrunc q ≤ 255 := by
  have hn : 0 ≤ q.num := Rat.num_nonneg.mpr h0
  have hd : (0 : Int) ≤ (q.den : Int) := Int.ofNat_nonneg _
  have e : ftrunc q = ⌊q⌋ := by
    unfold ftrunc
    rw [Int.tdiv_eq_ediv hn hd, Rat.floor_def]
  rw [e]
  constructor
  · exact Int.floor_nonneg.mpr h0
  · have h2 : (⌊q⌋ : ℚ) ≤ 255 := le_trans (Int.floor_le q) h1
    exact_mod_cast h2

theorem toU8_of_range (x : Int) (h0 : 0 ≤ x) (h1 : x ≤ 255) : (toU8 x : Int) = x := by
  unfold toU8
  omega

theorem toU8_le (x : Int) : toU8 x ≤ 255 := by
  unfold toU8
  omega

namespace IntelligentHeater

theorem tickFilter_frame (z : IntelligentHeater) (rp rh : ℚ) (ms : Nat) :
    (z.tickFilter rp rh ms).soak = z.soak ∧
    (z.tickFilter rp rh ms)._tuning = z._tuning ∧
    (z.tickFilter rp rh ms)._iTerm = z._iTerm ∧
    (z.tickFilter rp rh ms)._out = z._out := by
  unfold tickFilter
  simp only
  split_ifs <;> simp

theorem tickSoak_frame (z : IntelligentHeater) (target : ℚ) :
    (z.tickSoak target)._tuning = z._tuning ∧
    (z.tickSoak target)._iTerm = z._iTerm ∧
    (z.tickSoak target)._out = z._out := by
  unfold tickSoak
  simp

theorem tickSoak_range (z : IntelligentHeater) (target : ℚ)
    (h : 0 ≤ z.soak ∧ z.soak ≤ 100) :
    0 ≤ (z.tickSoak target).soak ∧ (z.tickSoak target).soak ≤ 100 := by
  unfold tickSoak fmin fmax
  simp only [Config.Hard.STONE_THICK_MM]
  split_ifs <;> constructor <;> norm_num at * <;> linarith

theorem tickPid_range (z : IntelligentHeater) (tune : ATuneStep) (h : z._tuning = false) :
    (0 ≤ (z.tickPid tune)._iTerm ∧ (z.tickPid tune)._iTerm ≤ 255) ∧
    (0 ≤ (z.tickPid tune)._out ∧ (z.tickPid tune)._out ≤ 255) ∧
    (z.tickPid tune).soak = z.soak := by
  unfold tickPid
  simp only [h, Bool.false_eq_true, if_false]
  refine ⟨?_, ?_, trivial⟩
  · split_ifs <;> constructor <;> norm_num <;> linarith
  · split_ifs <;> constructor <;> norm_num <;> linarith

theorem tickPid_pwm (z : IntelligentHeater) (tune : ATuneStep) :
    (z.tickPid tune).pwm = toU8 (ftrunc (z.tickPid tune)._out) := by
  unfold tickPid
  simp only

theorem tickRunaway_frame (z : IntelligentHeater) (ms : Nat) :
    (z.tickRunaway ms).soak = z.soak ∧
    (z.tickRunaway ms)._iTerm = z._iTerm ∧
    (z.tickRunaway ms)._out = z._out ∧
    (z.tickRunaway ms).pwm = z.pwm := by
  unfold tickRunaway
  split_ifs <;> simp

theorem tickOverheat_frame (z : IntelligentHeater) :
    (z.tickOverheat).soak = z.soak ∧
    (z.tickOverheat)._iTerm = z._iTerm ∧
    (z.tickOverheat)._out = z._out ∧
    (z.tickOverheat).pwm = z.pwm := by
  unfold tickOverheat
  split_ifs <;> simp

theorem tick_of_bad (z : IntelligentHeater) (rp rh : Option ℚ) (tune : ATuneStep) (ms : Nat)
    (target health : ℚ)
    (h : (probeBad rp Config.Hard.PLATE_MAX_C
        || probeBad rh (Config.Hard.HEATER_MAX_C + 100)) = true) :
    z.tick rp rh tune ms target health = (z.tickReject, health, false) := by
  unfold tick
  rw [if_pos h]

theorem tick_of_ok (z : IntelligentHeater) (rp rh : Option ℚ) (tune : ATuneStep) (ms : Nat)
    (target health : ℚ)
    (h : ¬ (probeBad rp Config.Hard.PLATE_MAX_C
        || probeBad rh (Config.Hard.HEATER_MAX_C + 100)) = true) :
    z.tick rp rh tune ms target health =
      ((((((z.tickFilter (rp.getD 0) (rh.getD 0) ms).tickSoak target).tickPid
          tune).tickRunaway ms).tickOverheat),
        (((((z.tickFilter (rp.getD 0) (rh.getD 0) ms).tickSoak target).tickPid
          tune).tickRunaway ms).tickHealth health).1,
        (((((z.tickFilter (rp.getD 0) (rh.getD 0) ms).tickSoak target).tickPid
          tune).tickRunaway ms).tickHealth health).2) := by
  unfold tick
  rw [if_neg h]

theorem tickHealth_range (z : IntelligentHeater) (health : ℚ)
    (h : 0 ≤ health ∧ health ≤ 100) :
    0 ≤ (z.tickHealth health).1 ∧ (z.tickHealth health).1 ≤ 100 := by
  unfold tickHealth fmax
  simp only
  split_ifs <;> constructor <;> norm_num at * <;> linarith

end IntelligentHeater

/-- C10. Range invariant of the zone controller: from a zone with soak in `[0,100]`,
integrator in `[0,255]` (the previous raw output is not even needed) and a wear value in
`[0,100]`, a tick outside
auto-tuning (any target, any probe readings, accepted or rejected) leaves soak and wear in
`[0,100]`, the integrator and the raw output in `[0,255]`, and the requested duty `pwm`
equal to the truncated raw output, in `0..255`; the same holds of the zone after
`reset()`. -/
theorem tick_range (z : IntelligentHeater) (rp rh : Option ℚ) (tune : ATuneStep) (ms : Nat)
    (target health : ℚ)
    (hn : z._tuning = false)
    (hs : 0 ≤ z.soak ∧ z.soak ≤ 100)
    (hi : 0 ≤ z._iTerm ∧ z._iTerm ≤ 255)
    (hh : 0 ≤ health ∧ health ≤ 100) :
    ((0 ≤ (z.tick rp rh tune ms target health).1.soak ∧
        (z.tick rp rh tune ms target health).1.soak ≤ 100) ∧
      (0 ≤ (z.tick rp rh tune ms target health).2.1 ∧
        (z.tick rp rh tune ms target health).2.1 ≤ 100) ∧
      (0 ≤ (z.tick rp rh tune ms target health).1._iTerm ∧
        (z.tick rp rh tune ms target health).1._iTerm ≤ 255) ∧
      (0 ≤ (z.tick rp rh tune ms target health).1._out ∧
        (z.tick rp rh tune ms target health).1._out ≤ 255) ∧
      ((z.tick rp rh tune ms target health).1.pwm : Int) =
        ftrunc (z.tick rp rh tune ms target health).1._out ∧
      (z.tick rp rh tune ms target health).1.pwm ≤ 255) ∧
    ((0 ≤ (z.reset ms).soak ∧ (z.reset ms).soak ≤ 100) ∧
      (0 ≤ (z.reset ms)._iTerm ∧ (z.reset ms)._iTerm ≤ 255) ∧
      (0 ≤ (z.reset ms)._out ∧ (z.reset ms)._out ≤ 255) ∧
      ((z.reset ms).pwm : Int) = ftrunc (z.reset ms)._out ∧
      (z.reset ms).pwm ≤ 255) := by
  constructor
  · by_cases hb : (IntelligentHeater.probeBad rp Config.Hard.PLATE_MAX_C
        || IntelligentHeater.probeBad rh (Config.Hard.HEATER_MAX_C + 100)) = true
    · rw [IntelligentHeater.tick_of_bad z rp rh tune ms target health hb]
      simp only [IntelligentHeater.tickReject]
      refine ⟨hs, hh, hi, ⟨le_refl _, by norm_num⟩, by decide, by decide⟩
    · rw [IntelligentHeater.tick_of_ok z rp rh tune ms target health hb]
      simp only
      set z1 := z.tickFilter (rp.getD 0) (rh.getD 0) ms with hz1
      set z2 := z1.tickSoak target with hz2
      set z3 := z2.tickPid tune with hz3
      set z4 := z3.tickRunaway ms with hz4
      have f1 := z.tickFilter_frame (rp.getD 0) (rh.getD 0) ms
      have f2 := z1.tickSoak_frame target
      have hs1 : 0 ≤ z1.soak ∧ z1.soak ≤ 100 := by rw [hz1, f1.1]; exact hs
      have r2 := z1.tickSoak_range target hs1
      have hn2 : z2._tuning = false := by rw [hz2, f2.1, hz1, f1.2.1]; exact hn
      have r3 := z2.tickPid_range tune hn2
      have p3 := z2.tickPid_pwm tune
      have f4 := z3.tickRunaway_frame ms
      have f5 := z4.tickOverheat_frame
      have ho5 : 0 ≤ z4.tickOverheat._out ∧ z4.tickOverheat._out ≤ 255 := by
        rw [f5.2.2.1, hz4, f4.2.2.1]; exact r3.2.1
      have hp5 : z4.tickOverheat.pwm = toU8 (ftrunc z4.tickOverheat._out) := by
        rw [f5.2.2.2, f5.2.2.1, hz4, f4.2.2.2, f4.2.2.1]; exact p3
      have ht := ftrunc_range _ ho5.1 ho5.2
      refine ⟨?_, z4.tickHealth_range health hh, ?_, ho5, ?_, ?_⟩
      · rw [f5.1, hz4, f4.1, hz3, r3.2.2]; exact r2
      · rw [f5.2.1, hz4, f4.2.1]; exact r3.1
      · rw [hp5]; exact toU8_of_range _ ht.1 ht.2
      · rw [hp5]; exact toU8_le _
  · simp only [IntelligentHeater.reset]
    refine ⟨⟨le_refl _, by norm_num⟩, ⟨le_refl _, by norm_num⟩, ⟨le_refl _, by norm_num⟩,
      by decide, by decide⟩

/-- C10, sample: the first tick of a fresh zone heading for 500 °C with both probes at
20 °C and full filament health. -/
theorem tick_range_witness :
    ((0 ≤ ((IntelligentHeater.new 0).tick (some 20) (some 20) ⟨0, 0, 0, 0, 0⟩ 1000
          500 100).1.soak ∧
        ((IntelligentHeater.new 0).tick (some 20) (some 20) ⟨0, 0, 0, 0, 0⟩ 1000
          500 100).1.soak ≤ 100) ∧
      (0 ≤ ((IntelligentHeater.new 0).tick (some 20) (some 20) ⟨0, 0, 0, 0, 0⟩ 1000
          500 100).2.1 ∧
        ((IntelligentHeater.new 0).tick (some 20) (some 20) ⟨0, 0, 0, 0, 0⟩ 1000
          500 100).2.1 ≤ 100) ∧
      (0 ≤ ((IntelligentHeater.new 0).tick (some 20) (some 20) ⟨0, 0, 0, 0, 0⟩ 1000
          500 100).1._iTerm ∧
        ((IntelligentHeater.new 0).tick (some 20) (some 20) ⟨0, 0, 0, 0, 0⟩ 1000
          500 100).1._iTerm ≤ 255) ∧
      (0 ≤ ((IntelligentHeater.new 0).tick (some 20) (some 20) ⟨0, 0, 0, 0, 0⟩ 1000
          500 100).1._out ∧
        ((IntelligentHeater.new 0).tick (some 20) (some 20) ⟨0, 0, 0, 0, 0⟩ 1000
          500 100).1._out ≤ 255) ∧
      (((IntelligentHeater.new 0).tick (some 20) (some 20) ⟨0, 0, 0, 0, 0⟩ 1000
          500 100).1.pwm : Int) =
        ftrunc ((IntelligentHeater.new 0).tick (some 20) (some 20) ⟨0, 0, 0, 0, 0⟩ 1000
          500 100).1._out ∧
      ((IntelligentHeater.new 0).tick (some 20) (some 20) ⟨0, 0, 0, 0, 0⟩ 1000
          500 100).1.pwm ≤ 255) ∧
    ((0 ≤ ((IntelligentHeater.new 0).reset 1000).soak ∧
        ((IntelligentHeater.new 0).reset 1000).soak ≤ 100) ∧
      (0 ≤ ((IntelligentHeater.new 0).reset 1000)._iTerm ∧
        ((IntelligentHeater.new 0).reset 1000)._iTerm ≤ 255) ∧
      (0 ≤ ((IntelligentHeater.new 0).reset 1000)._out ∧
        ((IntelligentHeater.new 0).reset 1000)._out ≤ 255) ∧
      (((IntelligentHeater.new 0).reset 1000).pwm : Int) =
        ftrunc ((IntelligentHeater.new 0).reset 1000)._out ∧
      ((IntelligentHeater.new 0).reset 1000).pwm ≤ 255) :=
  tick_range (IntelligentHeater.new 0) (some 20) (some 20) ⟨0, 0, 0, 0, 0⟩ 1000 500 100
    rfl (by norm_num [IntelligentHeater.new]) (by norm_num [IntelligentHeater.new])
    (by norm_num)

/-! ## Frame lemmas for the loop invariant -/

namespace IntelligentHeater

theorem tick_cache (z : IntelligentHeater) (rp rh : Option ℚ) (tune : ATuneStep) (ms : Nat)
    (target health : ℚ) :
    (z.tick rp rh tune ms target health).1._lastOut = z._lastOut ∧
    (z.tick rp rh tune ms target health).1._onTimeMs = z._onTimeMs := by
  by_cases hb : (probeBad rp Config.Hard.PLATE_MAX_C
      || probeBad rh (Config.Hard.HEATER_MAX_C + 100)) = true
  · rw [tick_of_bad z rp rh tune ms target health hb]
    simp [tickReject]
  · rw [tick_of_ok z rp rh tune ms target health hb]
    have h1 : ∀ y : IntelligentHeater, y.tickOverheat._lastOut = y._lastOut ∧
        y.tickOverheat._onTimeMs = y._onTimeMs := by
      intro y; unfold tickOverheat; split_ifs <;> simp
    have h2 : ∀ y : IntelligentHeater, (y.tickRunaway ms)._lastOut = y._lastOut ∧
        (y.tickRunaway ms)._onTimeMs = y._onTimeMs := by
      intro y; unfold tickRunaway; split_ifs <;> simp
    have h3 : ∀ y : IntelligentHeater, (y.tickPid tune)._lastOut = y._lastOut ∧
        (y.tickPid tune)._onTimeMs = y._onTimeMs := by
      intro y; unfold tickPid setTunings stopTune; simp only; split_ifs <;> simp
    have h4 : ∀ y : IntelligentHeater, (y.tickSoak target)._lastOut = y._lastOut ∧
        (y.tickSoak target)._onTimeMs = y._onTimeMs := by
      intro y; unfold tickSoak; simp
    have h5 : (z.tickFilter (rp.getD 0) (rh.getD 0) ms)._lastOut = z._lastOut ∧
        (z.tickFilter (rp.getD 0) (rh.getD 0) ms)._onTimeMs = z._onTimeMs := by
      unfold tickFilter; simp only; split_ifs <;> simp
    simp only [h1, h2, h3, h4, h5, and_self]

theorem drive_frame (z : IntelligentHeater) (out ms : Nat) :
    (z.drive out ms).error = z.error := by
  unfold drive
  simp only
  split_ifs <;> simp

theorem drive_cacheOK (z : IntelligentHeater) (out ms : Nat) (h : CacheOK z) :
    CacheOK (z.drive out ms) := by
  unfold CacheOK at *
  unfold drive
  simp only
  split_ifs with h1 h2 h2
  · simp only; intro h0; subst h0; rfl
  · simp only; intro h0; subst h0; rfl
  · simpa using h
  · simpa using h

/-- With a consistent cache `drive(0)` writes the SSR pin LOW, whatever the clock and
the window start. -/
theorem drive_zero_low (z : IntelligentHeater) (ms : Nat) (h : CacheOK z) :
    (z.drive 0 ms).ssr = false := by
  unfold CacheOK at h
  unfold drive
  simp only
  split_ifs with h1 h2 h2
  · simp
  · simp
  · have h0 : z._lastOut = 0 := by
      by_contra hne
      exact h1 (fun heq => hne heq.symm)
    simp [h h0]
  · have h0 : z._lastOut = 0 := by
      by_contra hne
      exact h1 (fun heq => hne heq.symm)
    simp [h h0]

end IntelligentHeater

theorem dirtySave_true (s : Sys) (ms : Nat) :
    dirtySave s true ms = { s with dirty := true, dirtyLastMs := ms } := by
  unfold dirtySave
  simp

theorem Quiet.refl (s : Sys) : Quiet s s :=
  ⟨rfl, fun h => h, rfl, rfl, rfl, rfl⟩

theorem Quiet.trans {s t u : Sys} (h1 : Quiet s t) (h2 : Quiet t u) : Quiet s u := by
  obtain ⟨a1, a2, a3, a4, a5, a6⟩ := h1
  obtain ⟨b1, b2, b3, b4, b5, b6⟩ := h2
  exact ⟨b1.trans a1, fun h => a2 (b2 h), b3.trans a3, b4.trans a4, b5.trans a5, b6.trans a6⟩

theorem Quiet.safeInv {s t : Sys} (h : Quiet s t) (hs : SafeInv s) : SafeInv t := by
  obtain ⟨a1, a2, a3, a4, a5, a6⟩ := h
  obtain ⟨b1, b2, b3⟩ := hs
  refine ⟨fun he => ?_, ?_, ?_⟩
  · rw [a1]; exact b1 (a2 he)
  · unfold CacheOK at *; rw [a3, a4]; exact b2
  · unfold CacheOK at *; rw [a5, a6]; exact b3

theorem tickUp_quiet (s : Sys) (e : Env) (t : ℚ) : Quiet s (tickUp s e t).1 := by
  have h := s.up.tick_cache e.upPlate e.upHeater e.upTune e.ms t s.settings.upHealth
  unfold tickUp Quiet
  simp only
  exact ⟨trivial, fun h => h, h.1, h.2, trivial, trivial⟩

theorem tickLo_quiet (s : Sys) (e : Env) (t : ℚ) : Quiet s (tickLo s e t).1 := by
  have h := s.lo.tick_cache e.loPlate e.loHeater e.loTune e.ms t s.settings.loHealth
  unfold tickLo Quiet
  simp only
  exact ⟨trivial, fun h => h, trivial, trivial, h.1, h.2⟩

theorem idleToPreheat_quiet (s : Sys) (e : Env) : Quiet s (idleToPreheat s e) := by
  unfold idleToPreheat
  split_ifs
  · simp [Quiet, IntelligentHeater.reset]
  · exact Quiet.refl s

theorem heatTicks_quiet (s : Sys) (e : Env) : Quiet s (heatTicks s e) := by
  unfold heatTicks
  simp only
  generalize (if isHeating s = true then s.currentRecipe.upC else 0) = tu
  generalize (if isHeating s = true then s.currentRecipe.loC else 0) = tl
  have h1 := tickUp_quiet s e tu
  have h2 := tickLo_quiet (tickUp s e tu).1 e tl
  have h12 := Quiet.trans h1 h2
  split_ifs
  · refine Quiet.trans h12 ?_
    rw [dirtySave_true]
    simp [Quiet]
  · exact h12
  · exact h12

theorem bakeJudge_quiet (s : Sys) (e : Env) : Quiet s (bakeJudge s e) := by
  unfold bakeJudge startBake
  simp only
  split_ifs <;> simp [Quiet]

theorem bakeDone_quiet (s : Sys) (e : Env) : Quiet s (bakeDone s e) := by
  unfold bakeDone
  simp only
  split_ifs <;> simp [Quiet]

theorem coolManage_quiet (s : Sys) (e : Env) : Quiet s (coolManage s e) := by
  unfold coolManage cooledConfirmed
  simp only [dirtySave_true]
  split_ifs <;> simp [Quiet, IntelligentHeater.reset]

theorem calculatePower_quiet (s : Sys) (now : Nat) (stray : Int) :
    Quiet s (calculatePower s now stray) := by
  unfold calculatePower
  simp only
  split_ifs <;> simp [Quiet]

theorem tuneAdvance_quiet (s : Sys) (e : Env) : Quiet s (tuneAdvance s e) := by
  unfold tuneAdvance
  simp only [dirtySave_true]
  split_ifs <;> simp [Quiet, IntelligentHeater.startTune]

theorem tuneTicks_quiet (s : Sys) (e : Env) : Quiet s (tuneTicks s e) := by
  unfold tuneTicks
  simp only
  split_ifs
  · exact Quiet.trans (Quiet.trans (tickUp_quiet _ _ _) (tickLo_quiet _ _ _))
      (Quiet.trans (tickLo_quiet _ _ _) (tickUp_quiet _ _ _))
  · exact Quiet.trans (tickUp_quiet _ _ _) (tickLo_quiet _ _ _)
  · exact Quiet.trans (tickLo_quiet _ _ _) (tickUp_quiet _ _ _)
  · exact Quiet.refl s

theorem emergencyOrPower_inv (s : Sys) (e : Env) (h : SafeInv s) :
    LoopInv (emergencyOrPower s e) := by
  unfold emergencyOrPower
  split_ifs with hf
  · rw [dirtySave_true]
    obtain ⟨_, h2, h3⟩ := h
    exact ⟨rfl, rfl, fun _ => rfl, h2, h3⟩
  · push_neg at hf
    have hq := calculatePower_quiet s e.now e.strayLimW
    refine ⟨?_, ?_, hq.safeInv h⟩
    · have : (calculatePower s e.now e.strayLimW).up = s.up := by
        unfold calculatePower; simp only; split_ifs <;> rfl
      rw [this]; exact hf.1
    · have : (calculatePower s e.now e.strayLimW).lo = s.lo := by
        unfold calculatePower; simp only; split_ifs <;> rfl
      rw [this]; exact hf.2

theorem tuneSafety_inv (s : Sys) (e : Env) (h : SafeInv s) : LoopInv (tuneSafety s e) := by
  unfold tuneSafety
  split_ifs with hf
  · rw [dirtySave_true]
    obtain ⟨_, h2, h3⟩ := h
    exact ⟨rfl, rfl, fun _ => rfl, h2, h3⟩
  · push_neg at hf
    exact ⟨hf.1, hf.2, h⟩

theorem runControlTick_inv (s : Sys) (e : Env) (h : LoopInv s) :
    LoopInv (runControlTick s e) := by
  unfold runControlTick
  by_cases hg : sub32 e.now s.lastCtrlMs ≥ 1000
  · rw [if_pos hg]
    have h0 : SafeInv { s with lastCtrlMs := e.now } := h.2.2
    simp only
    split_ifs
    · apply tuneSafety_inv
      exact (Quiet.trans (tuneAdvance_quiet _ e) (tuneTicks_quiet _ e)).safeInv h0
    · apply emergencyOrPower_inv
      exact (Quiet.trans (idleToPreheat_quiet _ e) (Quiet.trans (heatTicks_quiet _ e)
        (Quiet.trans (bakeJudge_quiet _ e) (Quiet.trans (bakeDone_quiet _ e)
          (coolManage_quiet _ e))))).safeInv h0
  · rw [if_neg hg]
    exact h

theorem handleRotate_inv (s : Sys) (e : Env) (h : LoopInv s) : LoopInv (handleRotate s e) := by
  obtain ⟨h1, h2, h3, h4, h5⟩ := h
  unfold handleRotate
  simp only [dirtySave_true]
  split_ifs <;> exact ⟨h1, h2, h3, h4, h5⟩

theorem confirmAction_inv (s : Sys) (e : Env) (h : LoopInv s) :
    LoopInv (confirmAction s e) ∧
      ((confirmAction s e).oven = OvenState.ERROR → s.oven = OvenState.ERROR) ∧
      (confirmAction s e).relay = s.relay := by
  obtain ⟨h1, h2, h3, h4, h5⟩ := h
  unfold confirmAction
  simp only [dirtySave_true]
  split_ifs
  · exact ⟨⟨rfl, rfl, fun hc => by simp at hc, h4, h5⟩, fun hc => by simp at hc, rfl⟩
  · exact ⟨⟨rfl, rfl, fun hc => by simp at hc, h4, h5⟩, fun hc => by simp at hc, rfl⟩
  · exact ⟨⟨rfl, rfl, fun hc => by simp at hc, h4, h5⟩, fun hc => by simp at hc, rfl⟩
  · exact ⟨⟨h1, h2, h3, h4, h5⟩, fun hc => hc, rfl⟩

theorem shortPress_inv (s : Sys) (e : Env) (h : LoopInv s) : LoopInv (shortPress s e) := by
  have hs : LoopInv { s with lastActMs := e.now } := h
  have hc := confirmAction_inv { s with lastActMs := e.now } e hs
  obtain ⟨h1, h2, h3, h4, h5⟩ := h
  obtain ⟨⟨c1, c2, c3, c4, c5⟩, _, _⟩ := hc
  unfold shortPress
  simp only [dirtySave_true]
  split_ifs
  · exact ⟨c1, c2, c3, c4, c5⟩
  · exact ⟨h1, h2, h3, h4, h5⟩
  · exact ⟨h1, h2, h3, h4, h5⟩
  · exact ⟨h1, h2, h3, h4, h5⟩

theorem longPress_inv (s : Sys) (e : Env) (h : LoopInv s) : LoopInv (longPress s e) := by
  obtain ⟨h1, h2, h3, h4, h5⟩ := h
  unfold longPress
  simp only
  split_ifs with a b c
  · exact ⟨h1, h2, h3, h4, h5⟩
  · exact ⟨h1, h2, fun hc => by simp at hc, h4, h5⟩
  · exact ⟨h1, h2, h3, h4, h5⟩
  · exact ⟨h1, h2, h3, h4, h5⟩

theorem handlePress_inv (s : Sys) (e : Env) (h : LoopInv s) : LoopInv (handlePress s e) := by
  have hs := shortPress_inv s e h
  have hl := longPress_inv s e h
  unfold handlePress
  simp only
  split_ifs
  · exact h
  · exact hs
  · exact h
  · exact hl
  · exact h
  · exact h

theorem handleInput_inv (s : Sys) (e : Env) (h : LoopInv s) : LoopInv (handleInput s e) :=
  handlePress_inv _ e (handleRotate_inv s e h)

theorem driveOutputs_inv (s : Sys) (e : Env) (h : LoopInv s) : LoopInv (driveOutputs s e) := by
  obtain ⟨h1, h2, h3, h4, h5⟩ := h
  unfold driveOutputs
  simp only
  split_ifs <;>
    exact ⟨by rw [IntelligentHeater.drive_frame]; exact h1,
           by rw [IntelligentHeater.drive_frame]; exact h2, h3,
           IntelligentHeater.drive_cacheOK _ _ _ h4, IntelligentHeater.drive_cacheOK _ _ _ h5⟩

theorem driveOutputs_oven (s : Sys) (e : Env) : (driveOutputs s e).oven = s.oven := by
  unfold driveOutputs
  simp only
  split_ifs <;> rfl

theorem dirtySave_frame (s : Sys) (set : Bool) (ms : Nat) :
    (dirtySave s set ms).up = s.up ∧ (dirtySave s set ms).lo = s.lo ∧
    (dirtySave s set ms).oven = s.oven ∧ (dirtySave s set ms).relay = s.relay := by
  unfold dirtySave
  simp only
  split_ifs <;> simp

theorem dirtySave_inv (s : Sys) (set : Bool) (ms : Nat) (h : LoopInv s) :
    LoopInv (dirtySave s set ms) := by
  obtain ⟨f1, f2, f3, f4⟩ := dirtySave_frame s set ms
  unfold LoopInv SafeInv at *
  rw [f1, f2, f3, f4]
  exact h

theorem setup_inv (stored : Settings) (swHeld : Bool) (msCtor ms : Nat) (stray : Config.Recipe) :
    LoopInv (setup stored swHeld msCtor ms stray) := by
  unfold setup LoopInv SafeInv CacheOK
  simp [IntelligentHeater.new, IntelligentHeater.setTunings]

theorem loop_inv (s : Sys) (e : Env) (h : LoopInv s) : LoopInv (loop s e) := by
  unfold loop
  exact dirtySave_inv _ _ _ (driveOutputs_inv _ e (runControlTick_inv _ e (handleInput_inv s e h)))

theorem reachable_inv (s : Sys) (h : Reachable s) : LoopInv s := by
  induction h with
  | boot stored swHeld msCtor ms stray => exact setup_inv stored swHeld msCtor ms stray
  | step s e _ ih => exact loop_inv s e ih

/-! ## Safety invariants of the main loop -/

/-- C4. In Error everything is de-energised: for every state reachable from the state
after `setup` by passes of `loop`, and every further pass (any inputs, any clock values),
if the oven state at the end of the pass is Error then the safety-relay pin is LOW and the
`drive` calls of that pass have written both SSR pins LOW. -/
theorem error_deenergised (s : Sys) (e : Env) (hr : Reachable s)
    (he : (loop s e).oven = OvenState.ERROR) :
    (loop s e).relay = false ∧ (loop s e).up.ssr = false ∧ (loop s e).lo.ssr = false := by
  have hinv := reachable_inv s hr
  have h2 := runControlTick_inv _ e (handleInput_inv s e hinv)
  have hloop := loop_inv s e hinv
  obtain ⟨f1, f2, f3, _⟩ :=
    dirtySave_frame (driveOutputs (runControlTick (handleInput s e) e) e) false e.msSave
  have ho : (runControlTick (handleInput s e) e).oven = OvenState.ERROR := by
    rw [← driveOutputs_oven _ e, ← f3]
    exact he
  refine ⟨hloop.2.2.1 he, ?_, ?_⟩
  · unfold loop
    rw [f1]
    unfold driveOutputs
    rw [if_pos ho]
    exact IntelligentHeater.drive_zero_low _ _ h2.2.2.2.1
  · unfold loop
    rw [f2]
    unfold driveOutputs
    rw [if_pos ho]
    exact IntelligentHeater.drive_zero_low _ _ h2.2.2.2.2

/-- C4, sample: the first control tick after boot finds the upper plate probe broken. -/
theorem error_deenergised_witness :
    (loop bootState (faultEnv 1000)).oven = OvenState.ERROR ∧
    (loop bootState (faultEnv 1000)).relay = false ∧
    (loop bootState (faultEnv 1000)).up.ssr = false ∧
    (loop bootState (faultEnv 1000)).lo.ssr = false :=
  ⟨by decide!, error_deenergised bootState (faultEnv 1000) (Reachable.boot _ _ _ _ _)
    (by decide!)⟩

/-- C5. No fault bit is latched when the contactor is re-energised: for every state
reachable from the state after `setup` by passes of `loop`, both error bitsets are 0
before and after `handleInput` (in particular whenever its long-press branch writes the
relay pin HIGH), and both are 0 after `runControlTick`. -/
theorem no_fault_bit_at_reenergise (s : Sys) (e : Env) (hr : Reachable s) :
    (s.up.error = 0 ∧ s.lo.error = 0) ∧
    ((handleInput s e).up.error = 0 ∧ (handleInput s e).lo.error = 0) ∧
    ((runControlTick (handleInput s e) e).up.error = 0 ∧
      (runControlTick (handleInput s e) e).lo.error = 0) := by
  have hinv := reachable_inv s hr
  have h1 := handleInput_inv s e hinv
  have h2 := runControlTick_inv _ e h1
  exact ⟨⟨hinv.1, hinv.2.1⟩, ⟨h1.1, h1.2.1⟩, ⟨h2.1, h2.2.1⟩⟩

/-- C5, sample: a probe fault at the first tick, then the switch held for more than two
seconds; `handleInput` writes the relay pin HIGH and no fault bit is set. -/
theorem no_fault_bit_at_reenergise_witness :
    ((loop (loop bootState (faultEnv 1000)) (pressEnv 1500)).relay = false ∧
      (handleInput (loop (loop bootState (faultEnv 1000)) (pressEnv 1500))
        (pressEnv 3600)).relay = true) ∧
    (((loop (loop bootState (faultEnv 1000)) (pressEnv 1500)).up.error = 0 ∧
      (loop (loop bootState (faultEnv 1000)) (pressEnv 1500)).lo.error = 0) ∧
    ((handleInput (loop (loop bootState (faultEnv 1000)) (pressEnv 1500))
        (pressEnv 3600)).up.error = 0 ∧
      (handleInput (loop (loop bootState (faultEnv 1000)) (pressEnv 1500))
        (pressEnv 3600)).lo.error = 0) ∧
    ((runControlTick (handleInput (loop (loop bootState (faultEnv 1000)) (pressEnv 1500))
        (pressEnv 3600)) (pressEnv 3600)).up.error = 0 ∧
      (runControlTick (handleInput (loop (loop bootState (faultEnv 1000)) (pressEnv 1500))
        (pressEnv 3600)) (pressEnv 3600)).lo.error = 0)) :=
  ⟨by decide!, no_fault_bit_at_reenergise _ (pressEnv 3600)
    (Reachable.step _ _ (Reachable.step _ _ (Reachable.boot _ _ _ _ _)))⟩

/-! ## Where the code departs from the specification -/

/-- C2, evaluated.  In `coolingState` the lower plate probe fails at the tick of 5000 ms:
the tick of the lower zone leaves the sensor bit set, yet the same `runControlTick` ends
in Shutdown with the relay pin still HIGH and the bit cleared, because the Cooling →
Shutdown step resets the zones before the emergency test.  In `tuningStale` the upper
plate probe fails: the oven goes to Error but the target duty keeps its value 200. -/
theorem fault_not_propagated :
    ((tickLo (tickUp coolingState (loFaultEnv 5000) 0).1 (loFaultEnv 5000) 0).1.lo.error = 1 ∧
      (runControlTick coolingState (loFaultEnv 5000)).oven = OvenState.SHUTDOWN ∧
      (runControlTick coolingState (loFaultEnv 5000)).relay = true ∧
      (runControlTick coolingState (loFaultEnv 5000)).lo.error = 0) ∧
    ((tuneTicks (tuneAdvance tuningStale (faultEnv 5000)) (faultEnv 5000)).up.error = 1 ∧
      (runControlTick tuningStale (faultEnv 5000)).oven = OvenState.ERROR ∧
      (runControlTick tuningStale (faultEnv 5000)).relay = false ∧
      (runControlTick tuningStale (faultEnv 5000)).targetUpPWM = 200) := by
  decide!

/-- C3, evaluated.  A probe fault during a bake leaves the oven in Error with `baking`
still set; at 90 s, with the switch untouched, `runControlTick` moves the oven from Error
to BakeDone while the relay pin stays LOW.  Separately, with a prompt open, a short press
on "yes" takes the oven from Error to Tuning. -/
theorem error_left_without_long_press :
    ((loop bakingState (faultEnv 1000)).oven = OvenState.ERROR ∧
      (loop bakingState (faultEnv 1000)).baking = true ∧
      (handleInput (loop bakingState (faultEnv 1000)) (quietEnv 90000)).oven
        = OvenState.ERROR ∧
      (runControlTick (handleInput (loop bakingState (faultEnv 1000)) (quietEnv 90000))
        (quietEnv 90000)).oven = OvenState.BAKE_DONE ∧
      (runControlTick (handleInput (loop bakingState (faultEnv 1000)) (quietEnv 90000))
        (quietEnv 90000)).relay = false) ∧
    (heldFaulted.oven = OvenState.ERROR ∧
      heldConfirmed.oven = OvenState.TUNING ∧
      heldConfirmed.relay = false) := by
  decide!

/-- On the Tuning path `runControlTick` never writes the target duties. -/
theorem runControlTick_tuning_targets (s : Sys) (e : Env) (h : s.oven = OvenState.TUNING) :
    (runControlTick s e).targetUpPWM = s.targetUpPWM ∧
    (runControlTick s e).targetLoPWM = s.targetLoPWM := by
  have h1 : ∀ t : Sys, (tuneAdvance t e).targetUpPWM = t.targetUpPWM ∧
      (tuneAdvance t e).targetLoPWM = t.targetLoPWM := by
    intro t
    unfold tuneAdvance
    simp only [dirtySave_true]
    split_ifs <;> simp
  have h2 : ∀ t : Sys, (tuneTicks t e).targetUpPWM = t.targetUpPWM ∧
      (tuneTicks t e).targetLoPWM = t.targetLoPWM := by
    intro t
    unfold tuneTicks tickUp tickLo
    simp only
    split_ifs <;> simp
  have h3 : ∀ t : Sys, (tuneSafety t e).targetUpPWM = t.targetUpPWM ∧
      (tuneSafety t e).targetLoPWM = t.targetLoPWM := by
    intro t
    unfold tuneSafety
    simp only [dirtySave_true]
    split_ifs <;> simp
  unfold runControlTick
  split_ifs with hg
  · simp only [h, if_true]
    rw [(h3 _).1, (h3 _).2, (h2 _).1, (h2 _).2, (h1 _).1, (h1 _).2]
    exact ⟨rfl, rfl⟩
  · exact ⟨rfl, rfl⟩

/-- C9, evaluated.  In the Tuning state entered from the boot prompt, the control tick
of 1000 ms starts the upper auto-tune, the library writes 255 into the raw output, no
fault occurs, and `runControlTick` returns with the target duty still 0:
`calculatePower` is not called on the Tuning path. -/
theorem tuning_targets_stale :
    tuneEntered.oven = OvenState.TUNING ∧
    (runControlTick (handleInput tuneEntered (tuneEnv 1000)) (tuneEnv 1000)).oven
      = OvenState.TUNING ∧
    (runControlTick (handleInput tuneEntered (tuneEnv 1000)) (tuneEnv 1000)).up.error = 0 ∧
    (runControlTick (handleInput tuneEntered (tuneEnv 1000)) (tuneEnv 1000)).lo.error = 0 ∧
    toU8 (ftrunc (runControlTick (handleInput tuneEntered (tuneEnv 1000))
      (tuneEnv 1000)).up.pidOut) = 255 ∧
    (runControlTick (handleInput tuneEntered (tuneEnv 1000)) (tuneEnv 1000)).targetUpPWM = 0 := by
  decide!

/-! ## The zone controller, stage by stage -/

theorem bit0_and254 (x : Nat) : (x &&& 254).testBit 0 = false := by
  simp [Nat.testBit_and]

theorem bit0_or1 (x : Nat) : (x ||| 1).testBit 0 = true := by
  simp [Nat.testBit_or]

theorem bit0_or2 (x : Nat) : (x ||| 2).testBit 0 = x.testBit 0 := by
  simp [Nat.testBit_or]

theorem bit0_or4 (x : Nat) : (x ||| 4).testBit 0 = x.testBit 0 := by
  simp [Nat.testBit_or]

theorem bit1_and254 (x : Nat) : (x &&& 254).testBit 1 = x.testBit 1 := by
  rw [Nat.testBit_and, show Nat.testBit 254 1 = true by decide, Bool.and_true]

theorem bit1_or2 (x : Nat) : (x ||| 2).testBit 1 = true := by
  rw [Nat.testBit_or, show Nat.testBit 2 1 = true by decide, Bool.or_true]

theorem bit1_or4 (x : Nat) : (x ||| 4).testBit 1 = x.testBit 1 := by
  rw [Nat.testBit_or, show Nat.testBit 4 1 = false by decide, Bool.or_false]

namespace IntelligentHeater

theorem probeBad_iff (r : Option ℚ) (ceiling : ℚ) :
    probeBad r ceiling = true ↔ specProbeRejected r ceiling := by
  cases r with
  | none => simp [probeBad, specProbeRejected]
  | some v => simp [probeBad, specProbeRejected]

theorem bad_iff_specRejected (rp rh : Option ℚ) :
    (probeBad rp Config.Hard.PLATE_MAX_C
      || probeBad rh (Config.Hard.HEATER_MAX_C + 100)) = true ↔ specRejected rp rh := by
  have h1 : Config.Hard.PLATE_MAX_C = 650 := rfl
  have h2 : Config.Hard.HEATER_MAX_C + 100 = 920 := by
    unfold Config.Hard.HEATER_MAX_C; norm_num
  rw [h1, h2, Bool.or_eq_true, probeBad_iff, probeBad_iff]
  rfl

theorem tickFilter_fields (z : IntelligentHeater) (rp rh : ℚ) (ms : Nat) :
    (z.tickFilter rp rh ms).error = z.error &&& 254 ∧
    (z.tickFilter rp rh ms).heaterC = rh ∧
    (z.tickFilter rp rh ms)._first = false ∧
    (z.tickFilter rp rh ms).plateC =
      (4/5 : ℚ) * (if z._first = true then rp else z.plateC) + (1/5 : ℚ) * rp ∧
    (z.tickFilter rp rh ms).trend =
      (9/10 : ℚ) * z.trend + (1/10 : ℚ) *
        ((4/5 : ℚ) * (if z._first = true then rp else z.plateC) + (1/5 : ℚ) * rp
          - (if z._first = true then rp else z.plateC)) ∧
    (z.tickFilter rp rh ms)._runawayMs = (if z._first = true then ms else z._runawayMs) := by
  unfold tickFilter
  simp only
  split_ifs with h <;> simp_all

theorem tickSoak_keep (z : IntelligentHeater) (target : ℚ) :
    (z.tickSoak target).error = z.error ∧ (z.tickSoak target).plateC = z.plateC ∧
    (z.tickSoak target).heaterC = z.heaterC ∧ (z.tickSoak target).trend = z.trend ∧
    (z.tickSoak target)._runawayMs = z._runawayMs ∧
    (z.tickSoak target)._first = z._first := by
  unfold tickSoak
  simp

theorem tickPid_keep (z : IntelligentHeater) (tune : ATuneStep) :
    (z.tickPid tune).error = z.error ∧ (z.tickPid tune).plateC = z.plateC ∧
    (z.tickPid tune).heaterC = z.heaterC ∧ (z.tickPid tune).trend = z.trend ∧
    (z.tickPid tune)._runawayMs = z._runawayMs ∧
    (z.tickPid tune)._first = z._first := by
  unfold tickPid setTunings stopTune
  simp only
  split_ifs <;> simp

theorem tickRunaway_keep (z : IntelligentHeater) (ms : Nat) :
    (z.tickRunaway ms).plateC = z.plateC ∧ (z.tickRunaway ms).heaterC = z.heaterC ∧
    (z.tickRunaway ms).trend = z.trend ∧ (z.tickRunaway ms).pwm = z.pwm ∧
    (z.tickRunaway ms)._first = z._first := by
  unfold tickRunaway
  split_ifs <;> simp

theorem tickOverheat_keep (z : IntelligentHeater) :
    (z.tickOverheat).plateC = z.plateC ∧ (z.tickOverheat).heaterC = z.heaterC ∧
    (z.tickOverheat).trend = z.trend ∧ (z.tickOverheat).pwm = z.pwm ∧
    (z.tickOverheat)._runawayMs = z._runawayMs ∧
    (z.tickOverheat)._first = z._first := by
  unfold tickOverheat
  split_ifs <;> simp

/-- What the runaway stage does to the reference and to the error bitset. -/
theorem tickRunaway_cases (z : IntelligentHeater) (ms : Nat) :
    (z.pwm = 0 ∧ z.trend > 3/2 →
      (z.tickRunaway ms)._runawayMs = z._runawayMs ∧
      (z.tickRunaway ms).error =
        (if sub32 ms z._runawayMs > 30000 then z.error ||| 2 else z.error)) ∧
    (¬ (z.pwm = 0 ∧ z.trend > 3/2) →
      (z.tickRunaway ms)._runawayMs = ms ∧ (z.tickRunaway ms).error = z.error) := by
  unfold tickRunaway Config.Hard.RUNAWAY_TIMEOUT_MS
  constructor
  · intro h
    rw [if_pos h]
    split_ifs <;> simp
  · intro h
    rw [if_neg h]
    simp

/-- What the over-temperature stage does to the error bitset. -/
theorem tickOverheat_error (z : IntelligentHeater) :
    (z.tickOverheat).error = (if z.plateC > 650 then z.error ||| 4 else z.error) := by
  unfold tickOverheat Config.Hard.PLATE_MAX_C
  split_ifs <;> rfl

end IntelligentHeater

theorem fmax_zero (x : ℚ) : fmax 0 x = max 0 x := by
  unfold fmax
  split_ifs with h
  · exact (max_eq_left (le_of_lt h)).symm
  · exact (max_eq_right (not_lt.mp h)).symm

/-- C18. The frame and the postcondition of `reset()`: the tunings, the tuning flag and the
auto-tune session are unchanged (wear is not a member and not a parameter), and error,
pwm, raw output, soak, trend, integrator and lastInput are 0, the first-sample flag is
set, the SSR pin is LOW, and the runaway and output-window timestamps are the current
time. -/
theorem reset_frame (z : IntelligentHeater) (ms : Nat) :
    ((z.reset ms)._kp = z._kp ∧ (z.reset ms)._ki = z._ki ∧ (z.reset ms)._kd = z._kd ∧
      (z.reset ms)._tuning = z._tuning ∧ (z.reset ms)._aTune = z._aTune) ∧
    ((z.reset ms).error = 0 ∧ (z.reset ms).pwm = 0 ∧ (z.reset ms)._out = 0 ∧
      (z.reset ms).soak = 0 ∧ (z.reset ms).trend = 0 ∧ (z.reset ms)._iTerm = 0 ∧
      (z.reset ms)._lastInput = 0 ∧ (z.reset ms)._first = true ∧
      (z.reset ms).ssr = false ∧
      (z.reset ms)._runawayMs = ms ∧ (z.reset ms)._winStart = ms) := by
  unfold IntelligentHeater.reset
  simp

/-- C19. Filament wear: with accepted readings (plate in `[0, 650]`, heater `h` in
`[0, 920]`) and a wear value `w ≥ 0`, the wear after `tick` is `max(0, w - 0.01)` if
`h > 860`, `max(0, w - 0.002)` if `840 < h ≤ 860`, and `w` otherwise; it is at most `w`
and at least 0, and the returned flag is true exactly when `h > 840`. -/
theorem tick_wear (z : IntelligentHeater) (p h : ℚ) (tune : ATuneStep) (ms : Nat)
    (target w : ℚ) (hw : 0 ≤ w) (hp : 0 ≤ p ∧ p ≤ 650) (hh : 0 ≤ h ∧ h ≤ 920) :
    (z.tick (some p) (some h) tune ms target w).2.1 =
      (if h > 860 then max 0 (w - 1/100) else if h > 840 then max 0 (w - 2/1000) else w) ∧
    (z.tick (some p) (some h) tune ms target w).2.1 ≤ w ∧
    0 ≤ (z.tick (some p) (some h) tune ms target w).2.1 ∧
    ((z.tick (some p) (some h) tune ms target w).2.2 = true ↔ h > 840) := by
  have hok : ¬ (IntelligentHeater.probeBad (some p) Config.Hard.PLATE_MAX_C
      || IntelligentHeater.probeBad (some h) (Config.Hard.HEATER_MAX_C + 100)) = true := by
    rw [IntelligentHeater.bad_iff_specRejected]
    unfold specRejected specProbeRejected
    simp only [not_or, not_lt]
    exact ⟨⟨hp.1, hp.2⟩, ⟨hh.1, hh.2⟩⟩
  rw [IntelligentHeater.tick_of_ok z (some p) (some h) tune ms target w hok]
  simp only [Option.getD_some]
  have hc : ((((z.tickFilter p h ms).tickSoak target).tickPid tune).tickRunaway ms).heaterC
      = h := by
    rw [(IntelligentHeater.tickRunaway_keep _ _).2.1, (IntelligentHeater.tickPid_keep _ _).2.2.1,
      (IntelligentHeater.tickSoak_keep _ _).2.2.1, (IntelligentHeater.tickFilter_fields _ _ _ _).2.1]
  unfold IntelligentHeater.tickHealth
  simp only [hc, Config.Hard.HEATER_MAX_C, fmax_zero]
  have e1 : (820 : ℚ) + 40 = 860 := by norm_num
  have e2 : (820 : ℚ) + 20 = 840 := by norm_num
  rw [e1, e2]
  by_cases h1 : h > 860
  · have h2 : h > 840 := by linarith
    simp only [h1, if_true, h2, iff_true]
    refine ⟨trivial, ?_, le_max_left _ _, trivial⟩
    exact max_le hw (by linarith)
  · by_cases h2 : h > 840
    · simp only [h1, if_false, h2, if_true, iff_true]
      refine ⟨trivial, ?_, le_max_left _ _, trivial⟩
      exact max_le hw (by linarith)
    · simp only [h1, if_false, h2]
      exact ⟨trivial, le_refl _, hw, by simp⟩

/-- C19, sample: a heater reading of 850 °C costs 0.002 of a wear value of 100. -/
theorem tick_wear_witness :
    ((IntelligentHeater.new 0).tick (some 400) (some 850) ⟨0, 0, 0, 0, 0⟩ 1000 500 100).2.1 =
      (if (850 : ℚ) > 860 then max 0 ((100 : ℚ) - 1/100)
        else if (850 : ℚ) > 840 then max 0 ((100 : ℚ) - 2/1000) else 100) ∧
    ((IntelligentHeater.new 0).tick (some 400) (some 850) ⟨0, 0, 0, 0, 0⟩ 1000 500 100).2.1
      ≤ 100 ∧
    0 ≤ ((IntelligentHeater.new 0).tick (some 400) (some 850) ⟨0, 0, 0, 0, 0⟩ 1000 500
      100).2.1 ∧
    (((IntelligentHeater.new 0).tick (some 400) (some 850) ⟨0, 0, 0, 0, 0⟩ 1000 500
      100).2.2 = true ↔ (850 : ℚ) > 840) :=
  tick_wear (IntelligentHeater.new 0) 400 850 ⟨0, 0, 0, 0, 0⟩ 1000 500 100
    (by norm_num) (by norm_num) (by norm_num)

/-- C15, the claim fails: the member widths of the packed `Settings` record do not add up
to 32. -/
theorem settings_size_not_32 : Settings.packedSize ≠ 32 := by decide

/-- C15, amended. The packed `Settings` record (uint32 magic, two uint8 indices, eight
float32 members) occupies 38 bytes: the sum of its member widths is 4 + 1 + 1 + 8 * 4. -/
theorem settings_size_38 :
    Settings.packedSize = 38 ∧ Settings.fieldWidths.length = 11 ∧
    Settings.packedSize = 4 + 1 + 1 + 8 * 4 := by decide

/-- After an accepted tick the sensor bit is clear. -/
theorem tick_ok_bit0 (z : IntelligentHeater) (rp rh : Option ℚ) (tune : ATuneStep) (ms : Nat)
    (target health : ℚ)
    (hok : ¬ (IntelligentHeater.probeBad rp Config.Hard.PLATE_MAX_C
      || IntelligentHeater.probeBad rh (Config.Hard.HEATER_MAX_C + 100)) = true) :
    (z.tick rp rh tune ms target health).1.error.testBit 0 = false := by
  rw [IntelligentHeater.tick_of_ok z rp rh tune ms target health hok]
  simp only
  rw [IntelligentHeater.tickOverheat_error]
  have hr : ∀ y : IntelligentHeater, (y.tickRunaway ms).error.testBit 0 = y.error.testBit 0 := by
    intro y
    unfold IntelligentHeater.tickRunaway
    split_ifs <;> simp [bit0_or2]
  have hbase : ((((z.tickFilter (rp.getD 0) (rh.getD 0) ms).tickSoak target).tickPid
      tune).tickRunaway ms).error.testBit 0 = false := by
    rw [hr, (IntelligentHeater.tickPid_keep _ _).1, (IntelligentHeater.tickSoak_keep _ _).1,
      (IntelligentHeater.tickFilter_fields _ _ _ _).1]
    exact bit0_and254 _
  split_ifs
  · rw [bit0_or4]; exact hbase
  · exact hbase

/-- C12. Probe rejection: after `tick` the sensor bit (bit 0) is set if and only if the
plate reading is NaN, below 0 or above 650, or the heater reading is NaN, below 0 or above
920; in that case `tick` only sets the sensor bit, zeroes `pwm` and the raw output, writes
the SSR pin LOW and returns false, leaving every other member (filtered plate and heater
temperatures, trend, soak, integrator, runaway reference) and the caller's wear value as
they were; otherwise the sensor bit is clear.  The readings 0, 650 and 920 are accepted. -/
theorem tick_rejection (z : IntelligentHeater) (rp rh : Option ℚ) (tune : ATuneStep)
    (ms : Nat) (target health : ℚ) :
    ((z.tick rp rh tune ms target health).1.error.testBit 0 = true ↔ specRejected rp rh) ∧
    (specRejected rp rh →
      z.tick rp rh tune ms target health =
        ({ z with error := z.error ||| 1, pwm := 0, _out := 0, ssr := false },
          health, false)) ∧
    (¬ specRejected rp rh →
      (z.tick rp rh tune ms target health).1.error.testBit 0 = false) ∧
    (¬ specRejected (some 0) (some 0) ∧ ¬ specRejected (some 650) (some 920)) := by
  have hiff := IntelligentHeater.bad_iff_specRejected rp rh
  have hrej : specRejected rp rh →
      z.tick rp rh tune ms target health =
        ({ z with error := z.error ||| 1, pwm := 0, _out := 0, ssr := false },
          health, false) := by
    intro h
    rw [IntelligentHeater.tick_of_bad z rp rh tune ms target health (hiff.mpr h)]
    rfl
  have hacc : ¬ specRejected rp rh →
      (z.tick rp rh tune ms target health).1.error.testBit 0 = false := by
    intro h
    exact tick_ok_bit0 z rp rh tune ms target health (fun hb => h (hiff.mp hb))
  refine ⟨⟨?_, ?_⟩, hrej, hacc, ?_⟩
  · intro hset
    by_contra hn
    rw [hacc hn] at hset
    exact Bool.false_ne_true hset
  · intro h
    rw [hrej h]
    exact bit0_or1 _
  · unfold specRejected specProbeRejected
    norm_num

/-- C11, the claim fails: with the runaway bit latched from an earlier tick, an accepted
tick toward 500 °C leaves the error bitset at 2 and the requested duty at 255; and from a
filtered plate temperature of 700 °C an accepted tick toward 800 °C sets the overheat bit
and leaves the requested duty at 255. -/
theorem latched_fault_nonzero_duty :
    (latchedZone.tick (some 20) (some 20) ⟨0, 0, 0, 0, 0⟩ 1000 500 100).1.error = 2 ∧
    (latchedZone.tick (some 20) (some 20) ⟨0, 0, 0, 0, 0⟩ 1000 500 100).1.pwm = 255 ∧
    ¬ ((latchedZone.tick (some 20) (some 20) ⟨0, 0, 0, 0, 0⟩ 1000 500 100).1.error ≠ 0 →
        (latchedZone.tick (some 20) (some 20) ⟨0, 0, 0, 0, 0⟩ 1000 500 100).1.pwm = 0) ∧
    (overheatedZone.tick (some 650) (some 20) ⟨0, 0, 0, 0, 0⟩ 1000 800 100).1.error = 4 ∧
    (overheatedZone.tick (some 650) (some 20) ⟨0, 0, 0, 0, 0⟩ 1000 800 100).1.pwm = 255 := by
  decide!

/-- C11, amended. A fault flag set by `tick` implies zero duty: for every zone state whose
error bitset holds at most the sensor bit and whose filtered plate temperature is at most
650 (or is about to be re-sampled), every target and every pair of probe readings, if the
error bitset is non-zero after `tick` then the requested duty `pwm` is 0. -/
theorem tick_fault_zero_duty (z : IntelligentHeater) (rp rh : Option ℚ) (tune : ATuneStep)
    (ms : Nat) (target health : ℚ)
    (he : z.error ≤ 1) (hp : z._first = true ∨ z.plateC ≤ 650)
    (hf : (z.tick rp rh tune ms target health).1.error ≠ 0) :
    (z.tick rp rh tune ms target health).1.pwm = 0 := by
  by_cases hb : (IntelligentHeater.probeBad rp Config.Hard.PLATE_MAX_C
      || IntelligentHeater.probeBad rh (Config.Hard.HEATER_MAX_C + 100)) = true
  · rw [IntelligentHeater.tick_of_bad z rp rh tune ms target health hb]
    rfl
  · have hspec : ¬ specRejected rp rh := fun h =>
      hb ((IntelligentHeater.bad_iff_specRejected rp rh).mpr h)
    rw [IntelligentHeater.tick_of_ok z rp rh tune ms target health hb] at hf ⊢
    simp only at hf ⊢
    obtain ⟨f1, _, _, f4, _, _⟩ :=
      IntelligentHeater.tickFilter_fields z (rp.getD 0) (rh.getD 0) ms
    set zp := ((z.tickFilter (rp.getD 0) (rh.getD 0) ms).tickSoak target).tickPid tune
      with hzp
    have hrp : rp.getD 0 ≤ 650 := by
      unfold specRejected specProbeRejected at hspec
      cases rp with
      | none => simp at hspec
      | some v =>
        simp only [not_or, not_lt] at hspec
        exact hspec.1.2
    have hplate : zp.plateC ≤ 650 := by
      rw [hzp, (IntelligentHeater.tickPid_keep _ _).2.1,
        (IntelligentHeater.tickSoak_keep _ _).2.1, f4]
      rcases hp with h1 | h1
      · rw [if_pos h1]; linarith
      · split_ifs <;> linarith
    have herr : zp.error = 0 := by
      rw [hzp, (IntelligentHeater.tickPid_keep _ _).1, (IntelligentHeater.tickSoak_keep _ _).1,
        f1]
      interval_cases z.error <;> rfl
    have hno : ¬ (zp.tickRunaway ms).plateC > 650 := by
      rw [(IntelligentHeater.tickRunaway_keep _ _).1]
      exact not_lt.mpr hplate
    rw [IntelligentHeater.tickOverheat_error, if_neg hno] at hf
    rw [(IntelligentHeater.tickOverheat_keep _).2.2.2.1,
      (IntelligentHeater.tickRunaway_keep _ _).2.2.2.1]
    by_contra hpwm
    have hcase := (IntelligentHeater.tickRunaway_cases zp ms).2 (fun h => hpwm h.1)
    rw [hcase.2] at hf
    exact hf herr

/-- C11 amended, sample: a zone whose plate has been rising at 10 °C/s with the output off
for 31 s trips the runaway bit, and its requested duty is 0. -/
theorem tick_fault_zero_duty_witness :
    (hotZone.tick (some 120) (some 120) ⟨0, 0, 0, 0, 0⟩ 31000 0 100).1.error = 2 ∧
    (hotZone.tick (some 120) (some 120) ⟨0, 0, 0, 0, 0⟩ 31000 0 100).1.pwm = 0 :=
  ⟨by decide!, tick_fault_zero_duty hotZone (some 120) (some 120) ⟨0, 0, 0, 0, 0⟩ 31000 0 100
    (by decide) (Or.inr (by norm_num [hotZone, IntelligentHeater.new])) (by decide!)⟩

/-! ## Persistence -/

/-- The branch condition of `dirtySave()` that guards `EEPROM.put` is the commit condition
of the specification. -/
theorem specCommit_iff (s : Sys) (ms : Nat) :
    specCommit s ms = true ↔
      (s.dirty = true ∧
        (sub32 ms s.dirtyLastMs > Config.Hard.EEPROM_IDLE_TIMEOUT_MS ∨
          (s.oven = OvenState.SHUTDOWN ∨ s.oven = OvenState.ERROR))) ∧
      s.settings ≠ s.lastSaveSettings := by
  unfold specCommit Config.Hard.EEPROM_IDLE_TIMEOUT_MS
  simp only [Bool.and_eq_true, Bool.or_eq_true, decide_eq_true_eq]
  constructor
  · rintro ⟨⟨h1, h2⟩, h3⟩
    refine ⟨⟨h1, ?_⟩, h3⟩
    rcases h2 with (h | h) | h
    · exact Or.inr (Or.inl h)
    · exact Or.inr (Or.inr h)
    · exact Or.inl h
  · rintro ⟨⟨h1, h2⟩, h3⟩
    refine ⟨⟨h1, ?_⟩, h3⟩
    rcases h2 with h | h | h
    · exact Or.inr h
    · exact Or.inl (Or.inl h)
    · exact Or.inl (Or.inr h)

/-- What `dirtySave()` does to the stored block, the shadow and the settings block. -/
theorem dirtySave_fields (s : Sys) (ms : Nat) :
    (dirtySave s false ms).eeprom = (if specCommit s ms = true then s.settings else s.eeprom) ∧
    (dirtySave s false ms).lastSaveSettings =
      (if specCommit s ms = true then s.settings else s.lastSaveSettings) ∧
    ((dirtySave s false ms).lastSaveSettings ≠ s.lastSaveSettings ↔ specCommit s ms = true) ∧
    (dirtySave s false ms).settings = s.settings := by
  have hiff := specCommit_iff s ms
  by_cases hc : specCommit s ms = true
  · obtain ⟨h1, h3⟩ := hiff.mp hc
    have e : dirtySave s false ms =
        { s with dirty := false, eeprom := s.settings, lastSaveSettings := s.settings } := by
      unfold dirtySave
      simp [h1, h3]
    rw [e, if_pos hc, if_pos hc]
    exact ⟨rfl, rfl, ⟨fun _ => hc, fun _ => h3⟩, rfl⟩
  · have hn : ¬ ((s.dirty = true ∧
        (sub32 ms s.dirtyLastMs > Config.Hard.EEPROM_IDLE_TIMEOUT_MS ∨
          (s.oven = OvenState.SHUTDOWN ∨ s.oven = OvenState.ERROR))) ∧
        s.settings ≠ s.lastSaveSettings) := fun h => hc (hiff.mpr h)
    have e : (dirtySave s false ms).eeprom = s.eeprom ∧
        (dirtySave s false ms).lastSaveSettings = s.lastSaveSettings ∧
        (dirtySave s false ms).settings = s.settings := by
      unfold dirtySave
      simp only [Bool.false_eq_true, if_false]
      by_cases h1 : s.dirty = true ∧
          (sub32 ms s.dirtyLastMs > Config.Hard.EEPROM_IDLE_TIMEOUT_MS ∨
            (s.oven = OvenState.SHUTDOWN ∨ s.oven = OvenState.ERROR))
      · rw [if_pos h1]
        have h3 : s.settings = s.lastSaveSettings := by
          by_contra h
          exact hn ⟨h1, h⟩
        simp [h3]
      · rw [if_neg h1]
        exact ⟨rfl, rfl, rfl⟩
    rw [e.1, e.2.1, e.2.2, if_neg hc, if_neg hc]
    exact ⟨rfl, rfl, ⟨fun h => absurd rfl h, fun h => absurd h hc⟩, rfl⟩

/-- C13. Persistence commit policy: `dirtySave()` writes the settings block to EEPROM and
to the shadow copy exactly when the dirty flag is set, the oven state is Shutdown or Error
or `now - lastMs > 30000`, and the settings block differs from the shadow; after a write
the shadow (and the stored block) equal the settings block, and without a write the stored
block and the shadow are unchanged.  The write is visible in the state: the shadow changes
if and only if the commit condition holds.  The settings block itself is never changed. -/
theorem dirtySave_commit (s : Sys) (ms : Nat) :
    (dirtySave s false ms).eeprom = (if specCommit s ms = true then s.settings else s.eeprom) ∧
    (dirtySave s false ms).lastSaveSettings =
      (if specCommit s ms = true then s.settings else s.lastSaveSettings) ∧
    ((dirtySave s false ms).lastSaveSettings ≠ s.lastSaveSettings ↔ specCommit s ms = true) ∧
    (dirtySave s false ms).settings = s.settings :=
  dirtySave_fields s ms

/-- C14. Boot load and round trip: after `setup()` the in-RAM settings are the stored
block when its magic is `0x50495A36` and the default block otherwise; the shadow copy and
the block in EEPROM equal the in-RAM settings in both cases (so the default block has been
written); the default block is {magic, recipe 0, limit 0, wear 100 and 100, PID
(3.5, 0.05, 1.0) twice}; and a block with the right magic written by a commit of
`dirtySave()` is read back unchanged by the next `setup()`. -/
theorem setup_settings (stored : Settings) (swHeld : Bool) (msCtor ms : Nat)
    (stray : Config.Recipe) :
    (setup stored swHeld msCtor ms stray).settings =
      (if stored.magic = 0x50495A36 then stored else defaultSettings) ∧
    (setup stored swHeld msCtor ms stray).lastSaveSettings =
      (setup stored swHeld msCtor ms stray).settings ∧
    (setup stored swHeld msCtor ms stray).eeprom =
      (setup stored swHeld msCtor ms stray).settings ∧
    defaultSettings = ⟨0x50495A36, 0, 0, 100, 100, 7/2, 1/20, 1, 7/2, 1/20, 1⟩ ∧
    (∀ (s : Sys) (t : Nat), s.settings.magic = 0x50495A36 → specCommit s t = true →
      (setup (dirtySave s false t).eeprom swHeld msCtor ms stray).settings = s.settings) := by
  have h1 : ∀ st : Settings, (setup st swHeld msCtor ms stray).settings =
      (if st.magic = 0x50495A36 then st else defaultSettings) := by
    intro st
    unfold setup Config.EEPROM_MAGIC
    by_cases a : st.magic = 0x50495A36
    · simp [a]
    · simp [a]
  refine ⟨h1 stored, rfl, rfl, rfl, ?_⟩
  intro s t hm hc
  rw [h1, (dirtySave_fields s t).1, if_pos hc, if_pos hm]

/-- C14, sample: a changed power limit committed after 31 s is read back at the next
boot. -/
theorem setup_round_trip_sample :
    specCommit dirtyState 32000 = true ∧
    (dirtySave dirtyState false 32000).eeprom.limitIdx = 2 ∧
    (setup (dirtySave dirtyState false 32000).eeprom false 0 0 ⟨"", 0, 0, "", 0⟩).settings
      = dirtyState.settings := by
  decide!

/-! ## The runaway detector -/

/-- A zone whose first-sample flag is set has trend 0: true of a constructed or reset
zone, and kept by `tick`. -/
theorem first_trend_inv (z : IntelligentHeater) (rp rh : Option ℚ) (tune : ATuneStep)
    (ms : Nat) (target health : ℚ) :
    ((IntelligentHeater.new ms)._first = true → (IntelligentHeater.new ms).trend = 0) ∧
    ((z.reset ms)._first = true → (z.reset ms).trend = 0) ∧
    ((z._first = true → z.trend = 0) →
      (z.tick rp rh tune ms target health).1._first = true →
      (z.tick rp rh tune ms target health).1.trend = 0) := by
  refine ⟨fun _ => rfl, fun _ => rfl, ?_⟩
  intro hinv
  by_cases hb : (IntelligentHeater.probeBad rp Config.Hard.PLATE_MAX_C
      || IntelligentHeater.probeBad rh (Config.Hard.HEATER_MAX_C + 100)) = true
  · rw [IntelligentHeater.tick_of_bad z rp rh tune ms target health hb]
    exact hinv
  · rw [IntelligentHeater.tick_of_ok z rp rh tune ms target health hb]
    simp only
    rw [(IntelligentHeater.tickOverheat_keep _).2.2.2.2.2,
      (IntelligentHeater.tickRunaway_keep _ _).2.2.2.2,
      (IntelligentHeater.tickPid_keep _ _).2.2.2.2.2,
      (IntelligentHeater.tickSoak_keep _ _).2.2.2.2.2,
      (IntelligentHeater.tickFilter_fields _ _ _ _).2.2.1]
    intro h
    exact absurd h Bool.false_ne_true

/-- One accepted tick, seen from the runaway detector. -/
theorem tick_runaway_step (z : IntelligentHeater) (w : ℚ) (i : TickIn)
    (hinv : z._first = true → z.trend = 0) (hacc : i.accepted) :
    ((tickWith (z, w) i).1._first = false) ∧
    ((tickWith (z, w) i).1.pwm = 0 ∧ (tickWith (z, w) i).1.trend > 3/2 →
      (tickWith (z, w) i).1._runawayMs = z._runawayMs ∧
      (tickWith (z, w) i).1.error.testBit 1 =
        (z.error.testBit 1 || decide (sub32 i.ms z._runawayMs > 30000))) ∧
    (¬ ((tickWith (z, w) i).1.pwm = 0 ∧ (tickWith (z, w) i).1.trend > 3/2) →
      (tickWith (z, w) i).1._runawayMs = i.ms ∧
      (tickWith (z, w) i).1.error.testBit 1 = z.error.testBit 1) := by
  have hok : ¬ (IntelligentHeater.probeBad (some i.plate) Config.Hard.PLATE_MAX_C
      || IntelligentHeater.probeBad (some i.heater) (Config.Hard.HEATER_MAX_C + 100))
      = true := by
    rw [IntelligentHeater.bad_iff_specRejected]
    unfold specRejected specProbeRejected
    simp only [not_or, not_lt]
    exact ⟨⟨hacc.1, hacc.2.1⟩, ⟨hacc.2.2.1, hacc.2.2.2⟩⟩
  unfold tickWith
  simp only
  rw [IntelligentHeater.tick_of_ok z (some i.plate) (some i.heater) i.tune i.ms i.target w hok]
  simp only [Option.getD_some]
  obtain ⟨f1, _, f3, _, f5, f6⟩ := IntelligentHeater.tickFilter_fields z i.plate i.heater i.ms
  set zp := ((z.tickFilter i.plate i.heater i.ms).tickSoak i.target).tickPid i.tune with hzp
  have herr : zp.error = z.error &&& 254 := by
    rw [hzp, (IntelligentHeater.tickPid_keep _ _).1, (IntelligentHeater.tickSoak_keep _ _).1, f1]
  have htrend : zp.trend = (z.tickFilter i.plate i.heater i.ms).trend := by
    rw [hzp, (IntelligentHeater.tickPid_keep _ _).2.2.2.1,
      (IntelligentHeater.tickSoak_keep _ _).2.2.2.1]
  have href : zp._runawayMs = (if z._first = true then i.ms else z._runawayMs) := by
    rw [hzp, (IntelligentHeater.tickPid_keep _ _).2.2.2.2.1,
      (IntelligentHeater.tickSoak_keep _ _).2.2.2.2.1, f6]
  have hfirst : zp._first = false := by
    rw [hzp, (IntelligentHeater.tickPid_keep _ _).2.2.2.2.2,
      (IntelligentHeater.tickSoak_keep _ _).2.2.2.2.2, f3]
  have hbit : ∀ y : IntelligentHeater, y.tickOverheat.error.testBit 1 = y.error.testBit 1 := by
    intro y
    rw [IntelligentHeater.tickOverheat_error]
    split_ifs
    · exact bit1_or4 _
    · rfl
  rw [(IntelligentHeater.tickOverheat_keep _).2.2.2.1, (IntelligentHeater.tickOverheat_keep _).2.2.1,
    (IntelligentHeater.tickOverheat_keep _).2.2.2.2.1, (IntelligentHeater.tickOverheat_keep _).2.2.2.2.2,
    hbit, (IntelligentHeater.tickRunaway_keep _ _).2.2.2.1,
    (IntelligentHeater.tickRunaway_keep _ _).2.2.1, (IntelligentHeater.tickRunaway_keep _ _).2.2.2.2]
  refine ⟨hfirst, ?_, ?_⟩
  · intro hhot
    have hnf : ¬ z._first = true := by
      intro hf
      have ht : zp.trend = 0 := by
        rw [htrend, f5, if_pos hf, hinv hf]
        ring
      rw [ht] at hhot
      norm_num at hhot
    obtain ⟨c1, c2⟩ := (IntelligentHeater.tickRunaway_cases zp i.ms).1 hhot
    rw [c1, c2, href, if_neg hnf]
    refine ⟨rfl, ?_⟩
    split_ifs with hc
    · rw [bit1_or2]
      simp [hc]
    · rw [herr, bit1_and254]
      simp [hc]
  · intro hcold
    obtain ⟨c1, c2⟩ := (IntelligentHeater.tickRunaway_cases zp i.ms).2 hcold
    rw [c1, c2, herr, bit1_and254]
    exact ⟨rfl, rfl⟩

/-- A run of hot ticks keeps the reference and latches the bit once 30 s are exceeded. -/
theorem hotRun_latch (run : List TickIn) :
    ∀ (z : IntelligentHeater) (w : ℚ), (z._first = true → z.trend = 0) → HotRun (z, w) run →
      (tickRun (z, w) run).1._runawayMs = z._runawayMs ∧
      (tickRun (z, w) run).1.error.testBit 1 =
        (z.error.testBit 1 ||
          run.any (fun i => decide (sub32 i.ms z._runawayMs > 30000))) := by
  induction run with
  | nil =>
    intro z w _ _
    simp [tickRun]
  | cons i rest ih =>
    intro z w hinv hrun
    obtain ⟨hacc, hpwm, htr, hrest⟩ := hrun
    obtain ⟨s1, s2, _⟩ := tick_runaway_step z w i hinv hacc
    obtain ⟨r1, r2⟩ := s2 ⟨hpwm, htr⟩
    have hinv2 : (tickWith (z, w) i).1._first = true → (tickWith (z, w) i).1.trend = 0 := by
      intro h
      rw [s1] at h
      exact absurd h Bool.false_ne_true
    obtain ⟨q1, q2⟩ := ih (tickWith (z, w) i).1 (tickWith (z, w) i).2 hinv2 hrest
    simp only [tickRun, List.any_cons]
    refine ⟨q1.trans r1, ?_⟩
    rw [q2, r2, r1, Bool.or_assoc]

/-- C20. Runaway detector.  For a zone as `tick` can meet it (first-sample flag set only
with trend 0) and accepted readings: if after the tick `pwm = 0` and `trend > 1.5`, the
runaway reference is unchanged and the runaway bit (bit 1) is set exactly when it was set
before or `now - reference > 30000`; otherwise the reference becomes `now` and the bit is
as before.  Hence over a run of consecutive accepted ticks with `pwm = 0` and
`trend > 1.5` the reference stays put and the bit is set as soon as one tick of the run
comes more than 30 s after the reference. -/
theorem runaway_detector (z : IntelligentHeater) (hinv : z._first = true → z.trend = 0) :
    (∀ (w : ℚ) (i : TickIn), i.accepted →
      ((tickWith (z, w) i).1.pwm = 0 ∧ (tickWith (z, w) i).1.trend > 3/2 →
        (tickWith (z, w) i).1._runawayMs = z._runawayMs ∧
        (tickWith (z, w) i).1.error.testBit 1 =
          (z.error.testBit 1 || decide (sub32 i.ms z._runawayMs > 30000))) ∧
      (¬ ((tickWith (z, w) i).1.pwm = 0 ∧ (tickWith (z, w) i).1.trend > 3/2) →
        (tickWith (z, w) i).1._runawayMs = i.ms ∧
        (tickWith (z, w) i).1.error.testBit 1 = z.error.testBit 1)) ∧
    (∀ (w : ℚ) (run : List TickIn), HotRun (z, w) run →
      (tickRun (z, w) run).1._runawayMs = z._runawayMs ∧
      (tickRun (z, w) run).1.error.testBit 1 =
        (z.error.testBit 1 ||
          run.any (fun i => decide (sub32 i.ms z._runawayMs > 30000)))) :=
  ⟨fun w i hacc => (tick_runaway_step z w i hinv hacc).2,
   fun w run h => hotRun_latch run z w hinv h⟩

/-- C20, sample: `hotZone` ticked 31 s after its reference trips the runaway bit and keeps
the reference. -/
theorem runaway_detector_witness :
    (tickWith (hotZone, 100) hotTick).1._runawayMs = hotZone._runawayMs ∧
    (tickWith (hotZone, 100) hotTick).1.error.testBit 1 =
      (hotZone.error.testBit 1 || decide (sub32 hotTick.ms hotZone._runawayMs > 30000)) :=
  ((runaway_detector hotZone (fun h => absurd h (by decide))).1 100 hotTick
    (by norm_num [TickIn.accepted, hotTick])).1 ⟨by decide!, by decide!⟩

/-! ## A bake reached from boot -/

theorem soak_first : loop bootState (soakEnv 1000) = soakState 1 := by decide!

theorem soak_step :
    ∀ n, n < 379 → loop (soakState (n + 1)) (soakEnv (1000 * (n + 2))) = soakState (n + 2) := by
  decide!

theorem soakState_reachable (n : Nat) (h : n < 380) : Reachable (soakState (n + 1)) := by
  induction n with
  | zero =>
    rw [← soak_first]
    exact Reachable.step _ _ (Reachable.boot _ _ _ _ _)
  | succ k ih =>
    rw [← soak_step k (by omega)]
    exact Reachable.step _ _ (ih (by omega))

theorem bakeStarted_reachable : Reachable bakeStarted :=
  Reachable.step _ _ (Reachable.step _ _ (Reachable.step _ _ (Reachable.step _ _
    (Reachable.step _ _ (Reachable.step _ _ (Reachable.step _ _ (Reachable.step _ _
      (soakState_reachable 379 (by omega)))))))))

/-- C16, evaluated.  From boot, 384 s on target bring the oven to Ready; the lower plate
then swings so that the bake starts (`bakeStarted` is in Baking with `baking` set); a
probe fault one second later puts the oven in Error while `baking` stays set. -/
theorem baking_set_in_error :
    Reachable bakeFaulted ∧
    soaked.oven = OvenState.READY ∧
    (bakeStarted.oven = OvenState.BAKING ∧ bakeStarted.baking = true) ∧
    (bakeFaulted.oven = OvenState.ERROR ∧ bakeFaulted.baking = true) :=
  ⟨Reachable.step _ _ bakeStarted_reachable, by decide!, by decide!, by decide!⟩

/-! ## The cool-down debounce -/

theorem hreachable_foldl (envs : List Env) :
    ∀ p : Sys × CoolHist, HReachable p → HReachable (envs.foldl loopH p) := by
  induction envs with
  | nil => intro p h; exact h
  | cons e rest ih => intro p h; exact ih _ (HReachable.step p e h)

theorem cold_first : coldStart = (coldState 19, coldHist) := by decide!

theorem cold_step_0 :
    ∀ k, k < 179 →
      loopH (coldState (5 * k + 19), coldHist) (quietEnv (1000 * (5 * k + 24)))
        = (coldState (5 * k + 24), coldHist) := by
  decide!

theorem cold_step_1 :
    ∀ k, k < 178 →
      loopH (coldState (5 * (k + 179) + 19), coldHist) (quietEnv (1000 * (5 * (k + 179) + 24)))
        = (coldState (5 * (k + 179) + 24), coldHist) := by
  decide!

theorem cold_step (k : Nat) (h : k < 357) :
    loopH (coldState (5 * k + 19), coldHist) (quietEnv (1000 * (5 * k + 24)))
      = (coldState (5 * k + 24), coldHist) := by
  by_cases hk : k < 179
  · exact cold_step_0 k hk
  · obtain ⟨j, rfl⟩ : ∃ j, k = j + 179 := ⟨k - 179, by omega⟩
    exact cold_step_1 j (by omega)

theorem coldState_reachable (k : Nat) (h : k ≤ 357) :
    HReachable (coldState (5 * k + 19), coldHist) := by
  induction k with
  | zero =>
    rw [← cold_first]
    exact hreachable_foldl _ _ (HReachable.boot _ _ _ _ _)
  | succ j ih =>
    have e : 5 * (j + 1) + 19 = 5 * j + 24 := by ring
    rw [e, ← cold_step j (by omega)]
    exact HReachable.step _ _ (ih (by omega))

theorem coolTrace_reachable : HReachable coolTrace :=
  hreachable_foldl _ _ (coldState_reachable 357 (by omega))

/-- C17, the claim fails as worded.  `coolTrace` is reached from boot by passes of `loop`
at most five seconds apart; its next control tick, at 1813 s, moves the oven from Cooling
to Shutdown
with the cool-stable timestamp still the 1000 of the first tick, although the Tuning tick
of 2000 ms, later than that, saw the upper plate at 350 °C. -/
theorem cool_history_fails :
    HReachable coolTrace ∧
    (handleInput coolTrace.1 (quietEnv 1813000)).oven = OvenState.COOLING ∧
    (runControlTick (handleInput coolTrace.1 (quietEnv 1813000)) (quietEnv 1813000)).oven
      = OvenState.SHUTDOWN ∧
    coolTrace.1.coolStableStart = 1000 ∧
    coolTrace.2.hotSeen = true ∧
    (([quietEnv 1000, rotateEnv 1100, pressEnv 1200, quietEnv 1300].foldl loopH
        (bootHeld, ⟨false, false, 0⟩)).1.oven = OvenState.TUNING ∧
      ([quietEnv 1000, rotateEnv 1100, pressEnv 1200, quietEnv 1300, warmEnv 2000].foldl loopH
        (bootHeld, ⟨false, false, 0⟩)).1.up.plateC = 350 ∧
      ([quietEnv 1000, rotateEnv 1100, pressEnv 1200, quietEnv 1300, warmEnv 2000].foldl loopH
        (bootHeld, ⟨false, false, 0⟩)).1.coolStableStart = 1000) :=
  ⟨coolTrace_reachable, by decide!, by decide!, by decide!, by decide!, by decide!⟩

theorem calm_refl (s : Sys) : Calm s s := ⟨rfl, rfl, fun h => h⟩

theorem calm_trans {s t u : Sys} (h1 : Calm s t) (h2 : Calm t u) : Calm s u :=
  ⟨h2.1.trans h1.1, h2.2.1.trans h1.2.1, fun h => h1.2.2 (h2.2.2 h)⟩

theorem keep_refl (s : Sys) : Keep s s := ⟨calm_refl s, fun h => h⟩

theorem keep_trans {s t u : Sys} (h1 : Keep s t) (h2 : Keep t u) : Keep s u :=
  ⟨calm_trans h1.1 h2.1, fun h => h2.2 (h1.2 h)⟩

theorem handleRotate_keep (s : Sys) (e : Env) : Keep s (handleRotate s e) := by
  unfold handleRotate
  simp only [dirtySave_true]
  split_ifs <;> exact ⟨⟨rfl, rfl, fun h => h⟩, fun h => h⟩

theorem confirmAction_calm (s : Sys) (e : Env) : Calm s (confirmAction s e) := by
  unfold confirmAction
  simp only [dirtySave_true]
  split_ifs
  · exact ⟨rfl, rfl, fun h => by simp at h⟩
  · exact ⟨rfl, rfl, fun h => by simp at h⟩
  · exact ⟨rfl, rfl, fun h => by simp at h⟩
  · exact calm_refl s

theorem shortPress_calm (s : Sys) (e : Env) : Calm s (shortPress s e) := by
  have hc : Calm s (confirmAction { s with lastActMs := e.now } e) :=
    confirmAction_calm { s with lastActMs := e.now } e
  unfold shortPress
  simp only [dirtySave_true]
  split_ifs
  · exact hc
  · exact ⟨rfl, rfl, fun h => h⟩
  · exact ⟨rfl, rfl, fun h => h⟩
  · exact ⟨rfl, rfl, fun h => h⟩

theorem longPress_calm (s : Sys) (e : Env) : Calm s (longPress s e) := by
  unfold longPress
  simp only
  split_ifs
  · exact ⟨rfl, rfl, fun h => h⟩
  · exact ⟨rfl, rfl, fun h => by simp at h⟩
  · exact ⟨rfl, rfl, fun h => h⟩
  · exact ⟨rfl, rfl, fun h => h⟩

theorem handlePress_calm (s : Sys) (e : Env) : Calm s (handlePress s e) := by
  have hs := shortPress_calm s e
  have hl := longPress_calm s e
  unfold handlePress
  simp only
  split_ifs
  · exact ⟨rfl, rfl, fun h => h⟩
  · exact hs
  · exact ⟨rfl, rfl, fun h => h⟩
  · exact hl
  · exact ⟨rfl, rfl, fun h => h⟩
  · exact ⟨rfl, rfl, fun h => h⟩

theorem handleInput_calm (s : Sys) (e : Env) : Calm s (handleInput s e) :=
  calm_trans (handleRotate_keep s e).1 (handlePress_calm _ e)

theorem tickUp_keep (s : Sys) (e : Env) (t : ℚ) : Keep s (tickUp s e t).1 :=
  ⟨⟨rfl, rfl, fun h => h⟩, fun h => h⟩

theorem tickLo_keep (s : Sys) (e : Env) (t : ℚ) : Keep s (tickLo s e t).1 :=
  ⟨⟨rfl, rfl, fun h => h⟩, fun h => h⟩

theorem idleToPreheat_keep (s : Sys) (e : Env) : Keep s (idleToPreheat s e) := by
  unfold idleToPreheat
  split_ifs with h
  · refine ⟨⟨rfl, rfl, fun hc => by simp at hc⟩, fun hc => ?_⟩
    rw [h.1] at hc
    exact absurd hc (by decide)
  · exact keep_refl s

theorem heatTicks_keep (s : Sys) (e : Env) : Keep s (heatTicks s e) := by
  unfold heatTicks
  simp only
  generalize (if isHeating s = true then s.currentRecipe.upC else 0) = tu
  generalize (if isHeating s = true then s.currentRecipe.loC else 0) = tl
  have h12 := keep_trans (tickUp_keep s e tu) (tickLo_keep (tickUp s e tu).1 e tl)
  split_ifs
  · refine keep_trans h12 ?_
    rw [dirtySave_true]
    exact ⟨⟨rfl, rfl, fun h => h⟩, fun h => h⟩
  · exact h12
  · exact h12

theorem bakeJudge_keep (s : Sys) (e : Env) : Keep s (bakeJudge s e) := by
  unfold bakeJudge startBake
  simp only
  split_ifs with h1 h2 h3 h3 <;>
    first
    | exact keep_refl s
    | (refine ⟨⟨rfl, rfl, fun hc => ?_⟩, fun hc => ?_⟩
       · simp at hc
       · rcases h1.2 with h | h <;> rw [h] at hc <;> exact absurd hc (by decide))

theorem driveOutputs_keep (s : Sys) (e : Env) : Keep s (driveOutputs s e) := by
  unfold driveOutputs
  simp only
  split_ifs <;> exact ⟨⟨rfl, rfl, fun h => h⟩, fun h => h⟩

theorem dirtySave_keep (s : Sys) (set : Bool) (ms : Nat) : Keep s (dirtySave s set ms) := by
  unfold dirtySave
  simp only
  split_ifs <;> exact ⟨⟨rfl, rfl, fun h => h⟩, fun h => h⟩

theorem calculatePower_keep (s : Sys) (now : Nat) (stray : Int) :
    Keep s (calculatePower s now stray) := by
  unfold calculatePower
  simp only
  split_ifs <;> exact ⟨⟨rfl, rfl, fun h => h⟩, fun h => h⟩

theorem bakeDone_cool (s : Sys) (e : Env) :
    (bakeDone s e).coolStableStart = s.coolStableStart ∧
    ((bakeDone s e).oven = OvenState.COOLING →
      s.oven = OvenState.COOLING ∧ (bakeDone s e).bakeDoneMsgMs = s.bakeDoneMsgMs) ∧
    (s.oven = OvenState.COOLING →
      (bakeDone s e).oven = OvenState.COOLING ∨ (bakeDone s e).oven = OvenState.BAKE_DONE ∨
        (bakeDone s e).oven = OvenState.PREHEAT) := by
  unfold bakeDone
  simp only
  split_ifs <;> simp_all

theorem emergencyOrPower_cool (s : Sys) (e : Env) :
    (emergencyOrPower s e).coolStableStart = s.coolStableStart ∧
    (emergencyOrPower s e).bakeDoneMsgMs = s.bakeDoneMsgMs ∧
    ((emergencyOrPower s e).oven = OvenState.ERROR ∨
      (emergencyOrPower s e).oven = s.oven) := by
  unfold emergencyOrPower
  split_ifs
  · rw [dirtySave_true]
    exact ⟨rfl, rfl, Or.inl rfl⟩
  · have hk := calculatePower_keep s e.now e.strayLimW
    refine ⟨hk.1.1, hk.1.2.1, Or.inr ?_⟩
    unfold calculatePower
    simp only
    split_ifs <;> rfl

/-- The cooling block, case by case.  `c1` is the cool-stable timestamp once updated. -/
theorem coolManage_cases (t : Sys) (e : Env) (c1 : Nat)
    (hc1 : c1 = (if ¬ (t.up.plateC < 100 ∧ t.lo.plateC < 100) then 0
      else if t.coolStableStart = 0 then e.now else t.coolStableStart)) :
    ((coolManage t e).coolStableStart = c1 ∨ (coolManage t e).coolStableStart = 0) ∧
    ((coolManage t e).oven = OvenState.COOLING →
      (t.oven = OvenState.REST ∧ (coolManage t e).bakeDoneMsgMs = e.now) ∨
      (t.oven = OvenState.COOLING ∧
        (((c1 ≠ 0 ∧ sub32 e.now c1 > 2000) ∧ (coolManage t e).bakeDoneMsgMs = t.bakeDoneMsgMs) ∨
         (¬ (c1 ≠ 0 ∧ sub32 e.now c1 > 2000) ∧ (coolManage t e).bakeDoneMsgMs = e.now)))) ∧
    ((coolManage t e).oven = OvenState.SHUTDOWN →
      t.oven = OvenState.SHUTDOWN ∨
      (t.oven = OvenState.COOLING ∧ (c1 ≠ 0 ∧ sub32 e.now c1 > 2000) ∧
        sub32 e.now t.bakeDoneMsgMs > 3000)) := by
  subst hc1
  unfold coolManage cooledConfirmed Config.Hard.COOL_COMPLETE_C
  simp only [dirtySave_true]
  by_cases hcool : t.up.plateC < 100 ∧ t.lo.plateC < 100
  · by_cases hz : t.coolStableStart = 0
    · simp only [hcool, hz, not_true_eq_false, if_false, if_true]
      split_ifs <;> simp_all
    · simp only [hcool, hz, not_true_eq_false, if_false]
      split_ifs <;> simp_all
  · simp only [hcool, not_false_eq_true, if_true]
    split_ifs <;> simp_all

theorem tuning_path_cool (s : Sys) (e : Env) (h : s.oven = OvenState.TUNING) :
    (tuneSafety (tuneTicks (tuneAdvance s e) e) e).coolStableStart = s.coolStableStart ∧
    (tuneSafety (tuneTicks (tuneAdvance s e) e) e).bakeDoneMsgMs = s.bakeDoneMsgMs ∧
    (tuneSafety (tuneTicks (tuneAdvance s e) e) e).oven ≠ OvenState.COOLING := by
  have h1 : (tuneAdvance s e).coolStableStart = s.coolStableStart ∧
      (tuneAdvance s e).bakeDoneMsgMs = s.bakeDoneMsgMs ∧
      (tuneAdvance s e).oven ≠ OvenState.COOLING := by
    unfold tuneAdvance
    simp only [dirtySave_true]
    split_ifs <;> simp [h]
  have h2 : ∀ t : Sys, (tuneTicks t e).coolStableStart = t.coolStableStart ∧
      (tuneTicks t e).bakeDoneMsgMs = t.bakeDoneMsgMs ∧ (tuneTicks t e).oven = t.oven := by
    intro t
    unfold tuneTicks tickUp tickLo
    simp only
    split_ifs <;> simp
  have h3 : ∀ t : Sys, (tuneSafety t e).coolStableStart = t.coolStableStart ∧
      (tuneSafety t e).bakeDoneMsgMs = t.bakeDoneMsgMs ∧
      ((tuneSafety t e).oven = OvenState.ERROR ∨ (tuneSafety t e).oven = t.oven) := by
    intro t
    unfold tuneSafety
    simp only [dirtySave_true]
    split_ifs <;> simp
  refine ⟨?_, ?_, ?_⟩
  · rw [(h3 _).1, (h2 _).1, h1.1]
  · rw [(h3 _).2.1, (h2 _).2.1, h1.2.1]
  · rcases (h3 (tuneTicks (tuneAdvance s e) e)).2.2 with h4 | h4
    · rw [h4]; decide
    · rw [h4, (h2 _).2.2]; exact h1.2.2

theorem beforeCool_facts (s : Sys) (e : Env) :
    (beforeCool s e).coolStableStart = s.coolStableStart ∧
    ((beforeCool s e).oven = OvenState.COOLING →
      s.oven = OvenState.COOLING ∧ (beforeCool s e).bakeDoneMsgMs = s.bakeDoneMsgMs) ∧
    (s.oven = OvenState.COOLING →
      (beforeCool s e).oven = OvenState.COOLING ∨ (beforeCool s e).oven = OvenState.BAKE_DONE ∨
        (beforeCool s e).oven = OvenState.PREHEAT) := by
  have hk : Keep { s with lastCtrlMs := e.now }
      (bakeJudge (heatTicks (idleToPreheat { s with lastCtrlMs := e.now } e) e) e) :=
    keep_trans (idleToPreheat_keep _ e) (keep_trans (heatTicks_keep _ e) (bakeJudge_keep _ e))
  obtain ⟨⟨k1, k2, k3⟩, k4⟩ := hk
  obtain ⟨b1, b2, b3⟩ :=
    bakeDone_cool (bakeJudge (heatTicks (idleToPreheat { s with lastCtrlMs := e.now } e) e) e) e
  unfold beforeCool
  refine ⟨b1.trans k1, fun h => ?_, fun h => b3 (k4 h)⟩
  obtain ⟨c1, c2⟩ := b2 h
  exact ⟨k3 c1, c2.trans k2⟩

theorem runControlTick_closed (s : Sys) (e : Env) (hg : ¬ sub32 e.now s.lastCtrlMs ≥ 1000) :
    runControlTick s e = s := by
  unfold runControlTick
  rw [if_neg hg]

theorem runControlTick_tuning (s : Sys) (e : Env) (hg : sub32 e.now s.lastCtrlMs ≥ 1000)
    (ht : s.oven = OvenState.TUNING) :
    runControlTick s e =
      tuneSafety (tuneTicks (tuneAdvance { s with lastCtrlMs := e.now } e) e) e := by
  unfold runControlTick
  rw [if_pos hg]
  simp only [ht, if_true]

theorem runControlTick_normal (s : Sys) (e : Env) (hg : sub32 e.now s.lastCtrlMs ≥ 1000)
    (ht : s.oven ≠ OvenState.TUNING) :
    runControlTick s e = emergencyOrPower (coolManage (beforeCool s e) e) e := by
  unfold runControlTick beforeCool
  rw [if_pos hg]
  simp only [ht, if_false]

theorem platesCool_normal (s : Sys) (e : Env) (ht : s.oven ≠ OvenState.TUNING) :
    (platesCool s e = true ↔
      ((beforeCool s e).up.plateC < 100 ∧ (beforeCool s e).lo.plateC < 100)) := by
  unfold platesCool platesAtTick
  rw [if_neg ht]
  simp only [decide_eq_true_eq]

theorem coolStamp_normal (s : Sys) (e : Env) (ht : s.oven ≠ OvenState.TUNING) :
    coolStamp s e =
      (if ¬ ((beforeCool s e).up.plateC < 100 ∧ (beforeCool s e).lo.plateC < 100) then 0
        else if (beforeCool s e).coolStableStart = 0 then e.now
        else (beforeCool s e).coolStableStart) := by
  have hp := platesCool_normal s e ht
  rw [(beforeCool_facts s e).1]
  unfold coolStamp
  by_cases hc : (beforeCool s e).up.plateC < 100 ∧ (beforeCool s e).lo.plateC < 100
  · rw [hp.mpr hc]
    simp [hc]
  · have hf : platesCool s e = false := by
      cases hv : platesCool s e with
      | false => rfl
      | true => exact absurd (hp.mp hv) hc
    rw [hf]
    simp [hc]

theorem histTick_closed (h : CoolHist) (s : Sys) (e : Env)
    (hg : ¬ sub32 e.now s.lastCtrlMs ≥ 1000) : histTick h s e = h := by
  unfold histTick
  rw [if_neg hg]

theorem histTick_hotNormal (h : CoolHist) (s : Sys) (e : Env)
    (hg : sub32 e.now s.lastCtrlMs ≥ 1000) :
    (s.oven = OvenState.TUNING → (histTick h s e).hotSeenNormal = h.hotSeenNormal) ∧
    (s.oven ≠ OvenState.TUNING → platesCool s e = true →
      (histTick h s e).hotSeenNormal =
        (if s.coolStableStart = 0 then false else h.hotSeenNormal)) := by
  unfold histTick
  rw [if_pos hg]
  constructor
  · intro ht
    simp [ht]
  · intro ht hc
    simp only [hc, ht]
    split_ifs <;> simp_all

theorem histTick_mark (h : CoolHist) (s : Sys) (e : Env)
    (hg : sub32 e.now s.lastCtrlMs ≥ 1000) :
    (histTick h s e).coolMark =
      (if s.oven ≠ OvenState.COOLING ∧ (runControlTick s e).oven = OvenState.COOLING then e.now
        else if s.oven = OvenState.COOLING ∧ (runControlTick s e).oven = OvenState.COOLING ∧
            confirmedAtTick s e = false then e.now
        else h.coolMark) := by
  unfold histTick
  rw [if_pos hg]

theorem histInv_tick (s : Sys) (h : CoolHist) (e : Env) (hi : HistInv s h) :
    HistInv (runControlTick s e) (histTick h s e) := by
  by_cases hg : sub32 e.now s.lastCtrlMs ≥ 1000
  swap
  · rw [runControlTick_closed s e hg, histTick_closed h s e hg]
    exact hi
  by_cases ht : s.oven = OvenState.TUNING
  · have hp := tuning_path_cool { s with lastCtrlMs := e.now } e ht
    rw [runControlTick_tuning s e hg ht]
    refine ⟨fun hc => ?_, fun hc => absurd hc hp.2.2⟩
    rw [(histTick_hotNormal h s e hg).1 ht]
    rw [hp.1] at hc
    exact hi.1 hc
  · obtain ⟨b1, b2, b3⟩ := beforeCool_facts s e
    obtain ⟨m1, m2, _⟩ := coolManage_cases (beforeCool s e) e (coolStamp s e)
      (coolStamp_normal s e ht)
    obtain ⟨p1, p2, p3⟩ := emergencyOrPower_cool (coolManage (beforeCool s e) e) e
    have hrun := runControlTick_normal s e hg ht
    constructor
    · intro hc
      rw [hrun, p1] at hc
      have hstamp : coolStamp s e ≠ 0 := by
        rcases m1 with m | m
        · rw [m] at hc; exact hc
        · exact absurd m hc
      have hcool : platesCool s e = true := by
        cases hv : platesCool s e with
        | true => rfl
        | false =>
          exfalso
          apply hstamp
          unfold coolStamp
          rw [hv]
          simp
      rw [(histTick_hotNormal h s e hg).2 ht hcool]
      split_ifs with hz
      · rfl
      · exact hi.1 hz
    · intro hc
      have hcm : (coolManage (beforeCool s e) e).oven = OvenState.COOLING := by
        rw [hrun] at hc
        rcases p3 with p | p
        · rw [p] at hc; exact absurd hc (by decide)
        · rw [← p]; exact hc
      rw [histTick_mark h s e hg]
      have hbdm : (runControlTick s e).bakeDoneMsgMs
          = (coolManage (beforeCool s e) e).bakeDoneMsgMs := by
        rw [hrun, p2]
      rw [hbdm]
      rcases m2 hcm with ⟨r1, r2⟩ | ⟨r1, r2⟩
      · have hne : s.oven ≠ OvenState.COOLING := by
          intro hs
          rcases b3 hs with q | q | q <;> rw [q] at r1 <;> exact absurd r1 (by decide)
        rw [if_pos ⟨hne, hc⟩]
        exact r2
      · obtain ⟨hs, hb⟩ := b2 r1
        have hn1 : ¬ (s.oven ≠ OvenState.COOLING ∧
            (runControlTick s e).oven = OvenState.COOLING) := fun hx => hx.1 hs
        rw [if_neg hn1]
        rcases r2 with ⟨c, d⟩ | ⟨c, d⟩
        · have hconf : confirmedAtTick s e = true := by
            unfold confirmedAtTick
            exact decide_eq_true c
          have hn2 : ¬ (s.oven = OvenState.COOLING ∧
              (runControlTick s e).oven = OvenState.COOLING ∧
              confirmedAtTick s e = false) := by
            intro hx
            rw [hconf] at hx
            exact absurd hx.2.2 (by decide)
          rw [if_neg hn2, d, hb]
          exact hi.2 hs
        · have hconf : confirmedAtTick s e = false := by
            unfold confirmedAtTick
            exact decide_eq_false c
          rw [if_pos ⟨hs, hc, hconf⟩]
          exact d

theorem histInv_calm (s t : Sys) (h : CoolHist) (hc : Calm s t) (hi : HistInv s h) :
    HistInv t h := by
  obtain ⟨c1, c2, c3⟩ := hc
  refine ⟨fun hz => hi.1 (by rw [← c1]; exact hz), fun ho => ?_⟩
  rw [c2]
  exact hi.2 (c3 ho)

theorem histInv_loop (p : Sys × CoolHist) (e : Env) (hi : HistInv p.1 p.2) :
    HistInv (loopH p e).1 (loopH p e).2 := by
  unfold loopH loop
  simp only
  have h1 := histInv_calm _ _ p.2 (handleInput_calm p.1 e) hi
  have h2 := histInv_tick _ _ e h1
  have h3 := histInv_calm _ _ _ (driveOutputs_keep (runControlTick (handleInput p.1 e) e) e).1 h2
  exact histInv_calm _ _ _ (dirtySave_keep _ false e.msSave).1 h3

theorem hreachable_inv (p : Sys × CoolHist) (hr : HReachable p) : HistInv p.1 p.2 := by
  induction hr with
  | boot stored swHeld msCtor ms stray =>
    refine ⟨fun hz => rfl, fun ho => ?_⟩
    exact absurd ho (by unfold setup; simp)
  | step p e _ ih => exact histInv_loop p e ih

theorem sub32_self (a : Nat) : sub32 a a = 0 := by
  unfold sub32 U32
  omega

/-- C17, amended.  Cool-stable debounce before shutdown: for every state reached from boot
and every control tick that moves the oven from Cooling to Shutdown, both filtered plate
temperatures are below 100 at that tick; the cool-stable timestamp is set,
`now - coolStableStart > 2000`, and no control tick outside the Tuning state has seen a
plate at or above 100 since that timestamp was set; and `now - bakeDoneMsgMs > 3000`,
where `bakeDoneMsgMs` is the Cooling mark: the time of the later of the tick that entered
Cooling and the last tick in Cooling at which cool-confirmed was false. -/
theorem cooling_to_shutdown (p : Sys × CoolHist) (e : Env) (hr : HReachable p)
    (hc : (handleInput p.1 e).oven = OvenState.COOLING)
    (hs : (runControlTick (handleInput p.1 e) e).oven = OvenState.SHUTDOWN) :
    ((platesAtTick (handleInput p.1 e) e).1 < 100 ∧
      (platesAtTick (handleInput p.1 e) e).2 < 100) ∧
    (p.1.coolStableStart ≠ 0 ∧ sub32 e.now p.1.coolStableStart > 2000 ∧
      p.2.hotSeenNormal = false) ∧
    (sub32 e.now p.1.bakeDoneMsgMs > 3000 ∧ p.1.bakeDoneMsgMs = p.2.coolMark) := by
  obtain ⟨k1, k2, k3⟩ := handleInput_calm p.1 e
  have hi := hreachable_inv p hr
  set s1 := handleInput p.1 e with hs1
  have hg : sub32 e.now s1.lastCtrlMs ≥ 1000 := by
    by_contra hg
    rw [runControlTick_closed s1 e hg, hc] at hs
    exact absurd hs (by decide)
  have ht : s1.oven ≠ OvenState.TUNING := by
    rw [hc]; decide
  obtain ⟨b1, b2, b3⟩ := beforeCool_facts s1 e
  obtain ⟨_, _, m3⟩ := coolManage_cases (beforeCool s1 e) e (coolStamp s1 e)
    (coolStamp_normal s1 e ht)
  obtain ⟨_, _, p3⟩ := emergencyOrPower_cool (coolManage (beforeCool s1 e) e) e
  rw [runControlTick_normal s1 e hg ht] at hs
  have hcm : (coolManage (beforeCool s1 e) e).oven = OvenState.SHUTDOWN := by
    rcases p3 with q | q
    · rw [q] at hs; exact absurd hs (by decide)
    · rw [← q]; exact hs
  have hcase : (beforeCool s1 e).oven = OvenState.COOLING ∧
      (coolStamp s1 e ≠ 0 ∧ sub32 e.now (coolStamp s1 e) > 2000) ∧
      sub32 e.now (beforeCool s1 e).bakeDoneMsgMs > 3000 := by
    rcases m3 hcm with q | q
    · rcases b3 hc with r | r | r <;> rw [r] at q <;> exact absurd q (by decide)
    · exact q
  obtain ⟨c1, ⟨c2, c3⟩, c4⟩ := hcase
  have hcool : platesCool s1 e = true := by
    cases hv : platesCool s1 e with
    | true => rfl
    | false =>
      exfalso
      apply c2
      unfold coolStamp
      rw [hv]
      simp
  have hz : s1.coolStableStart ≠ 0 := by
    intro hz
    have : coolStamp s1 e = e.now := by
      unfold coolStamp
      rw [hcool]
      simp [hz]
    rw [this, sub32_self] at c3
    omega
  have hstamp : coolStamp s1 e = s1.coolStableStart := by
    unfold coolStamp
    rw [hcool]
    simp [hz]
  have hplates : (platesAtTick s1 e).1 < 100 ∧ (platesAtTick s1 e).2 < 100 := by
    unfold platesCool at hcool
    exact of_decide_eq_true hcool
  rw [hstamp, k1] at c3
  rw [k1] at hz
  rw [(b2 c1).2, k2] at c4
  exact ⟨hplates, ⟨hz, c3, hi.1 hz⟩, ⟨c4, hi.2 (k3 hc)⟩⟩

/-- C17 amended, sample: the control tick of 1813 s after `coolTrace`. -/
theorem cooling_to_shutdown_witness :
    ((platesAtTick (handleInput coolTrace.1 (quietEnv 1813000)) (quietEnv 1813000)).1 < 100 ∧
      (platesAtTick (handleInput coolTrace.1 (quietEnv 1813000)) (quietEnv 1813000)).2
        < 100) ∧
    (coolTrace.1.coolStableStart ≠ 0 ∧
      sub32 (quietEnv 1813000).now coolTrace.1.coolStableStart > 2000 ∧
      coolTrace.2.hotSeenNormal = false) ∧
    (sub32 (quietEnv 1813000).now coolTrace.1.bakeDoneMsgMs > 3000 ∧
      coolTrace.1.bakeDoneMsgMs = coolTrace.2.coolMark) :=
  cooling_to_shutdown coolTrace (quietEnv 1813000) coolTrace_reachable
    (by decide!) (by decide!)

/-! ## What the allocator gives against what was asked -/

/-- The lower duty of either branch is a function of the lower request and the limit. -/
theorem allocate_lo_indep (u1 u2 loOut limW : Int) (b1 b2 : Bool) :
    (allocate u1 loOut limW b1).2 = (allocate u2 loOut limW b2).2 := by
  unfold allocate
  cases b1 <;> cases b2 <;> simp [allocBoost_eq_allocNormal, allocNormal]

/-- Either branch gives each zone at most its request, and nothing for a request of 0. -/
theorem allocate_le_request (upOut loOut limW : Int) (boost : Bool)
    (hu : 0 ≤ upOut ∧ upOut ≤ 255) (hl : 0 ≤ loOut ∧ loOut ≤ 255) (hw : 0 ≤ limW) :
    ((allocate upOut loOut limW boost).1 : Int) ≤ upOut ∧
    ((allocate upOut loOut limW boost).2 : Int) ≤ loOut := by
  have h := allocNormal_eq_spec upOut loOut limW hu hl hw
  have hb : allocate upOut loOut limW boost = allocNormal upOut loOut limW := by
    unfold allocate
    cases boost <;> simp [allocBoost_eq_allocNormal]
  rw [hb, h.1, h.2]
  unfold specAllocate
  simp only
  constructor <;> omega

/-- C25. The allocator never gives a zone more than it asked for: in every state, with both
converted PID outputs (`up_raw`, `lo_raw`) in `0..255` and a non-negative limit, in either
mode (and in Tuning, where the targets are the requests themselves), `calculatePower`
leaves `up_duty ≤ up_raw` and `lo_duty ≤ lo_raw`; a request of 0 gets a duty of 0; and the
lower duty does not depend on the upper request: it is the same whatever the raw output of
the upper zone, and in both branches it is computed from `lo_raw` and `limit_w` alone. -/
theorem calculatePower_le_request (s : Sys) (now : Nat) (stray : Int)
    (hu : 0 ≤ ftrunc s.up.pidOut ∧ ftrunc s.up.pidOut ≤ 255)
    (hl : 0 ≤ ftrunc s.lo.pidOut ∧ ftrunc s.lo.pidOut ≤ 255)
    (hw : 0 ≤ limitW stray s.settings.limitIdx) :
    ((calculatePower s now stray).targetUpPWM : Int) ≤ ftrunc s.up.pidOut ∧
    ((calculatePower s now stray).targetLoPWM : Int) ≤ ftrunc s.lo.pidOut ∧
    (ftrunc s.up.pidOut = 0 → (calculatePower s now stray).targetUpPWM = 0) ∧
    (ftrunc s.lo.pidOut = 0 → (calculatePower s now stray).targetLoPWM = 0) ∧
    (∀ x : ℚ,
      (calculatePower { s with up := { s.up with _out := x } } now stray).targetLoPWM =
        (calculatePower s now stray).targetLoPWM) ∧
    (∀ (u1 u2 : Int) (b1 b2 : Bool),
      (allocate u1 (ftrunc s.lo.pidOut) (limitW stray s.settings.limitIdx) b1).2 =
        (allocate u2 (ftrunc s.lo.pidOut) (limitW stray s.settings.limitIdx) b2).2) := by
  have hle : ((calculatePower s now stray).targetUpPWM : Int) ≤ ftrunc s.up.pidOut ∧
      ((calculatePower s now stray).targetLoPWM : Int) ≤ ftrunc s.lo.pidOut := by
    by_cases ht : s.oven = OvenState.TUNING
    · have e1 : (calculatePower s now stray).targetUpPWM = toU8 (ftrunc s.up.pidOut) := by
        unfold calculatePower
        rw [if_pos ht]
      have e2 : (calculatePower s now stray).targetLoPWM = toU8 (ftrunc s.lo.pidOut) := by
        unfold calculatePower
        rw [if_pos ht]
      rw [e1, e2, toU8_of_range _ hu.1 hu.2, toU8_of_range _ hl.1 hl.2]
      exact ⟨le_refl _, le_refl _⟩
    · rcases calculatePower_targets s now stray ht with ⟨h1, h2, _⟩ | ⟨boost, h1, h2, _⟩
      · rw [h1, h2]
        exact ⟨hu.1, hl.1⟩
      · rw [h1, h2]
        exact allocate_le_request _ _ _ boost hu hl hw
  refine ⟨hle.1, hle.2, ?_, ?_, ?_, ?_⟩
  · intro h0
    have := hle.1
    omega
  · intro h0
    have := hle.2
    omega
  · intro x
    unfold calculatePower
    by_cases ht : s.oven = OvenState.TUNING
    · simp only [ht, if_true]
    · simp only [ht, if_false, IntelligentHeater.pidOut]
      rw [allocate_lo_indep (ftrunc x) (ftrunc s.up._out)]
      split_ifs <;> rfl
  · intro u1 u2 b1 b2
    exact allocate_lo_indep _ _ _ _ _ _

/-- C25, sample: both outputs at 255 under the 1000 W limit; the upper zone gets 129 of
the 255 it asked for, the lower zone all 255. -/
theorem calculatePower_le_request_witness :
    (calculatePower contendState 0 0).targetUpPWM = 129 ∧
    (calculatePower contendState 0 0).targetLoPWM = 255 ∧
    ((calculatePower contendState 0 0).targetUpPWM : Int) ≤ 255 ∧
    ((calculatePower contendState 0 0).targetLoPWM : Int) ≤ 255 :=
  ⟨by decide!, by decide!,
   (calculatePower_le_request contendState 0 0 (by decide) (by decide) (by decide)).1,
   (calculatePower_le_request contendState 0 0 (by decide) (by decide) (by decide)).2.1⟩

/-! ## The output window -/

/-- C21, the claim fails: with the window opened at 0 ms and `drive` called at 2500 ms
(`now - winStart = 2500 ≥ 1000`) the window start becomes 2500, not 0 + 1000. -/
theorem drive_window_not_plus_1000 :
    sub32 2500 (IntelligentHeater.new 0)._winStart ≥ 1000 ∧
    ((IntelligentHeater.new 0).drive 0 2500)._winStart = 2500 ∧
    ((IntelligentHeater.new 0).drive 0 2500)._winStart ≠
      add32 (IntelligentHeater.new 0)._winStart 1000 := by
  decide

/-- C21, amended. Output-window advance in `drive`: for every zone state, duty and clock
value `now`, if `now - winStart ≥ 1000` the window start becomes `now`, otherwise it is
unchanged; in both cases `now - winStart < 1000` holds afterwards.  For 32-bit values the
new start is the old start plus 1000 ms exactly when `now - winStart = 1000`. -/
theorem drive_window (z : IntelligentHeater) (out ms : Nat) :
    (sub32 ms z._winStart ≥ 1000 → (z.drive out ms)._winStart = ms) ∧
    (sub32 ms z._winStart < 1000 → (z.drive out ms)._winStart = z._winStart) ∧
    sub32 ms (z.drive out ms)._winStart < 1000 ∧
    (ms < U32 → z._winStart < U32 → sub32 ms z._winStart ≥ 1000 →
      ((z.drive out ms)._winStart = add32 z._winStart 1000 ↔ sub32 ms z._winStart = 1000)) := by
  have hw : (z.drive out ms)._winStart =
      if sub32 ms z._winStart ≥ 1000 then ms else z._winStart := by
    unfold IntelligentHeater.drive
    simp only
    split_ifs <;> simp_all
  rw [hw]
  refine ⟨fun h => by rw [if_pos h], fun h => by rw [if_neg (by omega)], ?_, ?_⟩
  · split_ifs with h
    · unfold sub32 U32; omega
    · omega
  · intro h1 h2 h3
    rw [if_pos h3]
    unfold sub32 add32 U32 at *
    omega

/-! ## The table indices -/

/-- The index written by a rotate: `(idx + dir + 2) % 2` computed in `int` and stored
in a `uint8_t`, for `dir = ±1`. -/
theorem rotate_idx (i : Nat) (dir : Int) (hd : dir = 1 ∨ dir = -1) :
    (toU8 (Int.tmod ((i : Int) + dir + Config.RECIPE_CNT) Config.RECIPE_CNT) : Int)
      = ((i : Int) + dir + 2) % 2 ∧
    toU8 (Int.tmod ((i : Int) + dir + Config.RECIPE_CNT) Config.RECIPE_CNT) < 2 := by
  have e : Int.tmod ((i : Int) + dir + 2) 2 = ((i : Int) + dir + 2) % 2 :=
    Int.tmod_eq_emod (by omega) (by omega)
  simp only [Config.RECIPE_CNT, Nat.cast_ofNat]
  rw [e]
  unfold toU8
  constructor <;> omega

/-- The encoder half writes a recipe index below 2 or leaves it alone, and leaves the
limit index alone. -/
theorem handleRotate_idx (s : Sys) (e : Env) :
    ((handleRotate s e).settings.recipeIdx < 2 ∨
      (handleRotate s e).settings.recipeIdx = s.settings.recipeIdx) ∧
    (handleRotate s e).settings.limitIdx = s.settings.limitIdx := by
  unfold handleRotate
  simp only [dirtySave_true]
  split_ifs with h1 h2 h3 h4
  · exact ⟨Or.inr rfl, rfl⟩
  · exact ⟨Or.inl (rotate_idx _ _ (Or.inl rfl)).2, rfl⟩
  · exact ⟨Or.inl (rotate_idx _ _ (Or.inr rfl)).2, rfl⟩
  · exact ⟨Or.inr rfl, rfl⟩
  · exact ⟨Or.inr rfl, rfl⟩

/-- A confirmed prompt action leaves both indices alone or sets both to 0. -/
theorem confirmAction_idx (s : Sys) (e : Env) :
    ((confirmAction s e).settings.recipeIdx = s.settings.recipeIdx ∧
      (confirmAction s e).settings.limitIdx = s.settings.limitIdx) ∨
    ((confirmAction s e).settings.recipeIdx = 0 ∧ (confirmAction s e).settings.limitIdx = 0) := by
  unfold confirmAction
  simp only [dirtySave_true]
  split_ifs
  · exact Or.inl ⟨rfl, rfl⟩
  · exact Or.inl ⟨rfl, rfl⟩
  · exact Or.inr ⟨rfl, rfl⟩
  · exact Or.inl ⟨rfl, rfl⟩

/-- The push-switch half leaves the recipe index alone or sets it to 0, and writes a limit
index below 3 or leaves it alone. -/
theorem handlePress_idx (s : Sys) (e : Env) :
    ((handlePress s e).settings.recipeIdx = s.settings.recipeIdx ∨
      (handlePress s e).settings.recipeIdx = 0) ∧
    ((handlePress s e).settings.limitIdx = s.settings.limitIdx ∨
      (handlePress s e).settings.limitIdx < 3) := by
  have hc := confirmAction_idx { s with lastActMs := e.now } e
  have hm : ∀ n : Nat, toU8 (((n + 1) % Config.LIMIT_CNT : Nat)) < 3 := by
    intro n
    unfold toU8 Config.LIMIT_CNT
    omega
  unfold handlePress shortPress longPress
  simp only [dirtySave_true]
  split_ifs
  all_goals first
    | exact ⟨Or.inl rfl, Or.inl rfl⟩
    | exact ⟨Or.inl rfl, Or.inr (hm _)⟩
    | (rcases hc with ⟨a, b⟩ | ⟨a, b⟩
       · exact ⟨Or.inl a, Or.inl b⟩
       · exact ⟨Or.inr a, Or.inr (by rw [b]; decide)⟩)

/-- With no prompt open the push-switch half leaves the recipe index alone. -/
theorem handlePress_recipe (s : Sys) (e : Env) (hp : s.askConfirmation = AskConfirmation.NONE) :
    (handlePress s e).settings.recipeIdx = s.settings.recipeIdx := by
  unfold handlePress shortPress longPress
  simp only [dirtySave_true, hp]
  split_ifs <;> rfl

/-- What the encoder half leaves alone. -/
theorem handleRotate_frame (s : Sys) (e : Env) :
    (handleRotate s e).askConfirmation = s.askConfirmation ∧
    (handleRotate s e).oven = s.oven ∧
    (handleRotate s e).lastSw = s.lastSw ∧
    (handleRotate s e).pressStartMs = s.pressStartMs ∧
    (handleRotate s e).longPressHandled = s.longPressHandled ∧
    (handleRotate s e).settings.limitIdx = s.settings.limitIdx := by
  unfold handleRotate
  simp only [dirtySave_true]
  split_ifs <;> simp

/-- A short press with no prompt open, outside Error and Tuning, steps the limit index. -/
theorem handlePress_short (s : Sys) (e : Env) (hp : s.askConfirmation = AskConfirmation.NONE)
    (ho : s.oven ≠ OvenState.ERROR ∧ s.oven ≠ OvenState.TUNING)
    (hsw : e.encSw = true ∧ s.lastSw = false ∧ sub32 e.now s.pressStartMs > 50 ∧
      s.longPressHandled = false) :
    (handlePress s e).settings.limitIdx = (s.settings.limitIdx + 1) % 3 := by
  obtain ⟨h1, h2, h3, h4⟩ := hsw
  have hm : toU8 (((s.settings.limitIdx + 1) % Config.LIMIT_CNT : Nat)) =
      (s.settings.limitIdx + 1) % 3 := by
    unfold toU8 Config.LIMIT_CNT
    omega
  unfold handlePress shortPress
  have ho2 : ¬ s.oven = OvenState.ERROR ∧ ¬ s.oven = OvenState.TUNING := ho
  simp only [dirtySave_true, h1, h2, h3, h4, hp, hm]
  simp only [ne_eq, not_true_eq_false, if_false, Bool.true_eq_false, Bool.false_eq_true,
    false_and, and_self, if_true, gt_iff_lt]
  rw [if_pos ho2]

/-- With no prompt open and the oven in Error or Tuning the push-switch half leaves the
limit index alone. -/
theorem handlePress_closed (s : Sys) (e : Env) (hp : s.askConfirmation = AskConfirmation.NONE)
    (ho : s.oven = OvenState.ERROR ∨ s.oven = OvenState.TUNING) :
    (handlePress s e).settings.limitIdx = s.settings.limitIdx := by
  unfold handlePress shortPress longPress
  simp only [dirtySave_true, hp]
  rcases ho with h | h <;> simp only [h] <;> split_ifs <;> first | rfl | simp_all

/-- A rotate with no prompt open, outside Error and Tuning, writes the stepped index. -/
theorem handleRotate_open (s : Sys) (e : Env) (hp : s.askConfirmation = AskConfirmation.NONE)
    (ho : s.oven ≠ OvenState.ERROR ∧ s.oven ≠ OvenState.TUNING)
    (hrot : s.lastClk = true ∧ e.encClk = false ∧ sub32 e.now s.lastEncMs > 50) :
    (handleRotate s e).settings.recipeIdx =
      toU8 (Int.tmod ((s.settings.recipeIdx : Int) + (if e.encDt = true then 1 else -1)
        + Config.RECIPE_CNT) Config.RECIPE_CNT) := by
  unfold handleRotate
  have ho2 : ¬ s.oven = OvenState.ERROR ∧ ¬ s.oven = OvenState.TUNING := ho
  simp only [dirtySave_true, hrot, hp]
  simp only [ne_eq, not_true_eq_false, if_false, and_self, if_true, gt_iff_lt]
  rw [if_pos ho2]
  cases e.encDt <;> simp

/-- With no prompt open and the oven in Error or Tuning the encoder half leaves the recipe
index alone. -/
theorem handleRotate_closed (s : Sys) (e : Env) (hp : s.askConfirmation = AskConfirmation.NONE)
    (ho : s.oven = OvenState.ERROR ∨ s.oven = OvenState.TUNING) :
    (handleRotate s e).settings.recipeIdx = s.settings.recipeIdx := by
  unfold handleRotate
  simp only [dirtySave_true, hp]
  rcases ho with h | h <;> simp only [h] <;> split_ifs <;> first | rfl | simp_all

/-- C26, the claim fails in its last clause: in the Error state reached from boot by a
probe fault (no prompt open) a rotate is taken (last-activity becomes 1100) but leaves
`recipeIdx` at 0, not at `(0 + 1 + 2) mod 2 = 1`; and a short press (pressed at 1200 ms,
released at 1300 ms) leaves `limitIdx` at 0, not at `(0 + 1) mod 3 = 1`. -/
theorem rotate_in_error_keeps_index :
    Reachable bootFaulted ∧
    bootFaulted.oven = OvenState.ERROR ∧
    bootFaulted.askConfirmation = AskConfirmation.NONE ∧
    bootFaulted.settings.recipeIdx = 0 ∧ bootFaulted.settings.limitIdx = 0 ∧
    (handleInput bootFaulted (rotateEnv 1100)).lastActMs = 1100 ∧
    (handleInput bootFaulted (rotateEnv 1100)).settings.recipeIdx = 0 ∧
    (handleInput bootFaulted (rotateEnv 1100)).settings.recipeIdx ≠
      (bootFaulted.settings.recipeIdx + 1 + 2) % 2 ∧
    (handleInput (loop bootFaulted (pressEnv 1200)) (quietEnv 1300)).lastActMs = 1300 ∧
    (handleInput (loop bootFaulted (pressEnv 1200)) (quietEnv 1300)).settings.limitIdx = 0 ∧
    (handleInput (loop bootFaulted (pressEnv 1200)) (quietEnv 1300)).settings.limitIdx ≠
      ((loop bootFaulted (pressEnv 1200)).settings.limitIdx + 1) % 3 :=
  ⟨Reachable.step _ _ (Reachable.boot _ _ _ _ _), by decide!, by decide!, by decide!,
    by decide!, by decide!, by decide!, by decide!, by decide!, by decide!, by decide!⟩

/-- C26, amended. Table indices stay in bounds: for every state with `recipeIdx < 2` and
`limitIdx < 3` and every call of `handleInput` (whatever the encoder and switch lines do,
whatever prompt is open), afterwards `recipeIdx < 2` and `limitIdx < 3` hold and both table
lookups are in range.  A rotate with no prompt open and the oven neither in Error nor in
Tuning changes `recipeIdx` to `(recipeIdx + dir + 2) mod 2`; a short press with no prompt
open and the oven neither in Error nor in Tuning changes `limitIdx` to
`(limitIdx + 1) mod 3`; with no prompt open and the oven in Error or Tuning both indices
are left as they were. -/
theorem handleInput_indices (s : Sys) (e : Env)
    (hr : s.settings.recipeIdx < Config.RECIPE_CNT)
    (hl : s.settings.limitIdx < Config.LIMIT_CNT) :
    ((handleInput s e).settings.recipeIdx < Config.RECIPE_CNT ∧
      (handleInput s e).settings.limitIdx < Config.LIMIT_CNT) ∧
    (Config.recipes.get? (handleInput s e).settings.recipeIdx ≠ none ∧
      Config.limits.get? (handleInput s e).settings.limitIdx ≠ none) ∧
    (s.askConfirmation = AskConfirmation.NONE →
      s.oven ≠ OvenState.ERROR ∧ s.oven ≠ OvenState.TUNING →
      (s.lastClk = true ∧ e.encClk = false ∧ sub32 e.now s.lastEncMs > 50 →
        ((handleInput s e).settings.recipeIdx : Int) =
          ((s.settings.recipeIdx : Int) + (if e.encDt = true then 1 else -1) + 2) % 2) ∧
      (e.encSw = true ∧ s.lastSw = false ∧ sub32 e.now s.pressStartMs > 50 ∧
          s.longPressHandled = false →
        (handleInput s e).settings.limitIdx = (s.settings.limitIdx + 1) % 3)) ∧
    (s.askConfirmation = AskConfirmation.NONE →
      s.oven = OvenState.ERROR ∨ s.oven = OvenState.TUNING →
      (handleInput s e).settings.recipeIdx = s.settings.recipeIdx ∧
      (handleInput s e).settings.limitIdx = s.settings.limitIdx) := by
  have hR := handleRotate_idx s e
  have hF := handleRotate_frame s e
  have hP := handlePress_idx (handleRotate s e) e
  have hb : (handleInput s e).settings.recipeIdx < 2 ∧
      (handleInput s e).settings.limitIdx < 3 := by
    unfold handleInput
    unfold Config.RECIPE_CNT at hr
    unfold Config.LIMIT_CNT at hl
    constructor
    · rcases hP.1 with h | h
      · rw [h]
        rcases hR.1 with h2 | h2
        · exact h2
        · rw [h2]; exact hr
      · rw [h]; decide
    · rcases hP.2 with h | h
      · rw [h, hR.2]; exact hl
      · exact h
  refine ⟨hb, ?_, ?_, ?_⟩
  · obtain ⟨b1, b2⟩ := hb
    generalize (handleInput s e).settings.recipeIdx = i at b1
    generalize (handleInput s e).settings.limitIdx = j at b2
    constructor
    · interval_cases i <;> decide
    · interval_cases j <;> decide
  · intro hp ho
    constructor
    · intro hrot
      unfold handleInput
      rw [handlePress_recipe _ _ (by rw [hF.1]; exact hp), handleRotate_open s e hp ho hrot]
      have hd : (if e.encDt = true then (1 : Int) else -1) = 1 ∨
          (if e.encDt = true then (1 : Int) else -1) = -1 := by
        split_ifs
        · exact Or.inl rfl
        · exact Or.inr rfl
      exact (rotate_idx s.settings.recipeIdx _ hd).1
    · intro hsw
      unfold handleInput
      rw [handlePress_short (handleRotate s e) e (by rw [hF.1]; exact hp)
        (by rw [hF.2.1]; exact ho)
        (by rw [hF.2.2.1, hF.2.2.2.1, hF.2.2.2.2.1]; exact hsw), hF.2.2.2.2.2]
  · intro hp ho
    unfold handleInput
    rw [handlePress_recipe _ _ (by rw [hF.1]; exact hp), handleRotate_closed s e hp ho,
      handlePress_closed (handleRotate s e) e (by rw [hF.1]; exact hp)
        (by rw [hF.2.1]; exact ho), hF.2.2.2.2.2]
    exact ⟨rfl, rfl⟩

/-- C26 amended, sample: from boot one detent clockwise moves the recipe index from 0 to 1
(Romana), and both indices stay inside their tables. -/
theorem handleInput_indices_witness :
    (handleInput bootState (rotateEnv 100)).settings.recipeIdx = 1 ∧
    (handleInput bootState (rotateEnv 100)).settings.recipeIdx < Config.RECIPE_CNT ∧
    (handleInput bootState (rotateEnv 100)).settings.limitIdx < Config.LIMIT_CNT :=
  ⟨by decide!,
    (handleInput_indices bootState (rotateEnv 100) (by decide) (by decide)).1.1,
    (handleInput_indices bootState (rotateEnv 100) (by decide) (by decide)).1.2⟩
/-! ## The filtered plate temperature and the soak over a run of ticks -/

theorem bit2_and254 (x : Nat) : (x &&& 254).testBit 2 = x.testBit 2 := by
  rw [Nat.testBit_and, show Nat.testBit 254 2 = true by decide, Bool.and_true]

theorem bit2_or1 (x : Nat) : (x ||| 1).testBit 2 = x.testBit 2 := by
  rw [Nat.testBit_or, show Nat.testBit 1 2 = false by decide, Bool.or_false]

theorem bit2_or2 (x : Nat) : (x ||| 2).testBit 2 = x.testBit 2 := by
  rw [Nat.testBit_or, show Nat.testBit 2 2 = false by decide, Bool.or_false]

/-- An accepted plate reading is a number in `[0, 650]`. -/
theorem plate_of_ok (rp rh : Option ℚ)
    (hok : ¬ (IntelligentHeater.probeBad rp Config.Hard.PLATE_MAX_C
      || IntelligentHeater.probeBad rh (Config.Hard.HEATER_MAX_C + 100)) = true) :
    0 ≤ rp.getD 0 ∧ rp.getD 0 ≤ 650 := by
  have hspec : ¬ specRejected rp rh := fun h =>
    hok ((IntelligentHeater.bad_iff_specRejected rp rh).mpr h)
  unfold specRejected specProbeRejected at hspec
  cases rp with
  | none => simp at hspec
  | some v =>
    simp only [not_or, not_lt] at hspec
    exact ⟨hspec.1.1, hspec.1.2⟩

/-- What an accepted tick leaves in the filtered plate temperature and in the soak. -/
theorem tick_ok_fields (z : IntelligentHeater) (rp rh : Option ℚ) (tune : ATuneStep)
    (ms : Nat) (target health : ℚ)
    (hok : ¬ (IntelligentHeater.probeBad rp Config.Hard.PLATE_MAX_C
      || IntelligentHeater.probeBad rh (Config.Hard.HEATER_MAX_C + 100)) = true) :
    (z.tick rp rh tune ms target health).1.plateC =
      (4/5 : ℚ) * (if z._first = true then rp.getD 0 else z.plateC) + (1/5 : ℚ) * rp.getD 0 ∧
    (z.tick rp rh tune ms target health).1.soak =
      (if target > 50 ∧ f_abs (target - (z.tick rp rh tune ms target health).1.plateC) < 5
        then fmin 100 (z.soak + 1/4) else fmax 0 (z.soak - 1/8)) := by
  rw [IntelligentHeater.tick_of_ok z rp rh tune ms target health hok]
  simp only
  obtain ⟨_, _, _, f4, _, _⟩ :=
    IntelligentHeater.tickFilter_fields z (rp.getD 0) (rh.getD 0) ms
  have hp : ((((z.tickFilter (rp.getD 0) (rh.getD 0) ms).tickSoak target).tickPid
      tune).tickRunaway ms).tickOverheat.plateC =
      (4/5 : ℚ) * (if z._first = true then rp.getD 0 else z.plateC) + (1/5 : ℚ) * rp.getD 0 := by
    rw [(IntelligentHeater.tickOverheat_keep _).1, (IntelligentHeater.tickRunaway_keep _ _).1,
      (IntelligentHeater.tickPid_keep _ _).2.1, (IntelligentHeater.tickSoak_keep _ _).2.1, f4]
  refine ⟨hp, ?_⟩
  rw [hp, (IntelligentHeater.tickOverheat_frame _).1, (IntelligentHeater.tickRunaway_frame _ _).1]
  have hk : ∀ y : IntelligentHeater, (y.tickPid tune).soak = y.soak := by
    intro y
    unfold IntelligentHeater.tickPid IntelligentHeater.setTunings IntelligentHeater.stopTune
    simp only
    split_ifs <;> rfl
  rw [hk]
  unfold IntelligentHeater.tickSoak
  simp only [f4, (IntelligentHeater.tickFilter_frame z _ _ ms).1, Config.Hard.STONE_THICK_MM]
  norm_num

/-- One call of `tick`, whatever the readings: a filtered plate temperature in `[0, 650]`
stays there and the overheat bit stays clear. -/
theorem tickCall_plate (zh : IntelligentHeater × ℚ) (c : TickCall)
    (h : 0 ≤ zh.1.plateC ∧ zh.1.plateC ≤ 650 ∧ zh.1.error.testBit 2 = false) :
    0 ≤ (tickCall zh c).1.plateC ∧ (tickCall zh c).1.plateC ≤ 650 ∧
    (tickCall zh c).1.error.testBit 2 = false := by
  obtain ⟨h0, h1, h2⟩ := h
  unfold tickCall
  simp only
  by_cases hb : (IntelligentHeater.probeBad c.plate Config.Hard.PLATE_MAX_C
      || IntelligentHeater.probeBad c.heater (Config.Hard.HEATER_MAX_C + 100)) = true
  · rw [IntelligentHeater.tick_of_bad _ _ _ _ _ _ _ hb]
    refine ⟨h0, h1, ?_⟩
    show (zh.1.error ||| 1).testBit 2 = false
    rw [bit2_or1]; exact h2
  · have hp := (tick_ok_fields zh.1 c.plate c.heater c.tune c.ms c.target zh.2 hb).1
    have hr := plate_of_ok c.plate c.heater hb
    have hrange : 0 ≤ (zh.1.tick c.plate c.heater c.tune c.ms c.target zh.2).1.plateC ∧
        (zh.1.tick c.plate c.heater c.tune c.ms c.target zh.2).1.plateC ≤ 650 := by
      rw [hp]
      split_ifs <;> constructor <;> linarith [hr.1, hr.2]
    refine ⟨hrange.1, hrange.2, ?_⟩
    have hle := hrange.2
    rw [IntelligentHeater.tick_of_ok _ _ _ _ _ _ _ hb] at hle ⊢
    simp only at hle ⊢
    rw [(IntelligentHeater.tickOverheat_keep _).1] at hle
    rw [IntelligentHeater.tickOverheat_error, if_neg (not_lt.mpr hle)]
    have hrun : ∀ y : IntelligentHeater,
        (y.tickRunaway c.ms).error.testBit 2 = y.error.testBit 2 := by
      intro y
      unfold IntelligentHeater.tickRunaway
      split_ifs
      · exact bit2_or2 _
      · rfl
      · rfl
    rw [hrun, (IntelligentHeater.tickPid_keep _ _).1, (IntelligentHeater.tickSoak_keep _ _).1,
      (IntelligentHeater.tickFilter_fields _ _ _ _).1, bit2_and254]
    exact h2

/-- The same over a run of calls. -/
theorem tickCalls_plate (calls : List TickCall) :
    ∀ zh : IntelligentHeater × ℚ,
      0 ≤ zh.1.plateC ∧ zh.1.plateC ≤ 650 ∧ zh.1.error.testBit 2 = false →
      0 ≤ (tickCalls zh calls).1.plateC ∧ (tickCalls zh calls).1.plateC ≤ 650 ∧
      (tickCalls zh calls).1.error.testBit 2 = false := by
  induction calls with
  | nil => intro zh h; exact h
  | cons c rest ih =>
    intro zh h
    exact ih _ (tickCall_plate zh c h)

namespace IntelligentHeater

theorem plateOK_new (ms : Nat) : PlateOK (IntelligentHeater.new ms) :=
  ⟨le_refl _, by norm_num [IntelligentHeater.new], (by decide : Nat.testBit 0 2 = false)⟩

theorem plateOK_reset (z : IntelligentHeater) (ms : Nat) : PlateOK (z.reset ms) :=
  ⟨le_refl _, by norm_num [IntelligentHeater.reset], (by decide : Nat.testBit 0 2 = false)⟩

theorem plateOK_tick (z : IntelligentHeater) (rp rh : Option ℚ) (tune : ATuneStep) (ms : Nat)
    (target health : ℚ) (h : PlateOK z) : PlateOK (z.tick rp rh tune ms target health).1 :=
  tickCall_plate (z, health) ⟨rp, rh, tune, ms, target⟩ h

theorem plateOK_drive (z : IntelligentHeater) (out ms : Nat) (h : PlateOK z) :
    PlateOK (z.drive out ms) := by
  unfold IntelligentHeater.drive
  simp only
  split_ifs <;> exact h

end IntelligentHeater

theorem plateInv_of_eq {s t : Sys} (h1 : t.up = s.up) (h2 : t.lo = s.lo) (h : PlateInv s) :
    PlateInv t := by
  unfold PlateInv
  rw [h1, h2]
  exact h

theorem handleRotate_plate (s : Sys) (e : Env) (h : PlateInv s) :
    PlateInv (handleRotate s e) := by
  unfold handleRotate
  simp only [dirtySave_true]
  split_ifs <;> exact h

theorem confirmAction_plate (s : Sys) (e : Env) (h : PlateInv s) :
    PlateInv (confirmAction s e) := by
  unfold confirmAction
  simp only [dirtySave_true]
  split_ifs
  · exact ⟨IntelligentHeater.plateOK_reset _ _, IntelligentHeater.plateOK_reset _ _⟩
  · exact ⟨IntelligentHeater.plateOK_reset _ _, IntelligentHeater.plateOK_reset _ _⟩
  · exact ⟨IntelligentHeater.plateOK_reset _ _, IntelligentHeater.plateOK_reset _ _⟩
  · exact h

theorem handlePress_plate (s : Sys) (e : Env) (h : PlateInv s) :
    PlateInv (handlePress s e) := by
  have hc : PlateInv (confirmAction { s with lastActMs := e.now } e) :=
    confirmAction_plate _ e h
  unfold handlePress shortPress longPress
  simp only [dirtySave_true]
  split_ifs <;> first | exact h | exact hc

theorem handleInput_plate (s : Sys) (e : Env) (h : PlateInv s) :
    PlateInv (handleInput s e) :=
  handlePress_plate _ e (handleRotate_plate s e h)

theorem tickUp_plate (s : Sys) (e : Env) (t : ℚ) (h : PlateInv s) :
    PlateInv (tickUp s e t).1 :=
  ⟨IntelligentHeater.plateOK_tick _ _ _ _ _ _ _ h.1, h.2⟩

theorem tickLo_plate (s : Sys) (e : Env) (t : ℚ) (h : PlateInv s) :
    PlateInv (tickLo s e t).1 :=
  ⟨h.1, IntelligentHeater.plateOK_tick _ _ _ _ _ _ _ h.2⟩

theorem tuning_path_plate (s : Sys) (e : Env) (h : PlateInv s) :
    PlateInv (tuneSafety (tuneTicks (tuneAdvance s e) e) e) := by
  have h1 : PlateInv (tuneAdvance s e) := by
    unfold tuneAdvance
    simp only [dirtySave_true]
    split_ifs <;> exact h
  have h2 : ∀ t : Sys, PlateInv t → PlateInv (tuneTicks t e) := by
    intro t ht
    unfold tuneTicks
    simp only
    split_ifs
    · exact tickUp_plate _ e _ (tickLo_plate _ e _ (tickLo_plate _ e _ (tickUp_plate _ e _ ht)))
    · exact tickLo_plate _ e _ (tickUp_plate _ e _ ht)
    · exact tickUp_plate _ e _ (tickLo_plate _ e _ ht)
    · exact ht
  have h3 : ∀ t : Sys, PlateInv t → PlateInv (tuneSafety t e) := by
    intro t ht
    unfold tuneSafety
    simp only [dirtySave_true]
    split_ifs
    · exact ⟨IntelligentHeater.plateOK_reset _ _, IntelligentHeater.plateOK_reset _ _⟩
    · exact ht
  exact h3 _ (h2 _ h1)

theorem normal_path_plate (s : Sys) (e : Env) (h : PlateInv s) :
    PlateInv (emergencyOrPower (coolManage (bakeDone (bakeJudge (heatTicks
      (idleToPreheat s e) e) e) e) e) e) := by
  have h1 : PlateInv (idleToPreheat s e) := by
    unfold idleToPreheat
    split_ifs
    · exact ⟨IntelligentHeater.plateOK_reset _ _, IntelligentHeater.plateOK_reset _ _⟩
    · exact h
  have h2 : ∀ t : Sys, PlateInv t → PlateInv (heatTicks t e) := by
    intro t ht
    unfold heatTicks
    simp only
    generalize (if isHeating t = true then t.currentRecipe.upC else 0) = tu
    generalize (if isHeating t = true then t.currentRecipe.loC else 0) = tl
    have h12 := tickLo_plate _ e tl (tickUp_plate t e tu ht)
    split_ifs
    · rw [dirtySave_true]
      exact h12
    · exact h12
    · exact h12
  have h3 : ∀ t : Sys, PlateInv t → PlateInv (bakeJudge t e) := by
    intro t ht
    unfold bakeJudge startBake
    simp only
    split_ifs <;> exact ht
  have h4 : ∀ t : Sys, PlateInv t → PlateInv (bakeDone t e) := by
    intro t ht
    unfold bakeDone
    simp only
    split_ifs <;> exact ht
  have h5 : ∀ t : Sys, PlateInv t → PlateInv (coolManage t e) := by
    intro t ht
    unfold coolManage cooledConfirmed
    simp only [dirtySave_true]
    split_ifs <;>
      first
      | exact ht
      | exact ⟨IntelligentHeater.plateOK_reset _ _, IntelligentHeater.plateOK_reset _ _⟩
  have h6 : ∀ t : Sys, PlateInv t → PlateInv (emergencyOrPower t e) := by
    intro t ht
    unfold emergencyOrPower
    split_ifs
    · rw [dirtySave_true]
      exact ⟨IntelligentHeater.plateOK_reset _ _, IntelligentHeater.plateOK_reset _ _⟩
    · unfold calculatePower
      simp only
      split_ifs <;> exact ht
  exact h6 _ (h5 _ (h4 _ (h3 _ (h2 _ h1))))

theorem runControlTick_plate (s : Sys) (e : Env) (h : PlateInv s) :
    PlateInv (runControlTick s e) := by
  unfold runControlTick
  split_ifs with hg
  · have h0 : PlateInv { s with lastCtrlMs := e.now } := h
    generalize ({ s with lastCtrlMs := e.now } : Sys) = s1 at h0
    simp only
    split_ifs
    · exact tuning_path_plate s1 e h0
    · exact normal_path_plate s1 e h0
  · exact h

theorem loop_plate (s : Sys) (e : Env) (h : PlateInv s) : PlateInv (loop s e) := by
  have h1 := runControlTick_plate _ e (handleInput_plate s e h)
  have h2 : ∀ t : Sys, PlateInv t → PlateInv (driveOutputs t e) := by
    intro t ht
    unfold driveOutputs
    simp only
    split_ifs <;>
      exact ⟨IntelligentHeater.plateOK_drive _ _ _ ht.1, IntelligentHeater.plateOK_drive _ _ _ ht.2⟩
  have h3 : ∀ (t : Sys) (m : Nat), PlateInv t → PlateInv (dirtySave t false m) := by
    intro t m ht
    unfold dirtySave
    simp only
    split_ifs <;> exact ht
  unfold loop
  exact h3 _ _ (h2 _ h1)

/-- In every state the firmware reaches, both filtered plate temperatures are in
`[0, 650]` and both overheat bits are clear. -/
theorem reachable_plate (s : Sys) (h : Reachable s) : PlateInv s := by
  induction h with
  | boot stored swHeld msCtor ms stray =>
    exact ⟨IntelligentHeater.plateOK_new msCtor, IntelligentHeater.plateOK_new msCtor⟩
  | step s e _ ih => exact loop_plate s e ih

/-- C24. The overheat bit is unreachable: from a freshly constructed zone or a zone just
reset, after every run of calls of `tick` (any targets, any probe readings, accepted or
rejected, arithmetic exact) the filtered plate temperature is in `[0, 650]` and the
overheat bit (bit 2) is clear; a plate reading above 650 makes `tick` take the sensor-fault
exit: the sensor bit is set, the filtered plate temperature and bit 2 are left alone.
The other methods keep the same two facts (`PlateOK`), and they hold of both zones in
every state the firmware reaches from boot. -/
theorem overheat_unreachable :
    (∀ (z : IntelligentHeater) (ms : Nat) (health : ℚ) (calls : List TickCall),
      0 ≤ (tickCalls (z.reset ms, health) calls).1.plateC ∧
      (tickCalls (z.reset ms, health) calls).1.plateC ≤ 650 ∧
      (tickCalls (z.reset ms, health) calls).1.error.testBit 2 = false) ∧
    (∀ (ms : Nat) (health : ℚ) (calls : List TickCall),
      0 ≤ (tickCalls (IntelligentHeater.new ms, health) calls).1.plateC ∧
      (tickCalls (IntelligentHeater.new ms, health) calls).1.plateC ≤ 650 ∧
      (tickCalls (IntelligentHeater.new ms, health) calls).1.error.testBit 2 = false) ∧
    (∀ (z : IntelligentHeater) (v : ℚ) (rh : Option ℚ) (tune : ATuneStep) (ms : Nat)
        (target health : ℚ), v > 650 →
      z.tick (some v) rh tune ms target health = (z.tickReject, health, false) ∧
      (z.tick (some v) rh tune ms target health).1.error.testBit 0 = true ∧
      (z.tick (some v) rh tune ms target health).1.error.testBit 2 = z.error.testBit 2 ∧
      (z.tick (some v) rh tune ms target health).1.plateC = z.plateC) ∧
    (∀ (z : IntelligentHeater), PlateOK z →
      (∀ (rp rh : Option ℚ) (tune : ATuneStep) (ms : Nat) (target health : ℚ),
        PlateOK (z.tick rp rh tune ms target health).1) ∧
      (∀ out ms : Nat, PlateOK (z.drive out ms)) ∧
      PlateOK z.startTune ∧ PlateOK z.stopTune ∧
      (∀ kp ki kd : ℚ, PlateOK (z.setTunings kp ki kd))) ∧
    (∀ s : Sys, Reachable s →
      (0 ≤ s.up.plateC ∧ s.up.plateC ≤ 650 ∧ s.up.error.testBit 2 = false) ∧
      (0 ≤ s.lo.plateC ∧ s.lo.plateC ≤ 650 ∧ s.lo.error.testBit 2 = false)) := by
  refine ⟨?_, ?_, ?_, ?_, ?_⟩
  · intro z ms health calls
    exact tickCalls_plate calls _ (IntelligentHeater.plateOK_reset z ms)
  · intro ms health calls
    exact tickCalls_plate calls _ (IntelligentHeater.plateOK_new ms)
  · intro z v rh tune ms target health hv
    have hb : (IntelligentHeater.probeBad (some v) Config.Hard.PLATE_MAX_C
        || IntelligentHeater.probeBad rh (Config.Hard.HEATER_MAX_C + 100)) = true := by
      have : v > Config.Hard.PLATE_MAX_C := hv
      simp [IntelligentHeater.probeBad, this]
    rw [IntelligentHeater.tick_of_bad _ _ _ _ _ _ _ hb]
    refine ⟨rfl, ?_, ?_, rfl⟩
    · exact bit0_or1 _
    · exact bit2_or1 _
  · intro z hz
    exact ⟨fun rp rh tune ms target health =>
        IntelligentHeater.plateOK_tick z rp rh tune ms target health hz,
      fun out ms => IntelligentHeater.plateOK_drive z out ms hz, hz, hz, fun _ _ _ => hz⟩
  · intro s hs
    exact reachable_plate s hs

/-- One call of `tick`, whatever the readings: a non-negative soak stays non-negative and
rises by at most 1/4. -/
theorem tickCall_soak_step (zh : IntelligentHeater × ℚ) (c : TickCall) (h : 0 ≤ zh.1.soak) :
    0 ≤ (tickCall zh c).1.soak ∧ (tickCall zh c).1.soak ≤ zh.1.soak + 1/4 := by
  unfold tickCall
  simp only
  by_cases hb : (IntelligentHeater.probeBad c.plate Config.Hard.PLATE_MAX_C
      || IntelligentHeater.probeBad c.heater (Config.Hard.HEATER_MAX_C + 100)) = true
  · rw [IntelligentHeater.tick_of_bad _ _ _ _ _ _ _ hb]
    show 0 ≤ zh.1.soak ∧ zh.1.soak ≤ zh.1.soak + 1/4
    exact ⟨h, by linarith⟩
  · rw [(tick_ok_fields zh.1 c.plate c.heater c.tune c.ms c.target zh.2 hb).2]
    unfold fmin fmax
    split_ifs <;> constructor <;> linarith

/-- The same over a run of calls: the soak rises by at most 1/4 per call. -/
theorem tickCalls_soak_le (calls : List TickCall) :
    ∀ zh : IntelligentHeater × ℚ, 0 ≤ zh.1.soak →
      0 ≤ (tickCalls zh calls).1.soak ∧
      (tickCalls zh calls).1.soak ≤ zh.1.soak + (calls.length : ℚ) / 4 := by
  induction calls with
  | nil =>
    intro zh h
    simp [tickCalls, h]
  | cons c rest ih =>
    intro zh h
    have h1 := tickCall_soak_step zh c h
    have h2 := ih _ h1.1
    refine ⟨h2.1, ?_⟩
    show (tickCalls (tickCall zh c) rest).1.soak ≤ _
    rw [List.length_cons]
    push_cast
    linarith [h2.2, h1.2]

/-- A call in band adds 1/4 to the soak, up to the ceiling of 100. -/
theorem tickCall_soak_inBand (zh : IntelligentHeater × ℚ) (c : TickCall)
    (h : inBand zh c = true) :
    (tickCall zh c).1.soak = fmin 100 (zh.1.soak + 1/4) := by
  unfold inBand at h
  simp only [Bool.and_eq_true, Bool.not_eq_true', decide_eq_true_eq] at h
  obtain ⟨⟨hb, ht⟩, hband⟩ := h
  have hok : ¬ (IntelligentHeater.probeBad c.plate Config.Hard.PLATE_MAX_C
      || IntelligentHeater.probeBad c.heater (Config.Hard.HEATER_MAX_C + 100)) = true := by
    rw [hb]; exact Bool.false_ne_true
  unfold tickCall at hband ⊢
  simp only at hband ⊢
  rw [(tick_ok_fields zh.1 c.plate c.heater c.tune c.ms c.target zh.2 hok).2,
    if_pos ⟨ht, hband⟩]

/-- A run of calls in band from a soak of `min(100, k/4)` ends at `min(100, (k + n)/4)`. -/
theorem tickCalls_soak_run (calls : List TickCall) :
    ∀ (zh : IntelligentHeater × ℚ) (k : Nat), zh.1.soak = min 100 ((k : ℚ) / 4) →
      soakRun zh calls = true →
      (tickCalls zh calls).1.soak = min 100 (((k + calls.length : Nat) : ℚ) / 4) := by
  induction calls with
  | nil =>
    intro zh k h _
    simpa [tickCalls] using h
  | cons c rest ih =>
    intro zh k h hrun
    unfold soakRun at hrun
    rw [Bool.and_eq_true] at hrun
    have h1 := tickCall_soak_inBand zh c hrun.1
    have h2 : (tickCall zh c).1.soak = min 100 (((k + 1 : Nat) : ℚ) / 4) := by
      rw [h1, h]
      unfold fmin
      push_cast
      rcases le_total (100 : ℚ) ((k : ℚ) / 4) with hk | hk
      · rw [min_eq_left hk, min_eq_left (by linarith), if_pos (by norm_num)]
      · rw [min_eq_right hk]
        split_ifs with hc
        · rw [min_eq_left (by linarith)]
        · rw [min_eq_right (by linarith)]
          ring
    have h3 := ih _ (k + 1) h2 hrun.2
    show (tickCalls (tickCall zh c) rest).1.soak = _
    rw [h3, List.length_cons]
    congr 3
    omega

/-! ## The soak along passes of the main loop -/

theorem soakRel_refl (s : Sys) : SoakRel 0 s s :=
  ⟨fun h => ⟨h, by linarith⟩, fun h => ⟨h, by linarith⟩, fun h => Or.inl h⟩

theorem soakRel_trans {d1 d2 : ℚ} {s t u : Sys} (h1 : SoakRel d1 s t) (h2 : SoakRel d2 t u)
    (hd2 : 0 ≤ d2) : SoakRel (d1 + d2) s u := by
  obtain ⟨a1, a2, a3⟩ := h1
  obtain ⟨b1, b2, b3⟩ := h2
  refine ⟨fun h => ?_, fun h => ?_, fun h => ?_⟩
  · have x := a1 h
    have y := b1 x.1
    exact ⟨y.1, by linarith⟩
  · have x := a2 h
    have y := b2 x.1
    exact ⟨y.1, by linarith⟩
  · rcases b3 h with h3 | ⟨h3, h4⟩
    · rcases a3 h3 with h5 | ⟨h5, h6⟩
      · exact Or.inl h5
      · exact Or.inr ⟨fun hz => by linarith [h5 hz], fun hz => by linarith [h6 hz]⟩
    · refine Or.inr ⟨fun hz => ?_, fun hz => ?_⟩
      · have x := a1 hz
        linarith [h3 x.1]
      · have x := a2 hz
        linarith [h4 x.1]

/-- A step that leaves both soaks and the oven label alone. -/
theorem soakRel_of_eq {s t : Sys} (h1 : t.up.soak = s.up.soak) (h2 : t.lo.soak = s.lo.soak)
    (h3 : t.oven = s.oven) : SoakRel 0 s t := by
  refine ⟨fun h => ?_, fun h => ?_, fun h => ?_⟩
  · rw [h1]; exact ⟨h, by linarith⟩
  · rw [h2]; exact ⟨h, by linarith⟩
  · rw [h3] at h; exact Or.inl h

/-- A step that leaves each soak alone or zeroes it, and does not enter Ready or Baking. -/
theorem soakRel_of_reset {s t : Sys} (h1 : t.up.soak = s.up.soak ∨ t.up.soak = 0)
    (h2 : t.lo.soak = s.lo.soak ∨ t.lo.soak = 0)
    (h3 : t.oven = s.oven ∨ (t.oven ≠ OvenState.READY ∧ t.oven ≠ OvenState.BAKING)) :
    SoakRel 0 s t := by
  refine ⟨fun h => ?_, fun h => ?_, fun h => ?_⟩
  · rcases h1 with h1 | h1 <;> rw [h1]
    · exact ⟨h, by linarith⟩
    · exact ⟨le_refl _, by linarith⟩
  · rcases h2 with h2 | h2 <;> rw [h2]
    · exact ⟨h, by linarith⟩
    · exact ⟨le_refl _, by linarith⟩
  · rcases h3 with h3 | h3
    · rw [h3] at h; exact Or.inl h
    · rcases h with h | h
      · exact absurd h h3.1
      · exact absurd h h3.2

theorem handleRotate_soak (s : Sys) (e : Env) : SoakRel 0 s (handleRotate s e) := by
  unfold handleRotate
  simp only [dirtySave_true]
  split_ifs <;> exact soakRel_of_eq rfl rfl rfl

theorem confirmAction_soak (s : Sys) (e : Env) : SoakRel 0 s (confirmAction s e) := by
  unfold confirmAction
  simp only [dirtySave_true]
  split_ifs
  · exact soakRel_of_reset (Or.inr rfl) (Or.inr rfl) (Or.inr ⟨by simp, by simp⟩)
  · exact soakRel_of_reset (Or.inr rfl) (Or.inr rfl) (Or.inr ⟨by simp, by simp⟩)
  · exact soakRel_of_reset (Or.inr rfl) (Or.inr rfl) (Or.inr ⟨by simp, by simp⟩)
  · exact soakRel_refl s

theorem shortPress_soak (s : Sys) (e : Env) : SoakRel 0 s (shortPress s e) := by
  have hc : SoakRel 0 s (confirmAction { s with lastActMs := e.now } e) :=
    confirmAction_soak { s with lastActMs := e.now } e
  unfold shortPress
  simp only [dirtySave_true]
  split_ifs
  · obtain ⟨c1, c2, c3⟩ := hc
    exact ⟨c1, c2, c3⟩
  · exact soakRel_of_eq rfl rfl rfl
  · exact soakRel_of_eq rfl rfl rfl
  · exact soakRel_of_eq rfl rfl rfl

theorem longPress_soak (s : Sys) (e : Env) : SoakRel 0 s (longPress s e) := by
  unfold longPress
  simp only
  split_ifs
  · exact soakRel_of_eq rfl rfl rfl
  · exact soakRel_of_reset (Or.inl rfl) (Or.inl rfl) (Or.inr ⟨by simp, by simp⟩)
  · exact soakRel_of_eq rfl rfl rfl
  · exact soakRel_of_eq rfl rfl rfl

theorem handlePress_soak (s : Sys) (e : Env) : SoakRel 0 s (handlePress s e) := by
  have hs := shortPress_soak s e
  have hl := longPress_soak s e
  unfold handlePress
  simp only
  split_ifs
  · exact soakRel_of_eq rfl rfl rfl
  · exact ⟨hs.1, hs.2.1, hs.2.2⟩
  · exact soakRel_of_eq rfl rfl rfl
  · exact ⟨hl.1, hl.2.1, hl.2.2⟩
  · exact soakRel_of_eq rfl rfl rfl
  · exact soakRel_of_eq rfl rfl rfl

theorem handleInput_soak (s : Sys) (e : Env) : SoakRel 0 s (handleInput s e) := by
  have h := soakRel_trans (handleRotate_soak s e) (handlePress_soak (handleRotate s e) e)
    (le_refl _)
  rw [add_zero] at h
  exact h


/-- The two zone ticks of a control tick, upper zone first. -/
theorem ticks_soak_ul (s : Sys) (e : Env) (a b : ℚ) :
    SoakRel (1/4) s (tickLo (tickUp s e a).1 e b).1 := by
  refine ⟨fun h => ?_, fun h => ?_, fun h => Or.inl h⟩
  · exact tickCall_soak_step (s.up, s.settings.upHealth)
      ⟨e.upPlate, e.upHeater, e.upTune, e.ms, a⟩ h
  · exact tickCall_soak_step (s.lo, s.settings.loHealth)
      ⟨e.loPlate, e.loHeater, e.loTune, e.ms, b⟩ h

/-- The two zone ticks of a control tick, lower zone first. -/
theorem ticks_soak_lu (s : Sys) (e : Env) (a b : ℚ) :
    SoakRel (1/4) s (tickUp (tickLo s e a).1 e b).1 := by
  refine ⟨fun h => ?_, fun h => ?_, fun h => Or.inl h⟩
  · exact tickCall_soak_step (s.up, s.settings.upHealth)
      ⟨e.upPlate, e.upHeater, e.upTune, e.ms, b⟩ h
  · exact tickCall_soak_step (s.lo, s.settings.loHealth)
      ⟨e.loPlate, e.loHeater, e.loTune, e.ms, a⟩ h

theorem soakRel_zero_quarter {s t : Sys} (h : SoakRel 0 s t) : SoakRel (1/4) s t := by
  obtain ⟨a1, a2, a3⟩ := h
  refine ⟨fun h => ?_, fun h => ?_, fun h => ?_⟩
  · have x := a1 h
    exact ⟨x.1, by linarith⟩
  · have x := a2 h
    exact ⟨x.1, by linarith⟩
  · rcases a3 h with h3 | ⟨h3, h4⟩
    · exact Or.inl h3
    · exact Or.inr ⟨fun hz => by linarith [h3 hz], fun hz => by linarith [h4 hz]⟩

theorem heatTicks_soak (s : Sys) (e : Env) : SoakRel (1/4) s (heatTicks s e) := by
  unfold heatTicks
  simp only
  generalize (if isHeating s = true then s.currentRecipe.upC else 0) = tu
  generalize (if isHeating s = true then s.currentRecipe.loC else 0) = tl
  have h12 := ticks_soak_ul s e tu tl
  split_ifs
  · rw [dirtySave_true]
    exact ⟨h12.1, h12.2.1, h12.2.2⟩
  · exact h12
  · exact h12

theorem tuneTicks_soak (s : Sys) (e : Env) : SoakRel (1/4) s (tuneTicks s e) := by
  unfold tuneTicks
  by_cases h1 : s.tuneStage = 1
  · have h3 : ¬ (tickLo (tickUp s e Config.Hard.TUNE_TARGET_C).1 e 0).1.tuneStage = 3 := by
      show ¬ s.tuneStage = 3
      omega
    simp only [h1, if_true]
    rw [if_neg h3]
    exact ticks_soak_ul s e _ _
  · simp only [h1, if_false]
    split_ifs
    · exact ticks_soak_lu s e _ _
    · exact soakRel_zero_quarter (soakRel_refl s)

theorem tuneAdvance_soak (s : Sys) (e : Env) : SoakRel 0 s (tuneAdvance s e) := by
  unfold tuneAdvance
  simp only [dirtySave_true]
  split_ifs
  · exact soakRel_of_eq rfl rfl rfl
  · exact soakRel_of_eq rfl rfl rfl
  · exact soakRel_of_eq rfl rfl rfl
  · exact soakRel_of_reset (Or.inl rfl) (Or.inl rfl) (Or.inr ⟨by simp, by simp⟩)
  · exact soakRel_refl s

theorem tuneSafety_soak (s : Sys) (e : Env) : SoakRel 0 s (tuneSafety s e) := by
  unfold tuneSafety
  simp only [dirtySave_true]
  split_ifs
  · exact soakRel_of_reset (Or.inr rfl) (Or.inr rfl) (Or.inr ⟨by simp, by simp⟩)
  · exact soakRel_refl s

theorem idleToPreheat_soak (s : Sys) (e : Env) : SoakRel 0 s (idleToPreheat s e) := by
  unfold idleToPreheat
  split_ifs
  · exact soakRel_of_reset (Or.inr rfl) (Or.inr rfl) (Or.inr ⟨by simp, by simp⟩)
  · exact soakRel_refl s

/-- The bake block sets Ready or Baking only when the ready condition holds: both soaks
are above 95. -/
theorem bakeJudge_soak (s : Sys) (e : Env) : SoakRel 0 s (bakeJudge s e) := by
  have hsoak : (bakeJudge s e).up.soak = s.up.soak ∧ (bakeJudge s e).lo.soak = s.lo.soak := by
    unfold bakeJudge startBake
    simp only
    split_ifs <;> exact ⟨rfl, rfl⟩
  refine ⟨fun h => ?_, fun h => ?_, fun h => ?_⟩
  · rw [hsoak.1]; exact ⟨h, by linarith⟩
  · rw [hsoak.2]; exact ⟨h, by linarith⟩
  · by_cases hr : ready s = true
    · right
      unfold ready at hr
      rw [decide_eq_true_eq] at hr
      have hmin := hr.2.2
      unfold fmin at hmin
      constructor
      · intro _
        split_ifs at hmin with hc <;> linarith
      · intro _
        split_ifs at hmin with hc <;> linarith
    · left
      unfold bakeJudge startBake at h
      simp only [hr] at h
      split_ifs at h <;> simp_all

theorem bakeDone_soak (s : Sys) (e : Env) : SoakRel 0 s (bakeDone s e) := by
  unfold bakeDone
  simp only
  split_ifs
  · exact soakRel_of_reset (Or.inl rfl) (Or.inl rfl) (Or.inr ⟨by simp, by simp⟩)
  · exact soakRel_of_reset (Or.inl rfl) (Or.inl rfl) (Or.inr ⟨by simp, by simp⟩)
  · exact soakRel_of_reset (Or.inl rfl) (Or.inl rfl) (Or.inr ⟨by simp, by simp⟩)
  · exact soakRel_refl s

theorem coolManage_soak (s : Sys) (e : Env) : SoakRel 0 s (coolManage s e) := by
  unfold coolManage cooledConfirmed
  simp only [dirtySave_true]
  split_ifs <;>
    first
    | exact soakRel_of_eq rfl rfl rfl
    | exact soakRel_of_reset (Or.inl rfl) (Or.inl rfl) (Or.inr ⟨by simp, by simp⟩)
    | exact soakRel_of_reset (Or.inr rfl) (Or.inr rfl) (Or.inr ⟨by simp, by simp⟩)

theorem emergencyOrPower_soak (s : Sys) (e : Env) : SoakRel 0 s (emergencyOrPower s e) := by
  unfold emergencyOrPower
  split_ifs
  · rw [dirtySave_true]
    exact soakRel_of_reset (Or.inr rfl) (Or.inr rfl) (Or.inr ⟨by simp, by simp⟩)
  · unfold calculatePower
    simp only
    split_ifs <;> exact soakRel_of_eq rfl rfl rfl

theorem runControlTick_soak (s : Sys) (e : Env) : SoakRel (1/4) s (runControlTick s e) := by
  unfold runControlTick
  split_ifs with hg
  · have h0 : SoakRel 0 s { s with lastCtrlMs := e.now } := soakRel_of_eq rfl rfl rfl
    generalize ({ s with lastCtrlMs := e.now } : Sys) = s1 at h0
    simp only
    split_ifs
    · have h := soakRel_trans (soakRel_trans (soakRel_trans h0 (tuneAdvance_soak s1 e)
        (le_refl _)) (tuneTicks_soak _ e) (by norm_num)) (tuneSafety_soak _ e) (le_refl _)
      norm_num at h
      exact h
    · have h := soakRel_trans (soakRel_trans (soakRel_trans (soakRel_trans (soakRel_trans
        (soakRel_trans h0 (idleToPreheat_soak s1 e) (le_refl _)) (heatTicks_soak _ e)
        (by norm_num)) (bakeJudge_soak _ e) (le_refl _)) (bakeDone_soak _ e) (le_refl _))
        (coolManage_soak _ e) (le_refl _)) (emergencyOrPower_soak _ e) (le_refl _)
      norm_num at h
      exact h
  · exact soakRel_zero_quarter (soakRel_refl s)

theorem driveOutputs_soak (s : Sys) (e : Env) : SoakRel 0 s (driveOutputs s e) := by
  have hd : ∀ (z : IntelligentHeater) (o m : Nat), (z.drive o m).soak = z.soak := by
    intro z o m
    unfold IntelligentHeater.drive
    simp only
    split_ifs <;> rfl
  unfold driveOutputs
  simp only
  split_ifs <;> exact soakRel_of_eq (hd _ _ _) (hd _ _ _) rfl

theorem dirtySave_soak (s : Sys) (set : Bool) (ms : Nat) : SoakRel 0 s (dirtySave s set ms) := by
  unfold dirtySave
  simp only
  split_ifs <;> exact soakRel_of_eq rfl rfl rfl

/-- One pass of `loop`: each soak rises by at most 1/4, and the oven comes to Ready or
Baking only if both soaks were above 94.75. -/
theorem loop_soak (s : Sys) (e : Env) : SoakRel (1/4) s (loop s e) := by
  unfold loop
  have h := soakRel_trans (soakRel_trans (soakRel_trans (handleInput_soak s e)
    (runControlTick_soak _ e) (by norm_num)) (driveOutputs_soak _ e) (le_refl _))
    (dirtySave_soak _ false e.msSave) (le_refl _)
  norm_num at h
  exact h

/-- The same over `n` passes. -/
theorem loops_soak (envs : List Env) :
    ∀ s : Sys, SoakRel ((envs.length : ℚ) / 4) s (envs.foldl loop s) := by
  induction envs with
  | nil =>
    intro s
    simpa using soakRel_refl s
  | cons e rest ih =>
    intro s
    have h := soakRel_trans (loop_soak s e) (ih (loop s e)) (by positivity)
    rw [List.length_cons, List.foldl_cons]
    have e1 : (((rest.length + 1 : Nat) : ℚ)) / 4 = 1/4 + (rest.length : ℚ) / 4 := by
      push_cast; ring
    rw [e1]
    exact h

/-- The state after `n + 1` passes of `loop` from `bootState` with the plates on target is
`soakState (n + 1)`. -/
theorem soakState_foldl (n : Nat) (h : n < 380) :
    (soakEnvs (n + 1)).foldl loop bootState = soakState (n + 1) := by
  induction n with
  | zero => exact soak_first
  | succ k ih =>
    have hk := ih (by omega)
    unfold soakEnvs at hk ⊢
    rw [List.range_succ, List.map_append, List.foldl_append, hk]
    simp only [List.map_cons, List.map_nil, List.foldl_cons, List.foldl_nil]
    exact soak_step k (by omega)

/-- C23. Soak needs 381 ticks: from a zone whose soak is 0 (a zone just reset), after `n`
calls of `tick` (any targets, any readings) the soak is at most `n/4`; after `n`
consecutive accepted calls with target above 50 and within 5 of the filtered plate
temperature it equals `min(100, n/4)`; so after at most 380 calls `soak > 95` does not
hold, and the `ready` condition of the control tick is false in every state in which one
of the two zones has had at most 380 calls since its soak was 0; the 381st call in band
brings the soak to 95.25.  For the whole firmware: from any state in which a zone's soak
is 0 and the oven is neither Ready nor Baking, 380 passes of `loop` (at most 380 control
ticks), whatever the inputs, do not bring the oven to Ready or Baking. -/
theorem soak_needs_381 (z : IntelligentHeater) (health : ℚ) (calls : List TickCall)
    (hz : z.soak = 0) :
    (tickCalls (z, health) calls).1.soak ≤ (calls.length : ℚ) / 4 ∧
    (soakRun (z, health) calls = true →
      (tickCalls (z, health) calls).1.soak = min 100 ((calls.length : ℚ) / 4)) ∧
    (calls.length ≤ 380 → ¬ (tickCalls (z, health) calls).1.soak > 95) ∧
    (calls.length ≤ 380 → ∀ s : Sys,
      s.up = (tickCalls (z, health) calls).1 ∨ s.lo = (tickCalls (z, health) calls).1 →
      ready s = false) ∧
    (soakRun (z, health) calls = true → calls.length = 381 →
      (tickCalls (z, health) calls).1.soak = 381 / 4 ∧
      (tickCalls (z, health) calls).1.soak > 95) ∧
    (∀ (s : Sys) (envs : List Env), s.up.soak = 0 ∨ s.lo.soak = 0 →
      s.oven ≠ OvenState.READY → s.oven ≠ OvenState.BAKING → envs.length ≤ 380 →
      (envs.foldl loop s).oven ≠ OvenState.READY ∧
      (envs.foldl loop s).oven ≠ OvenState.BAKING) := by
  have hle : (tickCalls (z, health) calls).1.soak ≤ (calls.length : ℚ) / 4 := by
    have h := (tickCalls_soak_le calls (z, health) (le_of_eq hz.symm)).2
    simp only [hz, zero_add] at h
    exact h
  have hrun : soakRun (z, health) calls = true →
      (tickCalls (z, health) calls).1.soak = min 100 ((calls.length : ℚ) / 4) := by
    intro h
    have h2 := tickCalls_soak_run calls (z, health) 0 (by simp [hz]) h
    simpa using h2
  have h95 : calls.length ≤ 380 → ¬ (tickCalls (z, health) calls).1.soak > 95 := by
    intro hn
    have : (calls.length : ℚ) ≤ 380 := by exact_mod_cast hn
    apply not_lt.mpr
    linarith
  refine ⟨hle, hrun, h95, ?_, ?_, ?_⟩
  · intro hn s hs
    have hno := h95 hn
    unfold ready
    rw [decide_eq_false_iff_not]
    rintro ⟨_, _, hmin⟩
    unfold fmin at hmin
    rcases hs with hs | hs
    · rw [hs] at hmin
      split_ifs at hmin with hc
      · exact hno hmin
      · exact hno (lt_of_lt_of_le hmin (not_lt.mp hc))
    · rw [hs] at hmin
      split_ifs at hmin with hc
      · exact hno (lt_trans hmin hc)
      · exact hno hmin
  · intro h hn
    have h2 := hrun h
    rw [hn] at h2
    have h3 : min (100 : ℚ) (((381 : Nat) : ℚ) / 4) = 381 / 4 := by
      rw [min_eq_right (by norm_num)]
      norm_num
    rw [h3] at h2
    rw [h2]
    exact ⟨rfl, by norm_num⟩
  · intro s envs hs h1 h2 hn
    have hq : (envs.length : ℚ) ≤ 380 := by exact_mod_cast hn
    have hrel := (loops_soak envs s).2.2
    have hnot : ¬ ((envs.foldl loop s).oven = OvenState.READY ∨
        (envs.foldl loop s).oven = OvenState.BAKING) := by
      intro hc
      rcases hrel hc with h3 | ⟨h3, h4⟩
      · rcases h3 with h3 | h3
        · exact h1 h3
        · exact h2 h3
      · rcases hs with hs | hs
        · have := h3 (le_of_eq hs.symm)
          rw [hs] at this
          linarith
        · have := h4 (le_of_eq hs.symm)
          rw [hs] at this
          linarith
    exact ⟨fun h => hnot (Or.inl h), fun h => hnot (Or.inr h)⟩

/-- C23, sample: from a zone just reset, 381 calls with the plate probe and the target at
500 °C are all in band and bring the soak to 95.25, above 95; and from boot (both soaks 0,
oven Idle) 381 passes of `loop` with the plates on target bring the oven to Ready. -/
theorem soak_needs_381_witness :
    (soakRun ((IntelligentHeater.new 0).reset 0, 100) (List.replicate 381 onTarget) = true ∧
      (tickCalls ((IntelligentHeater.new 0).reset 0, 100)
        (List.replicate 381 onTarget)).1.soak = 381 / 4 ∧
      (tickCalls ((IntelligentHeater.new 0).reset 0, 100)
        (List.replicate 381 onTarget)).1.soak > 95) ∧
    (bootState.up.soak = 0 ∧ bootState.oven = OvenState.IDLE ∧
      ((soakEnvs 380).foldl loop bootState).oven ≠ OvenState.READY ∧
      ((soakEnvs 381).foldl loop bootState).oven = OvenState.READY) :=
  ⟨⟨by decide!,
    (soak_needs_381 ((IntelligentHeater.new 0).reset 0) 100 (List.replicate 381 onTarget)
      rfl).2.2.2.2.1 (by decide!) (List.length_replicate _ _)⟩,
   ⟨by decide!, by decide!,
    ((soak_needs_381 ((IntelligentHeater.new 0).reset 0) 100 [] rfl).2.2.2.2.2
      bootState (soakEnvs 380) (Or.inl (by decide!)) (by decide!) (by decide!)
      (by simp [soakEnvs])).1,
    by
      have h : (soakEnvs 381).foldl loop bootState
          = loop (soakState 380) (soakEnv 381000) := by
        unfold soakEnvs
        rw [List.range_succ, List.map_append, List.foldl_append]
        have := soakState_foldl 379 (by omega)
        unfold soakEnvs at this
        rw [this]
        simp only [List.map_cons, List.map_nil, List.foldl_cons, List.foldl_nil]
      rw [h]
      decide!⟩⟩

/-! ## Entering Baking -/

/-- The Tuning path never ends in Baking. -/
theorem tuning_path_not_baking (s : Sys) (e : Env) (h : s.oven = OvenState.TUNING) :
    (tuneSafety (tuneTicks (tuneAdvance s e) e) e).oven ≠ OvenState.BAKING := by
  have h1 : (tuneAdvance s e).oven ≠ OvenState.BAKING := by
    unfold tuneAdvance
    simp only [dirtySave_true]
    split_ifs <;> simp [h]
  have h2 : ∀ t : Sys, (tuneTicks t e).oven = t.oven := by
    intro t
    unfold tuneTicks tickUp tickLo
    simp only
    split_ifs <;> simp
  have h3 : ∀ t : Sys, (tuneSafety t e).oven = OvenState.ERROR ∨ (tuneSafety t e).oven = t.oven := by
    intro t
    unfold tuneSafety
    simp only [dirtySave_true]
    split_ifs <;> simp
  rcases h3 (tuneTicks (tuneAdvance s e) e) with h4 | h4
  · rw [h4]; decide
  · rw [h4, h2]; exact h1

/-- A state in Baking after the emergency test and `calculatePower` was in Baking before,
without a fault bit; the zones and the bake bookkeeping are untouched. -/
theorem emergencyOrPower_baking (s : Sys) (e : Env)
    (h : (emergencyOrPower s e).oven = OvenState.BAKING) :
    s.oven = OvenState.BAKING ∧
    (emergencyOrPower s e).up = s.up ∧ (emergencyOrPower s e).lo = s.lo ∧
    (emergencyOrPower s e).baking = s.baking ∧
    (emergencyOrPower s e).curBakeSec = s.curBakeSec ∧
    (emergencyOrPower s e).bakeStartMs = s.bakeStartMs ∧
    (emergencyOrPower s e).boostStartMs = s.boostStartMs ∧
    (emergencyOrPower s e).lastActMs = s.lastActMs ∧
    (emergencyOrPower s e).currentRecipe = s.currentRecipe := by
  unfold emergencyOrPower at h ⊢
  split_ifs at h ⊢ with hf
  · rw [dirtySave_true] at h
    simp at h
  · unfold calculatePower at h ⊢
    simp only at h ⊢
    split_ifs at h ⊢
    all_goals exact ⟨h, rfl, rfl, rfl, rfl, rfl, rfl, rfl, rfl⟩

/-- A state in Baking after the cooling block was in Baking before; the zones and the bake
bookkeeping are untouched. -/
theorem coolManage_baking (s : Sys) (e : Env)
    (h : (coolManage s e).oven = OvenState.BAKING) :
    s.oven = OvenState.BAKING ∧
    (coolManage s e).up = s.up ∧ (coolManage s e).lo = s.lo ∧
    (coolManage s e).baking = s.baking ∧
    (coolManage s e).curBakeSec = s.curBakeSec ∧
    (coolManage s e).bakeStartMs = s.bakeStartMs ∧
    (coolManage s e).boostStartMs = s.boostStartMs ∧
    (coolManage s e).lastActMs = s.lastActMs ∧
    (coolManage s e).currentRecipe = s.currentRecipe := by
  unfold coolManage cooledConfirmed at h ⊢
  simp only [dirtySave_true] at h ⊢
  split_ifs at h ⊢ <;> simp_all

/-- A state in Baking after the bake-done block is that block's input, and the bake has
not run out. -/
theorem bakeDone_baking (s : Sys) (e : Env) (h : (bakeDone s e).oven = OvenState.BAKING) :
    bakeDone s e = s ∧
    ¬ (s.baking = true ∧ sub32 e.now s.bakeStartMs ≥ (s.curBakeSec * 1000) % U32) := by
  unfold bakeDone at h ⊢
  simp only at h ⊢
  split_ifs at h ⊢
  all_goals simp_all

/-- The bake block ends in Baking from another state only through `startBake`. -/
theorem bakeJudge_baking (s : Sys) (e : Env) (h0 : s.oven ≠ OvenState.BAKING)
    (h : (bakeJudge s e).oven = OvenState.BAKING) :
    s.baking = false ∧ (s.oven = OvenState.PREHEAT ∨ s.oven = OvenState.READY) ∧
    ready s = true ∧ s.lo.trend < -2 ∧
    bakeJudge s e = startBake { s with oven := OvenState.READY } s.currentRecipe.bakeSec e.ms ∧
    ¬ sub32 e.now e.ms > Config.Hard.REST_TIMEOUT_MS := by
  unfold bakeJudge startBake at h ⊢
  simp only at h ⊢
  split_ifs at h ⊢ <;> simp_all

/-- The zone ticks leave the oven state, the baking flag and the recipe cache alone. -/
theorem heatTicks_frame (s : Sys) (e : Env) :
    (heatTicks s e).oven = s.oven ∧ (heatTicks s e).baking = s.baking ∧
    (heatTicks s e).currentRecipe = s.currentRecipe ∧
    (heatTicks s e).up =
      (s.up.tick e.upPlate e.upHeater e.upTune e.ms
        (if isHeating s = true then s.currentRecipe.upC else 0) s.settings.upHealth).1 := by
  unfold heatTicks tickUp tickLo
  simp only [dirtySave_true]
  split_ifs <;> exact ⟨rfl, rfl, rfl, rfl⟩

/-- The rest of the normal path after the zone ticks: if it ends in Baking from a state
`b` not in Baking, then `startBake` ran in the bake block and nothing after it touched the
zones or the bake bookkeeping. -/
theorem bake_chain (b : Sys) (e : Env) (hb : b.oven ≠ OvenState.BAKING)
    (h : (emergencyOrPower (coolManage (bakeDone (bakeJudge b e) e) e) e).oven
      = OvenState.BAKING) :
    (b.baking = false ∧ (b.oven = OvenState.PREHEAT ∨ b.oven = OvenState.READY) ∧
      ready b = true ∧ b.lo.trend < -2) ∧
    ((emergencyOrPower (coolManage (bakeDone (bakeJudge b e) e) e) e).up = b.up ∧
      (emergencyOrPower (coolManage (bakeDone (bakeJudge b e) e) e) e).lo = b.lo ∧
      (emergencyOrPower (coolManage (bakeDone (bakeJudge b e) e) e) e).currentRecipe
        = b.currentRecipe) ∧
    ((emergencyOrPower (coolManage (bakeDone (bakeJudge b e) e) e) e).baking = true ∧
      (emergencyOrPower (coolManage (bakeDone (bakeJudge b e) e) e) e).curBakeSec
        = b.currentRecipe.bakeSec ∧
      (emergencyOrPower (coolManage (bakeDone (bakeJudge b e) e) e) e).bakeStartMs = e.ms ∧
      (emergencyOrPower (coolManage (bakeDone (bakeJudge b e) e) e) e).boostStartMs = e.ms ∧
      (emergencyOrPower (coolManage (bakeDone (bakeJudge b e) e) e) e).lastActMs = e.ms) ∧
    (sub32 e.now e.ms ≤ Config.Hard.REST_TIMEOUT_MS ∧
      sub32 e.now e.ms < (b.currentRecipe.bakeSec * 1000) % U32) := by
  obtain ⟨g1, g2, g3, g4, g5, g6, g7, g8, g9⟩ := emergencyOrPower_baking _ e h
  obtain ⟨f1, f2, f3, f4, f5, f6, f7, f8, f9⟩ := coolManage_baking _ e g1
  obtain ⟨d1, d2⟩ := bakeDone_baking _ e f1
  rw [d1] at f1
  obtain ⟨c1, c2, c3, c4, c5, c6⟩ := bakeJudge_baking b e hb f1
  have hbake : (bakeJudge b e).baking = true ∧
      (bakeJudge b e).curBakeSec = b.currentRecipe.bakeSec ∧
      (bakeJudge b e).bakeStartMs = e.ms ∧ (bakeJudge b e).boostStartMs = e.ms ∧
      (bakeJudge b e).lastActMs = e.ms ∧ (bakeJudge b e).up = b.up ∧
      (bakeJudge b e).lo = b.lo ∧ (bakeJudge b e).currentRecipe = b.currentRecipe := by
    rw [c5]
    exact ⟨rfl, rfl, rfl, rfl, rfl, rfl, rfl, rfl⟩
  obtain ⟨b1, b2, b3, b4, b5, b6, b7, b8⟩ := hbake
  have hwrap : ¬ sub32 e.now e.ms ≥ (b.currentRecipe.bakeSec * 1000) % U32 := by
    intro hc
    apply d2
    rw [b1, b2, b3]
    exact ⟨rfl, hc⟩
  refine ⟨⟨c1, c2, c3, c4⟩, ⟨?_, ?_, ?_⟩, ⟨?_, ?_, ?_, ?_, ?_⟩, not_lt.mp c6, not_le.mp hwrap⟩
  · rw [g2, f2, d1, b6]
  · rw [g3, f3, d1, b7]
  · rw [g9, f9, d1, b8]
  · rw [g4, f4, d1, b1]
  · rw [g5, f5, d1, b2]
  · rw [g6, f6, d1, b3]
  · rw [g7, f7, d1, b4]
  · rw [g8, f8, d1, b5]

/-- After the step Idle → Preheat and the zone ticks the ready condition is false: the
soak of a zone just reset is at most 1/4. -/
theorem idle_not_ready (s : Sys) (e : Env)
    (hi : s.oven = OvenState.IDLE ∧ s.askConfirmation = AskConfirmation.NONE) :
    ready (heatTicks (idleToPreheat s e) e) = false := by
  have hbf := heatTicks_frame (idleToPreheat s e) e
  have hau : (idleToPreheat s e).up = s.up.reset e.ms := by
    unfold idleToPreheat
    rw [if_pos hi]
  have hsoak : (heatTicks (idleToPreheat s e) e).up.soak ≤ 1/4 := by
    rw [hbf.2.2.2, hau]
    have := (tickCall_soak_step (s.up.reset e.ms, (idleToPreheat s e).settings.upHealth)
      ⟨e.upPlate, e.upHeater, e.upTune, e.ms,
        (if isHeating (idleToPreheat s e) = true then (idleToPreheat s e).currentRecipe.upC
          else 0)⟩ (le_refl _)).2
    unfold tickCall at this
    simp only [IntelligentHeater.reset] at this ⊢
    linarith
  unfold ready
  rw [decide_eq_false_iff_not]
  rintro ⟨_, _, hmin⟩
  unfold fmin at hmin
  split_ifs at hmin with hc <;> linarith

/-- C22, amended.  Baking is entered only through the bake block: for every control tick
that starts in a state other than Baking and ends in Baking, the tick started in Preheat
or in Ready with `baking` false; once the zones have ticked the ready condition holds and
`lo.trend < -2` (the zones are not touched in the rest of the tick, so both also hold of
the state the tick ends in); at the end `baking = true`, the bake duration is the cached
recipe's `bakeSec`, and bake-start, boost-start and last-activity all hold the clock value
read by `startBake`, which is not after the tick's `now`: `now - ms` is at most the rest
timeout of 30 min and below `bakeSec * 1000`. -/
theorem baking_entered (s : Sys) (e : Env)
    (h0 : s.oven ≠ OvenState.BAKING) (h1 : (runControlTick s e).oven = OvenState.BAKING) :
    (s.oven = OvenState.PREHEAT ∨ s.oven = OvenState.READY) ∧ s.baking = false ∧
    (ready (heatTicks { s with lastCtrlMs := e.now } e) = true ∧
      (heatTicks { s with lastCtrlMs := e.now } e).lo.trend < -2) ∧
    ((runControlTick s e).up = (heatTicks { s with lastCtrlMs := e.now } e).up ∧
      (runControlTick s e).lo = (heatTicks { s with lastCtrlMs := e.now } e).lo) ∧
    (ready (runControlTick s e) = true ∧ (runControlTick s e).lo.trend < -2) ∧
    ((runControlTick s e).baking = true ∧
      (runControlTick s e).curBakeSec = s.currentRecipe.bakeSec ∧
      (runControlTick s e).bakeStartMs = e.ms ∧
      (runControlTick s e).boostStartMs = e.ms ∧
      (runControlTick s e).lastActMs = e.ms) ∧
    (sub32 e.now e.ms ≤ Config.Hard.REST_TIMEOUT_MS ∧
      sub32 e.now e.ms < (s.currentRecipe.bakeSec * 1000) % U32) := by
  by_cases hg : sub32 e.now s.lastCtrlMs ≥ 1000
  swap
  · rw [runControlTick_closed s e hg] at h1
    exact absurd h1 h0
  by_cases ht : s.oven = OvenState.TUNING
  · rw [runControlTick_tuning s e hg ht] at h1
    exact absurd h1 (tuning_path_not_baking _ e ht)
  have hrun := runControlTick_normal s e hg ht
  unfold beforeCool at hrun
  rw [hrun] at h1 ⊢
  by_cases hidle : s.oven = OvenState.IDLE ∧ s.askConfirmation = AskConfirmation.NONE
  · exfalso
    have hnr := idle_not_ready { s with lastCtrlMs := e.now } e hidle
    have hov : (heatTicks (idleToPreheat { s with lastCtrlMs := e.now } e) e).oven
        ≠ OvenState.BAKING := by
      rw [(heatTicks_frame _ e).1]
      unfold idleToPreheat
      rw [if_pos hidle]
      simp
    have hc := (bake_chain _ e hov h1).1.2.2.1
    rw [hnr] at hc
    exact Bool.false_ne_true hc
  · have haeq : idleToPreheat { s with lastCtrlMs := e.now } e = { s with lastCtrlMs := e.now } := by
      unfold idleToPreheat
      rw [if_neg hidle]
    rw [haeq] at h1 ⊢
    have hbf := heatTicks_frame { s with lastCtrlMs := e.now } e
    generalize heatTicks { s with lastCtrlMs := e.now } e = b at h1 hbf ⊢
    have hbo : b.oven = s.oven := hbf.1
    have hbb : b.baking = s.baking := hbf.2.1
    have hbr : b.currentRecipe = s.currentRecipe := hbf.2.2.1
    obtain ⟨⟨c1, c2, c3, c4⟩, ⟨u1, u2, u3⟩, ⟨k1, k2, k3, k4, k5⟩, w1, w2⟩ :=
      bake_chain b e (by rw [hbo]; exact h0) h1
    refine ⟨?_, ?_, ⟨c3, c4⟩, ⟨u1, u2⟩, ⟨?_, ?_⟩, ⟨k1, ?_, k3, k4, k5⟩, w1, ?_⟩
    · rw [← hbo]; exact c2
    · rw [← hbb]; exact c1
    · unfold ready at c3 ⊢
      rw [u1, u2, u3]
      exact c3
    · rw [u2]; exact c4
    · rw [k2, hbr]
    · rw [← hbr]; exact w2

theorem surged_reachable : Reachable surged :=
  Reachable.step _ _ (Reachable.step _ _ (Reachable.step _ _ (Reachable.step _ _
    (Reachable.step _ _ (Reachable.step _ _ (Reachable.step _ _
      (soakState_reachable 379 (by omega))))))))

/-- C22, the claim fails: the state `surged`, reached from boot, is in Preheat (the oven
was Ready at 384 s and fell back when the lower plate left the band); at the control tick
of 388 s the filtered lower plate is back in the band with a trend below -2 °C/s while
both soaks are above 95, and the tick that starts in Preheat ends in Baking. -/
theorem bake_entered_from_preheat :
    Reachable surged ∧
    soaked.oven = OvenState.READY ∧
    surged.oven = OvenState.PREHEAT ∧
    (handleInput surged (doughEnv 388000)).oven = OvenState.PREHEAT ∧
    (runControlTick (handleInput surged (doughEnv 388000)) (doughEnv 388000)).oven
      = OvenState.BAKING ∧
    (runControlTick surged (doughEnv 388000)).oven = OvenState.BAKING ∧
    ¬ ((surged.oven ≠ OvenState.BAKING ∧
        (runControlTick surged (doughEnv 388000)).oven = OvenState.BAKING) →
      surged.oven = OvenState.READY) :=
  ⟨surged_reachable, by decide!, by decide!, by decide!, by decide!, by decide!, by decide!⟩

/-- C22 amended, samples: the tick of 388 s from `surged` (Preheat) and a tick from the
Ready state with a trend of -3 °C/s both end in Baking with the timestamps at the clock
value of the tick and the duration at 90 s (Napoli). -/
theorem baking_entered_witness :
    ((surged.oven = OvenState.PREHEAT ∨ surged.oven = OvenState.READY) ∧
      (runControlTick surged (doughEnv 388000)).baking = true ∧
      (runControlTick surged (doughEnv 388000)).curBakeSec = 90 ∧
      (runControlTick surged (doughEnv 388000)).bakeStartMs = 388000) ∧
    (soakedFalling.oven = OvenState.READY ∧
      (runControlTick soakedFalling (soakEnv 385000)).oven = OvenState.BAKING ∧
      (runControlTick soakedFalling (soakEnv 385000)).baking = true ∧
      (runControlTick soakedFalling (soakEnv 385000)).lastActMs = 385000) :=
  ⟨⟨(baking_entered surged (doughEnv 388000) (by decide!) (by decide!)).1,
     (baking_entered surged (doughEnv 388000) (by decide!) (by decide!)).2.2.2.2.2.1.1,
     by decide!,
     (baking_entered surged (doughEnv 388000) (by decide!) (by decide!)).2.2.2.2.2.1.2.2.1⟩,
   ⟨by decide!, by decide!,
     (baking_entered soakedFalling (soakEnv 385000) (by decide!)
       (by decide!)).2.2.2.2.2.1.1,
     (baking_entered soakedFalling (soakEnv 385000) (by decide!)
       (by decide!)).2.2.2.2.2.1.2.2.2.2⟩⟩

/-- When `millis()` has moved on by 1 ms between the top of `loop` and the call of
`startBake`, the bake that starts at the tick of 388 s is over in the same tick: the
differences `now - lastActMs` and `now - bakeStartMs` wrap around, the oven goes to Rest
and then to BakeDone, and `baking` is cleared again. -/
theorem bake_lost_when_clock_advances :
    (bakeJudge (heatTicks { surged with lastCtrlMs := 388000 } (doughLateEnv 388000))
      (doughLateEnv 388000)).oven = OvenState.REST ∧
    (bakeJudge (heatTicks { surged with lastCtrlMs := 388000 } (doughLateEnv 388000))
      (doughLateEnv 388000)).baking = true ∧
    (runControlTick surged (doughLateEnv 388000)).oven = OvenState.BAKE_DONE ∧
    (runControlTick surged (doughLateEnv 388000)).baking = false ∧
    (runControlTick surged (doughLateEnv 388000)).bakeStartMs = 388001 := by
  decide!

end ElPico
